import Mathlib

/-! # BucketOS hypervisor core: a shallow embedding of `src/main/kernel.c`

The development embeds the virtualization part of the kernel (capability
detection, CR4 enabling, VMCS configuration, EPT construction, I/O bitmap
construction, guest launch, the exit dispatcher and its handlers) as pure
functions over an explicit machine state.

Conventions.
* Machine integers are naturals; a conversion to `uintN_t` is `% 2^N`.
* Pointers are 32 bits wide; the cast of a pointer to `uint64_t` is
  `ptr_to_u64`, the sign extension GCC performs.
* Privileged instructions issued through inline assembly act on explicit
  components of `Machine` (the VMCS field map, the MSR map, CR4) and every
  such instruction, every store to one of the static arrays and every entry
  into a translated function is appended to `Machine.trace`, oldest first.
* Addresses of static objects are fixed by the linker and are supplied as a
  `Layout`.
-/

namespace BucketOS

/-! ## Machine integers -/

/-- Conversion to `uint8_t`. -/
def u8 (n : Nat) : Nat := n % 2 ^ 8

/-- Conversion to `uint16_t`. -/
def u16 (n : Nat) : Nat := n % 2 ^ 16

/-- Conversion to `uint32_t`. -/
def u32 (n : Nat) : Nat := n % 2 ^ 32

/-- Conversion to `uint64_t`. -/
def u64 (n : Nat) : Nat := n % 2 ^ 64

/-- The cast `(uint64_t)p` of a pointer `p`. Pointers of the 32-bit kernel are
32 bits wide, and GCC sign-extends a pointer converted to a wider integer
type: an address with bit 31 set gets bits 63:32 set. -/
def ptr_to_u64 (p : Nat) : Nat :=
  if u32 p < 2 ^ 31 then u32 p else u32 p + 0xFFFFFFFF00000000

/-- Bitwise complement of a non-negative `int`, as its 32-bit pattern. -/
def not32 (n : Nat) : Nat := 0xFFFFFFFF ^^^ u32 n

/-! ## Static objects, events and the machine state -/

/-- The static arrays of the hypervisor: the four `uint64_t[512]` EPT tables
of `init_ept`, the two `uint8_t[4096]` bitmaps of `setup_vmcs_features`, and
the `vmcs_t` page of `alloc_vmcs` (indexed in 32-bit words, word 0 being
`revision_id`). -/
inductive Region where
  | pml4
  | pdpt
  | pd
  | pt
  | io_bitmap_a
  | io_bitmap_b
  | vmcs
  deriving DecidableEq, Repr

/-- The functions of `kernel.c` translated below. -/
inductive Fn where
  | check_vtx_support
  | enable_vtx
  | init_hypervisor_foundation
  | get_vmx_info
  | alloc_vmcs
  | vmexit_handler
  | handle_cpuid_exit
  | handle_io_exit
  | handle_hlt_exit
  | handle_exception_exit
  | handle_msr_exit
  | read_msr
  | write_msr
  | setup_vmcs
  | launch_minimal_vm
  | init_ept
  | get_eptp
  | setup_vmcs_features
  | handle_port_out
  | handle_port_in
  | memset
  deriving DecidableEq, Repr

/-- One observable action. `call f args` records entry into a translated
function; the others are single instructions, a store to a static array, or a
call of the (external) text renderer `draw_string`. -/
inductive Event where
  | call (f : Fn) (args : List Nat)
  | cpuid (leaf : Nat)
  | mov_from_cr4
  | mov_to_cr4 (v : Nat)
  | rdmsr (idx : Nat)
  | wrmsr (idx low high : Nat)
  | vmptrld (addr : Nat)
  | vmread (field : Nat)
  | vmwrite (field value : Nat)
  | vmlaunch
  | vmresume
  | outb (port val : Nat)
  | inb (port : Nat)
  | store (r : Region) (i v : Nat)
  | draw_string (x y : Nat) (str : String) (color : Nat)
  deriving DecidableEq, Repr

/-- Link-time addresses: of each static array and of the code of
`vmexit_handler`. -/
structure Layout where
  addr : Region → Nat
  vmexit_handler : Nat

/-- The machine state.

Hardware: `cpuid_hw leaf` is the `(eax, ebx, ecx, edx)` answer of the
processor, `cr4` the control register, `msr` the model-specific registers,
`inb_hw port` the byte a device presents on a port, `vmcs_field` the fields of
the current VMCS by encoding and `current_vmcs` the pointer last loaded.

Globals of `kernel.c`: `vtx_supported`, `vmcs_revision_id`, `vmx_basic`, the
four `ept_*` pointers, and the contents `mem` of the static arrays. -/
structure Machine where
  cpuid_hw : Nat → Nat × Nat × Nat × Nat
  cr4 : Nat
  msr : Nat → Nat
  inb_hw : Nat → Nat
  vmcs_field : Nat → Nat
  current_vmcs : Option Nat
  vtx_supported : Bool
  vmcs_revision_id : Nat
  vmx_basic : Nat
  ept_pml4 : Nat
  ept_pdpt : Nat
  ept_pd : Nat
  ept_pt : Nat
  mem : Region → Nat → Nat
  trace : List Event

/-- Append one event to the trace. -/
def Machine.log (m : Machine) (e : Event) : Machine :=
  { m with trace := m.trace ++ [e] }

/-! ## VMCS field encodings and exit reasons (the `#define`s) -/

def VMCS_GUEST_ES_SELECTOR : Nat := 0x00000800
def VMCS_GUEST_CS_SELECTOR : Nat := 0x00000802
def VMCS_GUEST_SS_SELECTOR : Nat := 0x00000804
def VMCS_GUEST_DS_SELECTOR : Nat := 0x00000806
def VMCS_GUEST_FS_SELECTOR : Nat := 0x00000808
def VMCS_GUEST_GS_SELECTOR : Nat := 0x0000080A
def VMCS_GUEST_CR0 : Nat := 0x00006800
def VMCS_GUEST_CR3 : Nat := 0x00006802
def VMCS_GUEST_CR4 : Nat := 0x00006804
def VMCS_GUEST_RSP : Nat := 0x0000681C
def VMCS_GUEST_RIP : Nat := 0x0000681E
def VMCS_GUEST_RFLAGS : Nat := 0x00006820
def VMCS_HOST_CR0 : Nat := 0x00006C00
def VMCS_HOST_CR3 : Nat := 0x00006C02
def VMCS_HOST_CR4 : Nat := 0x00006C04
def VMCS_HOST_RSP : Nat := 0x00006C14
def VMCS_HOST_RIP : Nat := 0x00006C16
def VMCS_EXIT_REASON : Nat := 0x00004402
def VMCS_EXIT_QUALIFICATION : Nat := 0x00006400
def VMCS_GUEST_RAX : Nat := 0x0000681E
def VMCS_GUEST_RBX : Nat := 0x0000681C
def VMCS_GUEST_RCX : Nat := 0x0000681A
def VMCS_GUEST_RDX : Nat := 0x00006818

def VMEXIT_CPUID : Nat := 10
def VMEXIT_HLT : Nat := 12
def VMEXIT_IO : Nat := 30
def VMEXIT_EXCEPTION : Nat := 0
def VMEXIT_MSR_READ : Nat := 31
def VMEXIT_MSR_WRITE : Nat := 32

def EPT_MT_WB : Nat := 0x06
def EPT_PRESENT : Nat := 0x01
def EPT_RW : Nat := 0x02
def EPT_EXECUTE : Nat := 1 <<< 2

/-! ## Inline-assembly helpers -/

/-- The `outb` helper: one byte written to a hardware port. -/
def outb (port val : Nat) (m : Machine) : Machine :=
  m.log (Event.outb (u16 port) (u8 val))

/-- The `inb` helper: one byte read from a hardware port. -/
def inb (port : Nat) (m : Machine) : Nat × Machine :=
  (u8 (m.inb_hw (u16 port)), m.log (Event.inb (u16 port)))

/-- The `vmptrld` helper: make the region at `addr` the current VMCS. -/
def vmptrld (addr : Nat) (m : Machine) : Machine :=
  { m with current_vmcs := some (u64 addr), trace := m.trace ++ [Event.vmptrld (u64 addr)] }

/-- The `vmwrite` helper: store a 64-bit value in a field of the current VMCS. -/
def vmwrite (field value : Nat) (m : Machine) : Machine :=
  { m with
    vmcs_field := fun f => if f = field then u64 value else m.vmcs_field f,
    trace := m.trace ++ [Event.vmwrite field (u64 value)] }

/-- The `vmread` helper: load a field of the current VMCS. -/
def vmread (field : Nat) (m : Machine) : Nat × Machine :=
  (u64 (m.vmcs_field field), m.log (Event.vmread field))

/-- The `vmlaunch` helper. Only the attempt is recorded; what the guest does
afterwards is outside the kernel source. -/
def vmlaunch (m : Machine) : Machine := m.log Event.vmlaunch

/-- The `vmresume` helper. Only the attempt is recorded. -/
def vmresume (m : Machine) : Machine := m.log Event.vmresume

/-- A store `array[i] = v` into one of the static arrays. -/
def store (r : Region) (i v : Nat) (m : Machine) : Machine :=
  { m with
    mem := fun r2 j => if r2 = r ∧ j = i then v else m.mem r2 j,
    trace := m.trace ++ [Event.store r i v] }

/-- The external text renderer `draw_string`; the frame buffer it paints is
not part of the hypervisor state, only the call is recorded. -/
def draw_string (x y : Nat) (str : String) (color : Nat) (m : Machine) : Machine :=
  m.log (Event.draw_string x y str color)

/-! ## Memory operations -/

/-- The loop `while (n--) *p++ = (uint8_t)c` of `memset`, with `p` the offset
of the cursor inside the array `r`. -/
def memset_loop (r : Region) (c : Nat) : Nat → Nat → Machine → Machine
  | _, 0, m => m
  | p, n + 1, m => memset_loop r c (p + 1) n (store r p (u8 c) m)

/-- The `memset` of `kernel.c`, applied to a whole static array. -/
def memset (L : Layout) (r : Region) (c n : Nat) (m : Machine) : Machine :=
  memset_loop r c 0 n (m.log (Event.call Fn.memset [L.addr r, c, n]))

/-! ## Capability detection and enabling -/

/-- `check_vtx_support`: CPUID leaf 1, ECX bit 5. -/
def check_vtx_support (m : Machine) : Bool × Machine :=
  let m := m.log (Event.call Fn.check_vtx_support [])
  let ecx := u32 (m.cpuid_hw 1).2.2.1
  let m := m.log (Event.cpuid 1)
  if ecx &&& (1 <<< 5) = 0 then (false, m) else (true, m)

/-- `enable_vtx`: read CR4, set bit 13 (CR4.VMXE), write CR4 back. -/
def enable_vtx (m : Machine) : Machine :=
  let m := m.log (Event.call Fn.enable_vtx [])
  let cr4 := u32 m.cr4
  let m := m.log Event.mov_from_cr4
  let cr4 := u32 (cr4 ||| (1 <<< 13))
  { m with cr4 := cr4, trace := m.trace ++ [Event.mov_to_cr4 cr4] }

/-- `get_vmx_info`: CPUID leaf 1 (result unused), then `rdmsr 0x480` into
`vmx_basic`, of which the low 31 bits become `vmcs_revision_id`. -/
def get_vmx_info (m : Machine) : Machine :=
  let m := m.log (Event.call Fn.get_vmx_info [])
  let m := m.log (Event.cpuid 1)
  let m := m.log (Event.rdmsr 0x480)
  let vmx_basic := u64 (m.msr 0x480)
  { m with vmx_basic := vmx_basic, vmcs_revision_id := u32 (vmx_basic &&& 0x7FFFFFFF) }

/-- `alloc_vmcs`: stamp the static VMCS page with the revision identifier and
return its address. -/
def alloc_vmcs (L : Layout) (m : Machine) : Nat × Machine :=
  let m := m.log (Event.call Fn.alloc_vmcs [])
  let m := store Region.vmcs 0 (u32 m.vmcs_revision_id) m
  (L.addr Region.vmcs, m)

/-! ## Port and register emulation -/

/-- `handle_port_out`: the `switch (port)` over the recognised output ports. -/
def handle_port_out (port value size : Nat) (m : Machine) : Machine :=
  let m := m.log (Event.call Fn.handle_port_out [port, value, size])
  if port = 0x3F8 then m
  else if port = 0x3F9 then m
  else if port = 0x3C8 ∨ port = 0x3C9 then outb port (u8 value) m
  else m

/-- `handle_port_in`: the `switch (port)` over the recognised input ports. -/
def handle_port_in (port size : Nat) (m : Machine) : Nat × Machine :=
  let m := m.log (Event.call Fn.handle_port_in [port, size])
  if port = 0x3F8 then (0, m)
  else if port = 0x3FD then (0x60, m)
  else if port = 0x3C9 then
    let r := inb port m
    (u32 r.1, r.2)
  else (0xFFFFFFFF, m)

/-- `read_msr`: `rdmsr` delivers the register in two 32-bit halves, which are
reassembled. -/
def read_msr (msr : Nat) (m : Machine) : Nat × Machine :=
  let m := m.log (Event.call Fn.read_msr [msr])
  let low := u32 (m.msr msr)
  let high := u32 (m.msr msr >>> 32)
  let m := m.log (Event.rdmsr msr)
  (u64 (u64 high <<< 32) ||| low, m)

/-- `write_msr`: the value is split in two 32-bit halves handed to `wrmsr`,
which stores `high:low` in the register. -/
def write_msr (msr value : Nat) (m : Machine) : Machine :=
  let m := m.log (Event.call Fn.write_msr [msr, value])
  let low := u32 (value &&& 0xFFFFFFFF)
  let high := u32 (value >>> 32)
  { m with
    msr := fun i => if i = msr then high * 2 ^ 32 + low else m.msr i,
    trace := m.trace ++ [Event.wrmsr msr low high] }

/-! ## Exit handlers -/

/-- `handle_cpuid_exit`. -/
def handle_cpuid_exit (m : Machine) : Machine :=
  let m := m.log (Event.call Fn.handle_cpuid_exit [])
  let r := vmread VMCS_GUEST_RAX m
  let leaf := u32 r.1
  let m := r.2
  let regs : Nat × Nat × Nat × Nat :=
    if leaf = 0 then (1, 0x756E6547, 0x6C65746E, 0x49656E69)
    else if leaf = 1 then (0x0001067A, 0, 0, 0x00000001)
    else (0, 0, 0, 0)
  let eax := regs.1
  let ebx := regs.2.1
  let ecx := regs.2.2.1
  let edx := regs.2.2.2
  let m := vmwrite VMCS_GUEST_RAX eax m
  let m := vmwrite VMCS_GUEST_RBX ebx m
  let m := vmwrite VMCS_GUEST_RCX ecx m
  vmwrite VMCS_GUEST_RDX edx m

/-- `handle_io_exit`. The decoded `string` bit is computed and never used. -/
def handle_io_exit (m : Machine) : Machine :=
  let m := m.log (Event.call Fn.handle_io_exit [])
  let r := vmread VMCS_EXIT_QUALIFICATION m
  let qualification := u32 r.1
  let m := r.2
  let port := u16 (qualification >>> 16)
  let size := u8 ((qualification >>> 5) &&& 3)
  let direction := u8 (qualification &&& 1)
  if direction = 0 then
    let r := vmread VMCS_GUEST_RAX m
    let value := u32 r.1
    handle_port_out port value size r.2
  else
    let r := handle_port_in port size m
    let value := u32 r.1
    vmwrite VMCS_GUEST_RAX value r.2

/-- `handle_hlt_exit`. -/
def handle_hlt_exit (m : Machine) : Machine :=
  let m := m.log (Event.call Fn.handle_hlt_exit [])
  let r := vmread VMCS_GUEST_RIP m
  let rip := u32 r.1
  vmwrite VMCS_GUEST_RIP (u32 (rip + 1)) r.2

/-- `handle_exception_exit`: the vector is decoded; every `case` is empty. -/
def handle_exception_exit (m : Machine) : Machine :=
  let m := m.log (Event.call Fn.handle_exception_exit [])
  let r := vmread VMCS_EXIT_QUALIFICATION m
  let qualification := u32 r.1
  let vector := u8 (qualification &&& 0xFF)
  if vector = 0 ∨ vector = 6 ∨ vector = 13 then r.2 else r.2

/-- `handle_msr_exit`. -/
def handle_msr_exit (m : Machine) : Machine :=
  let m := m.log (Event.call Fn.handle_msr_exit [])
  let r := vmread VMCS_EXIT_REASON m
  let exit_reason := u32 r.1
  let r := vmread VMCS_GUEST_RCX r.2
  let msr := u32 r.1
  let m := r.2
  if exit_reason = VMEXIT_MSR_READ then
    let r := read_msr msr m
    let value := r.1
    let m := vmwrite VMCS_GUEST_RAX (value &&& 0xFFFFFFFF) r.2
    vmwrite VMCS_GUEST_RDX (value >>> 32) m
  else
    let r := vmread VMCS_GUEST_RAX m
    let low := u32 r.1
    let r := vmread VMCS_GUEST_RDX r.2
    let high := u32 r.1
    write_msr msr (u64 (u64 high <<< 32) ||| u64 low) r.2

/-- The dispatcher `vmexit_handler`. -/
def vmexit_handler (m : Machine) : Machine :=
  let m := m.log (Event.call Fn.vmexit_handler [])
  let r := vmread VMCS_EXIT_REASON m
  let exit_reason := u32 r.1
  let m := r.2
  let m :=
    if exit_reason = VMEXIT_CPUID then handle_cpuid_exit m
    else if exit_reason = VMEXIT_HLT then handle_hlt_exit m
    else if exit_reason = VMEXIT_IO then handle_io_exit m
    else if exit_reason = VMEXIT_EXCEPTION then handle_exception_exit m
    else if exit_reason = VMEXIT_MSR_READ ∨ exit_reason = VMEXIT_MSR_WRITE then handle_msr_exit m
    else m
  vmresume m

/-! ## Extended page tables -/

/-- The loop `for (int i = 0; i < 512; i++)` of `init_ept`, entered at index
`i` with `n = 512 - i` iterations left. -/
def init_ept_loop : Nat → Nat → Machine → Machine
  | _, 0, m => m
  | i, n + 1, m =>
    let addr := u64 (i * 4096)
    init_ept_loop (i + 1) n
      (store Region.pt i
        (addr ||| EPT_PRESENT ||| EPT_RW ||| EPT_EXECUTE ||| (EPT_MT_WB <<< 3)) m)

/-- `init_ept`: point the four globals at the static tables, link the three
upper levels through their entry 0 and fill the leaf table. -/
def init_ept (L : Layout) (m : Machine) : Machine :=
  let m := m.log (Event.call Fn.init_ept [])
  let m := { m with
    ept_pml4 := L.addr Region.pml4,
    ept_pdpt := L.addr Region.pdpt,
    ept_pd := L.addr Region.pd,
    ept_pt := L.addr Region.pt }
  let m := store Region.pml4 0 (ptr_to_u64 m.ept_pdpt ||| EPT_PRESENT ||| EPT_RW ||| EPT_EXECUTE) m
  let m := store Region.pdpt 0 (ptr_to_u64 m.ept_pd ||| EPT_PRESENT ||| EPT_RW ||| EPT_EXECUTE) m
  let m := store Region.pd 0 (ptr_to_u64 m.ept_pt ||| EPT_PRESENT ||| EPT_RW ||| EPT_EXECUTE) m
  init_ept_loop 0 512 m

/-- `get_eptp`: the EPT pointer built from the global `ept_pml4`. -/
def get_eptp (m : Machine) : Nat × Machine :=
  let m := m.log (Event.call Fn.get_eptp [])
  ((ptr_to_u64 m.ept_pml4 &&& 0xFFFFFFFFFF000) ||| (EPT_MT_WB <<< 3) ||| 0x6, m)

/-! ## I/O bitmaps and VMCS features -/

/-- One statement `io_bitmap_a[port >> 3] &= ~(1 << (port & 7))` of
`setup_vmcs_features`. -/
def io_bitmap_a_allow (port : Nat) (m : Machine) : Machine :=
  store Region.io_bitmap_a (port >>> 3)
    (u8 (m.mem Region.io_bitmap_a (port >>> 3) &&& not32 (1 <<< (port &&& 7)))) m

/-- `setup_vmcs_features`: enable EPT, record the EPT pointer, build the two
I/O bitmaps, record their addresses and set bit 25 of the primary controls. -/
def setup_vmcs_features (L : Layout) (m : Machine) : Machine :=
  let m := m.log (Event.call Fn.setup_vmcs_features [])
  let m := vmwrite 0x0000201A 1 m
  let r := get_eptp m
  let m := vmwrite 0x0000201C r.1 r.2
  let m := memset L Region.io_bitmap_a 0xFF 4096 m
  let m := memset L Region.io_bitmap_b 0xFF 4096 m
  let m := io_bitmap_a_allow 0x3C0 m
  let m := io_bitmap_a_allow 0x3C1 m
  let m := io_bitmap_a_allow 0x3C4 m
  let m := io_bitmap_a_allow 0x3C5 m
  let m := io_bitmap_a_allow 0x3CE m
  let m := io_bitmap_a_allow 0x3CF m
  let m := vmwrite 0x00002000 (u32 (L.addr Region.io_bitmap_a)) m
  let m := vmwrite 0x00002002 (u32 (L.addr Region.io_bitmap_b)) m
  let r := vmread 0x00004004 m
  let exec_controls := u32 r.1
  let exec_controls := u32 (exec_controls ||| (1 <<< 25))
  vmwrite 0x00004004 exec_controls r.2

/-! ## VMCS configuration and launch -/

/-- The struct `guest_regs_t`. -/
structure guest_regs_t where
  eax : Nat
  ebx : Nat
  ecx : Nat
  edx : Nat
  esi : Nat
  edi : Nat
  ebp : Nat
  esp : Nat
  eip : Nat
  eflags : Nat
  cr0 : Nat
  cr2 : Nat
  cr3 : Nat
  cr4 : Nat
  cs : Nat
  ds : Nat
  es : Nat
  fs : Nat
  gs : Nat
  ss : Nat
  tr : Nat
  ldtr : Nat
  gdtr_base : Nat
  gdtr_limit : Nat
  idtr_base : Nat
  idtr_limit : Nat

/-- `setup_vmcs`: load the VMCS, write guest and host state, then build the
tables and the trap configuration. -/
def setup_vmcs (L : Layout) (vmcs : Nat) (guest : guest_regs_t) (m : Machine) : Machine :=
  let m := m.log (Event.call Fn.setup_vmcs [vmcs])
  let m := vmptrld (ptr_to_u64 vmcs) m
  let m := vmwrite VMCS_GUEST_CR0 (u32 guest.cr0) m
  let m := vmwrite VMCS_GUEST_CR3 (u32 guest.cr3) m
  let m := vmwrite VMCS_GUEST_CR4 (u32 guest.cr4) m
  let m := vmwrite VMCS_GUEST_RSP (u32 guest.esp) m
  let m := vmwrite VMCS_GUEST_RIP (u32 guest.eip) m
  let m := vmwrite VMCS_GUEST_RFLAGS (u32 guest.eflags) m
  let m := vmwrite VMCS_GUEST_CS_SELECTOR (u16 guest.cs) m
  let m := vmwrite VMCS_GUEST_DS_SELECTOR (u16 guest.ds) m
  let m := vmwrite VMCS_GUEST_ES_SELECTOR (u16 guest.es) m
  let m := vmwrite VMCS_GUEST_FS_SELECTOR (u16 guest.fs) m
  let m := vmwrite VMCS_GUEST_GS_SELECTOR (u16 guest.gs) m
  let m := vmwrite VMCS_GUEST_SS_SELECTOR (u16 guest.ss) m
  let m := vmwrite VMCS_HOST_CR0 (u32 guest.cr0) m
  let m := vmwrite VMCS_HOST_CR3 (u32 guest.cr3) m
  let m := vmwrite VMCS_HOST_CR4 (u32 guest.cr4) m
  let m := vmwrite VMCS_HOST_RSP 0x90000 m
  let m := vmwrite VMCS_HOST_RIP (ptr_to_u64 L.vmexit_handler) m
  let m := init_ept L m
  setup_vmcs_features L m

/-- The initial guest of `launch_minimal_vm`; members the designated
initialiser does not name are zero. -/
def minimal_guest : guest_regs_t :=
  { eax := 0, ebx := 0, ecx := 0, edx := 0, esi := 0, edi := 0, ebp := 0,
    esp := 0x7C00, eip := 0x7C00, eflags := 0x02,
    cr0 := 0, cr2 := 0, cr3 := 0, cr4 := 0,
    cs := 0, ds := 0, es := 0, fs := 0, gs := 0, ss := 0,
    tr := 0, ldtr := 0, gdtr_base := 0, gdtr_limit := 0, idtr_base := 0, idtr_limit := 0 }

/-- `launch_minimal_vm`. -/
def launch_minimal_vm (L : Layout) (m : Machine) : Machine :=
  let m := m.log (Event.call Fn.launch_minimal_vm [])
  let r := alloc_vmcs L m
  let m := setup_vmcs L r.1 minimal_guest r.2
  vmlaunch m

/-- `init_hypervisor_foundation`. -/
def init_hypervisor_foundation (L : Layout) (m : Machine) : Bool × Machine :=
  let m := m.log (Event.call Fn.init_hypervisor_foundation [])
  let r := check_vtx_support m
  let m := { r.2 with vtx_supported := r.1 }
  if !m.vtx_supported then
    (false, draw_string 10 50 "VT-x not supported!" 12 m)
  else
    let m := enable_vtx m
    let m := draw_string 10 50 "VT-x enabled!" 10 m
    let m := get_vmx_info m
    let m := launch_minimal_vm L m
    (true, m)

/-! ## The processor's EPT walk

The walk is performed by the processor, not by `kernel.c`; it is modelled here
to read the tables the way the hardware does: four levels of 512 entries
indexed by bits 47:39, 38:30, 29:21 and 20:12 of the guest-physical address,
an entry being present when one of its bits 2:0 is set and bits 51:12 of a
present entry giving the address of the next table. Addresses of 2^48 and
above are outside the reach of a four-level walk. -/

/-- The table stored at a physical address, if it is one of the four static
tables. -/
def table_at (L : Layout) (m : Machine) (a : Nat) : Option (Nat → Nat) :=
  if a = L.addr Region.pml4 then some (m.mem Region.pml4)
  else if a = L.addr Region.pdpt then some (m.mem Region.pdpt)
  else if a = L.addr Region.pd then some (m.mem Region.pd)
  else if a = L.addr Region.pt then some (m.mem Region.pt)
  else none

/-- Entry `idx` of the table at address `a`, when that table exists and the
entry is present. -/
def ept_entry (L : Layout) (m : Machine) (a idx : Nat) : Option Nat :=
  match table_at L m a with
  | none => none
  | some t => if t idx &&& 7 = 0 then none else some (t idx)

/-- The leaf entry the walk from the table at `root` reaches for the
guest-physical address `gpa`, or `none` when the address is not mapped. -/
def ept_walk (L : Layout) (m : Machine) (root gpa : Nat) : Option Nat :=
  if 2 ^ 48 ≤ gpa then none
  else
    match ept_entry L m root (gpa / 2 ^ 39 % 512) with
    | none => none
    | some e4 =>
      match ept_entry L m (e4 &&& 0xFFFFFFFFFF000) (gpa / 2 ^ 30 % 512) with
      | none => none
      | some e3 =>
        match ept_entry L m (e3 &&& 0xFFFFFFFFFF000) (gpa / 2 ^ 21 % 512) with
        | none => none
        | some e2 => ept_entry L m (e2 &&& 0xFFFFFFFFFF000) (gpa / 2 ^ 12 % 512)

/-! ## The processor's reading of the I/O bitmaps

With "use I/O bitmaps" set, an access to port `p` exits when bit `p mod 8` of
byte `(p mod 0x8000) / 8` is set in bitmap A (ports below 0x8000) or in
bitmap B (ports from 0x8000). -/

/-- The trap bit of port `p` in the two bitmaps. -/
def io_trap_bit (m : Machine) (p : Nat) : Bool :=
  if p < 0x8000 then (m.mem Region.io_bitmap_a (p % 0x8000 / 8)).testBit (p % 8)
  else (m.mem Region.io_bitmap_b (p % 0x8000 / 8)).testBit (p % 8)

/-- The ports `setup_vmcs_features` lets through: the display-controller
index/data ports. -/
def io_allow_list : List Nat := [0x3C0, 0x3C1, 0x3C4, 0x3C5, 0x3CE, 0x3CF]

/-- The layouts the linker can produce for the 32-bit kernel: the arrays are
declared `aligned(4096)`, are distinct objects, none is at address 0, and all
lie below 2 GiB, where converting a 32-bit pointer to `uint64_t` yields the
address itself whether the compiler zero- or sign-extends. -/
def Layout.wf (L : Layout) : Prop :=
  (∀ r : Region, L.addr r % 4096 = 0 ∧ 0 < L.addr r ∧ L.addr r < 2 ^ 31) ∧
  (∀ r1 r2 : Region, L.addr r1 = L.addr r2 → r1 = r2)

/-- The tables as the loader leaves them: `static uint64_t t[512] = {0}`. -/
def tables_zeroed (m : Machine) : Prop :=
  ∀ j, j < 512 →
    m.mem Region.pml4 j = 0 ∧ m.mem Region.pdpt j = 0 ∧ m.mem Region.pd j = 0 ∧
    m.mem Region.pt j = 0

/-- The ranges the member types of `guest_regs_t` give the members that
`setup_vmcs` reads: `uint32_t` registers and `uint16_t` selectors. -/
def guest_regs_t.wf (g : guest_regs_t) : Prop :=
  g.cr0 < 2 ^ 32 ∧ g.cr3 < 2 ^ 32 ∧ g.cr4 < 2 ^ 32 ∧
  g.esp < 2 ^ 32 ∧ g.eip < 2 ^ 32 ∧ g.eflags < 2 ^ 32 ∧
  g.cs < 2 ^ 16 ∧ g.ds < 2 ^ 16 ∧ g.es < 2 ^ 16 ∧
  g.fs < 2 ^ 16 ∧ g.gs < 2 ^ 16 ∧ g.ss < 2 ^ 16

/-! ## Concrete inputs used to exercise the definitions -/

/-- A sample layout: consecutive pages from 1 MiB. -/
def sampleLayout : Layout :=
  { addr := fun r =>
      match r with
      | Region.pml4 => 0x100000
      | Region.pdpt => 0x101000
      | Region.pd => 0x102000
      | Region.pt => 0x103000
      | Region.io_bitmap_a => 0x104000
      | Region.io_bitmap_b => 0x105000
      | Region.vmcs => 0x106000,
    vmexit_handler := 0x8000 }

/-- A machine just after boot: zeroed static storage, empty trace, a processor
without the VMX feature bit. -/
def bootMachine : Machine :=
  { cpuid_hw := fun _ => (0, 0, 0, 0),
    cr4 := 0,
    msr := fun _ => 0,
    inb_hw := fun _ => 0,
    vmcs_field := fun _ => 0,
    current_vmcs := none,
    vtx_supported := false,
    vmcs_revision_id := 0,
    vmx_basic := 0,
    ept_pml4 := 0,
    ept_pdpt := 0,
    ept_pd := 0,
    ept_pt := 0,
    mem := fun _ _ => 0,
    trace := [] }

/-- The stores of `memset_loop`, in order. -/
def memset_stores (r : Region) (c p n : Nat) : List Event :=
  (List.range n).map fun k => Event.store r (p + k) (u8 c)

/-- The six stores of the allow-list statements of `setup_vmcs_features`, with
the byte each one leaves in bitmap A. -/
def allow_stores : List Event :=
  [Event.store Region.io_bitmap_a 0x78 0xFE,
   Event.store Region.io_bitmap_a 0x78 0xFC,
   Event.store Region.io_bitmap_a 0x78 0xEC,
   Event.store Region.io_bitmap_a 0x78 0xCC,
   Event.store Region.io_bitmap_a 0x79 0xBF,
   Event.store Region.io_bitmap_a 0x79 0x3F]

/-! ## Reading a trace -/

/-- The argument lists of the calls of `f` recorded in `evs`, in order. -/
def calls_of (f : Fn) (evs : List Event) : List (List Nat) :=
  evs.filterMap fun e =>
    match e with
    | Event.call g args => if g = f then some args else none
    | _ => none

/-- The values written to the VMCS field `field` in `evs`, in order. -/
def vmwrites_to (field : Nat) (evs : List Event) : List Nat :=
  evs.filterMap fun e =>
    match e with
    | Event.vmwrite f v => if f = field then some v else none
    | _ => none

/-- The two guest-entry instructions. -/
def Event.is_entry : Event → Bool
  | Event.vmlaunch => true
  | Event.vmresume => true
  | _ => false

/-- From `m` to `m2` the trace grows by events that all satisfy `P`. -/
def adds_only (P : Event → Prop) (m m2 : Machine) : Prop :=
  ∃ evs, m2.trace = m.trace ++ evs ∧ ∀ e ∈ evs, P e

/-- The four little-endian bytes of a 32-bit register. -/
def le_bytes (w : Nat) : List Nat :=
  [w % 256, w / 256 % 256, w / 65536 % 256, w / 16777216 % 256]

/-- The text a guest reads from CPUID leaf 0: the bytes of EBX, EDX, ECX in
that order. -/
def vendor_string (ebx edx ecx : Nat) : String :=
  String.mk ((le_bytes ebx ++ le_bytes edx ++ le_bytes ecx).map Char.ofNat)

/-- The hardware write `handle_port_out` performs for a port, if any. -/
def port_out_events (port value : Nat) : List Event :=
  if port = 0x3C8 ∨ port = 0x3C9 then [Event.outb port (value % 256)] else []

/-- The value `handle_port_in` returns for a port. -/
def port_in_value (m : Machine) (port : Nat) : Nat :=
  if port = 0x3F8 then 0
  else if port = 0x3FD then 0x60
  else if port = 0x3C9 then m.inb_hw port % 256
  else 0xFFFFFFFF

/-- The hardware read `handle_port_in` performs for a port, if any. -/
def port_in_events (port : Nat) : List Event :=
  if port = 0x3C9 then [Event.inb port] else []

/-- A machine stopped at an exit: the boot machine with given VMCS fields. -/
def exitMachine (fields : Nat → Nat) : Machine :=
  { bootMachine with vmcs_field := fields }

/-! ## Expected traces of the setup functions -/

/-- The actions of `enable_vtx` on a machine whose CR4 holds `cr4`. -/
def enable_vtx_events (cr4 : Nat) : List Event :=
  [Event.call Fn.enable_vtx [], Event.mov_from_cr4,
   Event.mov_to_cr4 (u32 (u32 cr4 ||| (1 <<< 13)))]

/-- The actions of `get_vmx_info`. -/
def get_vmx_info_events : List Event :=
  [Event.call Fn.get_vmx_info [], Event.cpuid 1, Event.rdmsr 0x480]

/-- The actions of `setup_vmcs_features` when the global `ept_pml4` holds
`root` and the primary execution controls (field 0x4004) hold `c`. -/
def setup_vmcs_features_events (L : Layout) (root c : Nat) : List Event :=
  [Event.call Fn.setup_vmcs_features [],
   Event.vmwrite 0x0000201A 1,
   Event.call Fn.get_eptp [],
   Event.vmwrite 0x0000201C (u64 ((ptr_to_u64 root &&& 0xFFFFFFFFFF000) ||| (EPT_MT_WB <<< 3) ||| 0x6))] ++
  (Event.call Fn.memset [L.addr Region.io_bitmap_a, 0xFF, 4096] ::
    memset_stores Region.io_bitmap_a 0xFF 0 4096) ++
  (Event.call Fn.memset [L.addr Region.io_bitmap_b, 0xFF, 4096] ::
    memset_stores Region.io_bitmap_b 0xFF 0 4096) ++
  allow_stores ++
  [Event.vmwrite 0x00002000 (u64 (u32 (L.addr Region.io_bitmap_a))),
   Event.vmwrite 0x00002002 (u64 (u32 (L.addr Region.io_bitmap_b))),
   Event.vmread 0x00004004,
   Event.vmwrite 0x00004004 (u64 (u32 (u32 (u64 c) ||| (1 <<< 25))))]

/-- The boot machine with every hardware port reading 0x2A. -/
def paletteMachine : Machine :=
  { bootMachine with inb_hw := fun _ => 0x2A }

/-- A machine stopped at an MSR exit with the given exit reason: hardware
register 0x10 holds 0x123456789ABCDEF0, the guest counter field selects
register 0x10, the accumulator field holds 0x11223344 and the data-register
field 0x55667788. -/
def msrExitMachine (reason : Nat) : Machine :=
  { bootMachine with
    msr := fun i => if i = 0x10 then 0x123456789ABCDEF0 else 0,
    vmcs_field := fun f =>
      if f = 0x4402 then reason
      else if f = 0x681A then 0x10
      else if f = 0x681E then 0x11223344
      else if f = 0x6818 then 0x55667788
      else 0 }

/-- The ports with a case label of their own in `handle_port_out` (0x3F8, 0x3F9,
0x3C8, 0x3C9) or in `handle_port_in` (0x3F8, 0x3FD, 0x3C9). -/
def emulated_ports : List Nat := [0x3F8, 0x3F9, 0x3FD, 0x3C8, 0x3C9]

/-- The machine `m` with the exit-qualification field holding `q`. -/
def with_qualification (m : Machine) (q : Nat) : Machine :=
  { m with
    vmcs_field := fun f => if f = VMCS_EXIT_QUALIFICATION then q else m.vmcs_field f }

theorem ptr_to_u64_of_lt (p : Nat) (h : p < 2 ^ 31) : ptr_to_u64 p = p := by
  unfold ptr_to_u64 u32
  have e : p % 2 ^ 32 = p := Nat.mod_eq_of_lt (by omega)
  rw [e, if_pos h]

theorem u64_ptr_to_u64 (p : Nat) : u64 (ptr_to_u64 p) = ptr_to_u64 p := by
  unfold ptr_to_u64 u64 u32
  split <;> omega

theorem lor_page_low (k b : Nat) (hb : b < 4096) : k * 4096 ||| b = k * 4096 + b := by
  have hb2 : b < 2 ^ 12 := by simpa using hb
  have h := Nat.mul_add_lt_is_or hb2 k
  have e : (2 : Nat) ^ 12 * k = k * 4096 := by omega
  rw [e] at h
  exact h.symm

theorem lor_aligned_low (a b : Nat) (ha : a % 4096 = 0) (hb : b < 4096) : a ||| b = a + b := by
  have e : a = a / 4096 * 4096 := by omega
  rw [e]
  exact lor_page_low _ _ hb

theorem and_frame_mask (x : Nat) (hx : x < 2 ^ 52) :
    x &&& 0xFFFFFFFFFF000 = x / 4096 * 4096 := by
  apply Nat.eq_of_testBit_eq
  intro i
  have hm : (0xFFFFFFFFFF000 : Nat) = 2 ^ 12 * (2 ^ 40 - 1) := by norm_num
  have hr : x / 4096 * 4096 = 2 ^ 12 * (x >>> 12) := by
    rw [Nat.shiftRight_eq_div_pow]; norm_num [Nat.mul_comm]
  rw [Nat.testBit_and, hm, hr, Nat.testBit_mul_pow_two, Nat.testBit_mul_pow_two,
    Nat.testBit_two_pow_sub_one, Nat.testBit_shiftRight]
  by_cases h12 : 12 ≤ i
  · have e : 12 + (i - 12) = i := by omega
    by_cases h52 : i - 12 < 40
    · simp [h12, h52, e]
    · have hi : x.testBit i = false := by
        apply Nat.testBit_lt_two_pow
        exact lt_of_lt_of_le hx (Nat.pow_le_pow_right (by norm_num) (by omega))
      simp [h12, h52, e, hi]
  · simp [h12]

/-! ## The leaf-table loop -/

/-- The value `init_ept` stores in leaf entry `i`. -/
theorem leaf_value (i : Nat) (hi : i < 512) :
    u64 (i * 4096) ||| EPT_PRESENT ||| EPT_RW ||| EPT_EXECUTE ||| (EPT_MT_WB <<< 3)
      = i * 4096 ||| 0x37 := by
  have h1 : u64 (i * 4096) = i * 4096 := by
    unfold u64; apply Nat.mod_eq_of_lt; omega
  rw [h1, Nat.or_assoc, Nat.or_assoc, Nat.or_assoc]
  rfl

theorem init_ept_loop_mem (n : Nat) : ∀ (i : Nat) (m : Machine) (r : Region) (j : Nat),
    (init_ept_loop i n m).mem r j =
      if r = Region.pt ∧ i ≤ j ∧ j < i + n then
        u64 (j * 4096) ||| EPT_PRESENT ||| EPT_RW ||| EPT_EXECUTE ||| (EPT_MT_WB <<< 3)
      else m.mem r j := by
  induction n with
  | zero =>
    intro i m r j
    have h : ¬ (r = Region.pt ∧ i ≤ j ∧ j < i + 0) := by omega
    rw [if_neg h]
    rfl
  | succ n ih =>
    intro i m r j
    rw [init_ept_loop]
    simp only [ih, store]
    by_cases hr : r = Region.pt
    · by_cases hj : j = i
      · subst hj; simp [hr]
      · by_cases h1 : i + 1 ≤ j ∧ j < i + 1 + n
        · have h2 : i ≤ j ∧ j < i + (n + 1) := by omega
          simp [hr, h1, h2]
        · have h2 : ¬ (i ≤ j ∧ j < i + (n + 1)) := by omega
          simp [hr, h1, h2, hj]
    · simp [hr]

theorem init_ept_loop_frame (n : Nat) : ∀ (i : Nat) (m : Machine),
    (init_ept_loop i n m).cpuid_hw = m.cpuid_hw ∧
    (init_ept_loop i n m).cr4 = m.cr4 ∧
    (init_ept_loop i n m).msr = m.msr ∧
    (init_ept_loop i n m).inb_hw = m.inb_hw ∧
    (init_ept_loop i n m).vmcs_field = m.vmcs_field ∧
    (init_ept_loop i n m).current_vmcs = m.current_vmcs ∧
    (init_ept_loop i n m).vtx_supported = m.vtx_supported ∧
    (init_ept_loop i n m).vmcs_revision_id = m.vmcs_revision_id ∧
    (init_ept_loop i n m).vmx_basic = m.vmx_basic ∧
    (init_ept_loop i n m).ept_pml4 = m.ept_pml4 ∧
    (init_ept_loop i n m).ept_pdpt = m.ept_pdpt ∧
    (init_ept_loop i n m).ept_pd = m.ept_pd ∧
    (init_ept_loop i n m).ept_pt = m.ept_pt := by
  induction n with
  | zero => intro i m; simp [init_ept_loop]
  | succ n ih =>
    intro i m
    rw [init_ept_loop]
    simpa [store] using ih (i + 1) _

theorem and_seven (x : Nat) : x &&& 7 = x % 8 := by
  have h := Nat.and_pow_two_sub_one_eq_mod x 3
  simpa using h

/-- An upper-level entry: a page-aligned table address below 2 GiB with the
three permission bits. -/
theorem link_value (p : Nat) (hp : p % 4096 = 0) (h32 : p < 2 ^ 31) :
    ptr_to_u64 p ||| EPT_PRESENT ||| EPT_RW ||| EPT_EXECUTE = p + 7 := by
  have h1 : ptr_to_u64 p = p := ptr_to_u64_of_lt p h32
  rw [h1, Nat.or_assoc, Nat.or_assoc]
  exact lor_aligned_low p 7 hp (by norm_num)

theorem link_present (p : Nat) (hp : p % 4096 = 0) : ¬ ((p + 7) &&& 7 = 0) := by
  rw [and_seven]; omega

theorem link_target (p : Nat) (hp : p % 4096 = 0) (h32 : p < 2 ^ 31) :
    (p + 7) &&& 0xFFFFFFFFFF000 = p := by
  rw [and_frame_mask _ (by omega)]; omega

theorem sampleLayout_wf : sampleLayout.wf := by
  constructor
  · intro r; cases r <;> simp [sampleLayout]
  · intro r1 r2; cases r1 <;> cases r2 <;> simp [sampleLayout]

theorem init_ept_mem (L : Layout) (m : Machine) (r : Region) (j : Nat) :
    (init_ept L m).mem r j =
      if r = Region.pt ∧ j < 512 then
        u64 (j * 4096) ||| EPT_PRESENT ||| EPT_RW ||| EPT_EXECUTE ||| (EPT_MT_WB <<< 3)
      else if r = Region.pd ∧ j = 0 then
        ptr_to_u64 (L.addr Region.pt) ||| EPT_PRESENT ||| EPT_RW ||| EPT_EXECUTE
      else if r = Region.pdpt ∧ j = 0 then
        ptr_to_u64 (L.addr Region.pd) ||| EPT_PRESENT ||| EPT_RW ||| EPT_EXECUTE
      else if r = Region.pml4 ∧ j = 0 then
        ptr_to_u64 (L.addr Region.pdpt) ||| EPT_PRESENT ||| EPT_RW ||| EPT_EXECUTE
      else m.mem r j := by
  unfold init_ept
  simp only [init_ept_loop_mem, store, Machine.log]
  by_cases h : r = Region.pt ∧ j < 512
  · have h2 : r = Region.pt ∧ 0 ≤ j ∧ j < 0 + 512 := ⟨h.1, by omega, by omega⟩
    rw [if_pos h, if_pos h2]
  · have h2 : ¬ (r = Region.pt ∧ 0 ≤ j ∧ j < 0 + 512) := fun h3 => h ⟨h3.1, by omega⟩
    rw [if_neg h, if_neg h2]

theorem init_ept_ptrs (L : Layout) (m : Machine) :
    (init_ept L m).ept_pml4 = L.addr Region.pml4 ∧
    (init_ept L m).ept_pdpt = L.addr Region.pdpt ∧
    (init_ept L m).ept_pd = L.addr Region.pd ∧
    (init_ept L m).ept_pt = L.addr Region.pt := by
  unfold init_ept
  obtain ⟨-, -, -, -, -, -, -, -, -, h1, h2, h3, h4⟩ := init_ept_loop_frame 512 0
    (store Region.pd 0 (ptr_to_u64 (L.addr Region.pt) ||| EPT_PRESENT ||| EPT_RW ||| EPT_EXECUTE)
      (store Region.pdpt 0 (ptr_to_u64 (L.addr Region.pd) ||| EPT_PRESENT ||| EPT_RW ||| EPT_EXECUTE)
        (store Region.pml4 0 (ptr_to_u64 (L.addr Region.pdpt) ||| EPT_PRESENT ||| EPT_RW ||| EPT_EXECUTE)
          { m.log (Event.call Fn.init_ept []) with
            ept_pml4 := L.addr Region.pml4,
            ept_pdpt := L.addr Region.pdpt,
            ept_pd := L.addr Region.pd,
            ept_pt := L.addr Region.pt })))
  exact ⟨h1, h2, h3, h4⟩

theorem table_at_pml4 (L : Layout) (m : Machine) :
    table_at L m (L.addr Region.pml4) = some (m.mem Region.pml4) := by
  simp [table_at]

theorem table_at_pdpt (L : Layout) (hL : L.wf) (m : Machine) :
    table_at L m (L.addr Region.pdpt) = some (m.mem Region.pdpt) := by
  have h1 : L.addr Region.pdpt ≠ L.addr Region.pml4 := fun h => by
    have := hL.2 _ _ h; cases this
  simp [table_at, h1]

theorem table_at_pd (L : Layout) (hL : L.wf) (m : Machine) :
    table_at L m (L.addr Region.pd) = some (m.mem Region.pd) := by
  have h1 : L.addr Region.pd ≠ L.addr Region.pml4 := fun h => by
    have := hL.2 _ _ h; cases this
  have h2 : L.addr Region.pd ≠ L.addr Region.pdpt := fun h => by
    have := hL.2 _ _ h; cases this
  simp [table_at, h1, h2]

theorem table_at_pt (L : Layout) (hL : L.wf) (m : Machine) :
    table_at L m (L.addr Region.pt) = some (m.mem Region.pt) := by
  have h1 : L.addr Region.pt ≠ L.addr Region.pml4 := fun h => by
    have := hL.2 _ _ h; cases this
  have h2 : L.addr Region.pt ≠ L.addr Region.pdpt := fun h => by
    have := hL.2 _ _ h; cases this
  have h3 : L.addr Region.pt ≠ L.addr Region.pd := fun h => by
    have := hL.2 _ _ h; cases this
  simp [table_at, h1, h2, h3]

/-- C1: after `init_ept` the three upper tables are linked through their
entry 0, leaf entry `i` is `i * 4096 ||| 0x37` for every `i < 512`, and for
every 4 KiB-aligned guest-physical address `a` below 2 MiB the walk from the
root reaches the leaf `pt[a / 4096] = a ||| 0x37`, whose frame address (bits
63:12) is `a`, whose bits 0, 1, 2 (read, write, execute) are set and whose
bits 5:3 hold the write-back type 6. -/
theorem init_ept_identity_map (L : Layout) (hL : L.wf) (m : Machine) (a : Nat)
    (ha : a % 4096 = 0) (hlt : a < 2 * 1024 * 1024) :
    (∀ i, i < 512 → (init_ept L m).mem Region.pt i = i * 4096 ||| 0x37) ∧
    (init_ept L m).mem Region.pml4 0 = L.addr Region.pdpt ||| 7 ∧
    (init_ept L m).mem Region.pdpt 0 = L.addr Region.pd ||| 7 ∧
    (init_ept L m).mem Region.pd 0 = L.addr Region.pt ||| 7 ∧
    ept_walk L (init_ept L m) (init_ept L m).ept_pml4 a
      = some ((init_ept L m).mem Region.pt (a / 4096)) ∧
    (init_ept L m).mem Region.pt (a / 4096) = a ||| 0x37 ∧
    (a ||| 0x37) / 4096 * 4096 = a ∧
    (a ||| 0x37) % 2 = 1 ∧ (a ||| 0x37) / 2 % 2 = 1 ∧ (a ||| 0x37) / 4 % 2 = 1 ∧
    (a ||| 0x37) / 8 % 8 = EPT_MT_WB := by
  have hleaf : ∀ i, i < 512 → (init_ept L m).mem Region.pt i = i * 4096 ||| 0x37 := by
    intro i hi
    rw [init_ept_mem, if_pos ⟨rfl, hi⟩, leaf_value i hi]
  have hpdpt := hL.1 Region.pdpt
  have hpd := hL.1 Region.pd
  have hpt := hL.1 Region.pt
  have e4 : (init_ept L m).mem Region.pml4 0 = L.addr Region.pdpt + 7 := by
    rw [init_ept_mem]; simp [link_value _ hpdpt.1 hpdpt.2.2]
  have e3 : (init_ept L m).mem Region.pdpt 0 = L.addr Region.pd + 7 := by
    rw [init_ept_mem]; simp [link_value _ hpd.1 hpd.2.2]
  have e2 : (init_ept L m).mem Region.pd 0 = L.addr Region.pt + 7 := by
    rw [init_ept_mem]; simp [link_value _ hpt.1 hpt.2.2]
  have hor : a ||| 0x37 = a + 0x37 := lor_aligned_low a 0x37 ha (by norm_num)
  have hidx : a / 4096 < 512 := by omega
  have hl : (init_ept L m).mem Region.pt (a / 4096) = a ||| 0x37 := by
    rw [hleaf _ hidx]
    have : a / 4096 * 4096 = a := by omega
    rw [this]
  refine ⟨hleaf, ?_, ?_, ?_, ?_, hl, ?_, ?_, ?_, ?_, ?_⟩
  · rw [e4, lor_aligned_low _ 7 hpdpt.1 (by norm_num)]
  · rw [e3, lor_aligned_low _ 7 hpd.1 (by norm_num)]
  · rw [e2, lor_aligned_low _ 7 hpt.1 (by norm_num)]
  · have i4 : a / 2 ^ 39 % 512 = 0 := by omega
    have i3 : a / 2 ^ 30 % 512 = 0 := by omega
    have i2 : a / 2 ^ 21 % 512 = 0 := by omega
    have i1 : a / 2 ^ 12 % 512 = a / 4096 := by omega
    have hbig : ¬ (2 ^ 48 ≤ a) := by omega
    have hp : ¬ ((init_ept L m).mem Region.pt (a / 4096) &&& 7 = 0) := by
      rw [hl, hor, and_seven]; omega
    unfold ept_walk
    rw [if_neg hbig, i4, i3, i2, i1, (init_ept_ptrs L m).1]
    simp only [ept_entry, table_at_pml4, table_at_pdpt L hL, table_at_pd L hL,
      table_at_pt L hL, e4, e3, e2, link_present _ hpdpt.1, link_present _ hpd.1,
      link_present _ hpt.1, link_target _ hpdpt.1 hpdpt.2.2, link_target _ hpd.1 hpd.2.2,
      link_target _ hpt.1 hpt.2.2, if_false, hp]
  · rw [hor]; omega
  · rw [hor]; omega
  · rw [hor]; omega
  · rw [hor]; omega
  · rw [hor]; unfold EPT_MT_WB; omega

/-- C1, instance: the sample layout, the boot machine, address 0x5000. -/
theorem init_ept_identity_map_witness :
    sampleLayout.wf ∧ 0x5000 % 4096 = 0 ∧ 0x5000 < 2 * 1024 * 1024 ∧
    ept_walk sampleLayout (init_ept sampleLayout bootMachine)
      (init_ept sampleLayout bootMachine).ept_pml4 0x5000
      = some ((init_ept sampleLayout bootMachine).mem Region.pt (0x5000 / 4096)) ∧
    (init_ept sampleLayout bootMachine).mem Region.pt (0x5000 / 4096) = 0x5000 ||| 0x37 :=
  have h := init_ept_identity_map sampleLayout sampleLayout_wf bootMachine 0x5000
    (by decide) (by decide)
  ⟨sampleLayout_wf, by decide, by decide, h.2.2.2.2.1, h.2.2.2.2.2.1⟩

theorem bootMachine_tables_zeroed : tables_zeroed bootMachine := by
  intro j _; simp [bootMachine]

/-- C2: on zero-initialised tables, `init_ept` leaves entries 1..511 of the
root, second-level and third-level tables zero (present bit clear), and the
walk for any guest-physical address of 2 MiB or more finds no mapping. -/
theorem init_ept_unmapped_from_2MiB (L : Layout) (hL : L.wf) (m : Machine)
    (hz : tables_zeroed m) (gpa : Nat) (hg : 2 * 1024 * 1024 ≤ gpa) :
    (∀ j, 1 ≤ j → j < 512 →
      (init_ept L m).mem Region.pml4 j = 0 ∧
      (init_ept L m).mem Region.pdpt j = 0 ∧
      (init_ept L m).mem Region.pd j = 0 ∧
      (init_ept L m).mem Region.pml4 j &&& EPT_PRESENT = 0 ∧
      (init_ept L m).mem Region.pdpt j &&& EPT_PRESENT = 0 ∧
      (init_ept L m).mem Region.pd j &&& EPT_PRESENT = 0) ∧
    ept_walk L (init_ept L m) (init_ept L m).ept_pml4 gpa = none := by
  have hup : ∀ j, 1 ≤ j → j < 512 →
      (init_ept L m).mem Region.pml4 j = 0 ∧
      (init_ept L m).mem Region.pdpt j = 0 ∧
      (init_ept L m).mem Region.pd j = 0 := by
    intro j h1 h2
    have hj : j ≠ 0 := by omega
    have h := hz j h2
    refine ⟨?_, ?_, ?_⟩ <;> rw [init_ept_mem] <;> simp [hj, h.1, h.2.1, h.2.2.1]
  constructor
  · intro j h1 h2
    have h := hup j h1 h2
    refine ⟨h.1, h.2.1, h.2.2, ?_, ?_, ?_⟩
    · rw [h.1]; rfl
    · rw [h.2.1]; rfl
    · rw [h.2.2]; rfl
  · have hpdpt := hL.1 Region.pdpt
    have hpd := hL.1 Region.pd
    have e4 : (init_ept L m).mem Region.pml4 0 = L.addr Region.pdpt + 7 := by
      rw [init_ept_mem]; simp [link_value _ hpdpt.1 hpdpt.2.2]
    have e3 : (init_ept L m).mem Region.pdpt 0 = L.addr Region.pd + 7 := by
      rw [init_ept_mem]; simp [link_value _ hpd.1 hpd.2.2]
    unfold ept_walk
    by_cases hbig : 2 ^ 48 ≤ gpa
    · rw [if_pos hbig]
    · rw [if_neg hbig, (init_ept_ptrs L m).1]
      by_cases i4 : gpa / 2 ^ 39 % 512 = 0
      · by_cases i3 : gpa / 2 ^ 30 % 512 = 0
        · have i2 : 1 ≤ gpa / 2 ^ 21 % 512 := by omega
          have z := (hup _ i2 (Nat.mod_lt _ (by norm_num))).2.2
          rw [i4, i3]
          simp only [ept_entry, table_at_pml4, table_at_pdpt L hL, table_at_pd L hL, e4, e3,
            link_present _ hpdpt.1, link_present _ hpd.1, link_target _ hpdpt.1 hpdpt.2.2,
            link_target _ hpd.1 hpd.2.2, if_false, z, Nat.zero_and, if_true]
        · have z := (hup _ (Nat.one_le_iff_ne_zero.mpr i3) (Nat.mod_lt _ (by norm_num))).2.1
          rw [i4]
          simp only [ept_entry, table_at_pml4, table_at_pdpt L hL, e4,
            link_present _ hpdpt.1, link_target _ hpdpt.1 hpdpt.2.2, if_false, z,
            Nat.zero_and, if_true]
      · have z := (hup _ (Nat.one_le_iff_ne_zero.mpr i4) (Nat.mod_lt _ (by norm_num))).1
        simp only [ept_entry, table_at_pml4, z, Nat.zero_and, if_true]

/-- C2, instance: the sample layout, the boot machine, address 2 MiB. -/
theorem init_ept_unmapped_from_2MiB_witness :
    sampleLayout.wf ∧ tables_zeroed bootMachine ∧ 2 * 1024 * 1024 ≤ 0x200000 ∧
    ept_walk sampleLayout (init_ept sampleLayout bootMachine)
      (init_ept sampleLayout bootMachine).ept_pml4 0x200000 = none :=
  ⟨sampleLayout_wf, bootMachine_tables_zeroed, by decide,
    (init_ept_unmapped_from_2MiB sampleLayout sampleLayout_wf bootMachine
      bootMachine_tables_zeroed 0x200000 (by decide)).2⟩

/-! ## Effect of each primitive on each component of the state -/

@[simp] theorem log_effect (m : Machine) (e : Event) :
    (m.log e).cpuid_hw = m.cpuid_hw ∧
    (m.log e).cr4 = m.cr4 ∧
    (m.log e).msr = m.msr ∧
    (m.log e).inb_hw = m.inb_hw ∧
    (m.log e).vmcs_field = m.vmcs_field ∧
    (m.log e).current_vmcs = m.current_vmcs ∧
    (m.log e).vtx_supported = m.vtx_supported ∧
    (m.log e).vmcs_revision_id = m.vmcs_revision_id ∧
    (m.log e).vmx_basic = m.vmx_basic ∧
    (m.log e).ept_pml4 = m.ept_pml4 ∧
    (m.log e).ept_pdpt = m.ept_pdpt ∧
    (m.log e).ept_pd = m.ept_pd ∧
    (m.log e).ept_pt = m.ept_pt ∧
    (m.log e).mem = m.mem ∧
    (m.log e).trace = m.trace ++ [e] :=
  ⟨rfl, rfl, rfl, rfl, rfl, rfl, rfl, rfl, rfl, rfl, rfl, rfl, rfl, rfl, rfl⟩

@[simp] theorem vmwrite_effect (field value : Nat) (m : Machine) :
    (vmwrite field value m).cpuid_hw = m.cpuid_hw ∧
    (vmwrite field value m).cr4 = m.cr4 ∧
    (vmwrite field value m).msr = m.msr ∧
    (vmwrite field value m).inb_hw = m.inb_hw ∧
    (vmwrite field value m).vmcs_field =
      (fun f => if f = field then u64 value else m.vmcs_field f) ∧
    (vmwrite field value m).current_vmcs = m.current_vmcs ∧
    (vmwrite field value m).vtx_supported = m.vtx_supported ∧
    (vmwrite field value m).vmcs_revision_id = m.vmcs_revision_id ∧
    (vmwrite field value m).vmx_basic = m.vmx_basic ∧
    (vmwrite field value m).ept_pml4 = m.ept_pml4 ∧
    (vmwrite field value m).ept_pdpt = m.ept_pdpt ∧
    (vmwrite field value m).ept_pd = m.ept_pd ∧
    (vmwrite field value m).ept_pt = m.ept_pt ∧
    (vmwrite field value m).mem = m.mem ∧
    (vmwrite field value m).trace =
      m.trace ++ [Event.vmwrite field (u64 value)] :=
  ⟨rfl, rfl, rfl, rfl, rfl, rfl, rfl, rfl, rfl, rfl, rfl, rfl, rfl, rfl, rfl⟩

@[simp] theorem store_effect (r : Region) (i v : Nat) (m : Machine) :
    (store r i v m).cpuid_hw = m.cpuid_hw ∧
    (store r i v m).cr4 = m.cr4 ∧
    (store r i v m).msr = m.msr ∧
    (store r i v m).inb_hw = m.inb_hw ∧
    (store r i v m).vmcs_field = m.vmcs_field ∧
    (store r i v m).current_vmcs = m.current_vmcs ∧
    (store r i v m).vtx_supported = m.vtx_supported ∧
    (store r i v m).vmcs_revision_id = m.vmcs_revision_id ∧
    (store r i v m).vmx_basic = m.vmx_basic ∧
    (store r i v m).ept_pml4 = m.ept_pml4 ∧
    (store r i v m).ept_pdpt = m.ept_pdpt ∧
    (store r i v m).ept_pd = m.ept_pd ∧
    (store r i v m).ept_pt = m.ept_pt ∧
    (store r i v m).mem =
      (fun r2 j => if r2 = r ∧ j = i then v else m.mem r2 j) ∧
    (store r i v m).trace = m.trace ++ [Event.store r i v] :=
  ⟨rfl, rfl, rfl, rfl, rfl, rfl, rfl, rfl, rfl, rfl, rfl, rfl, rfl, rfl, rfl⟩

@[simp] theorem outb_effect (port val : Nat) (m : Machine) :
    (outb port val m).cpuid_hw = m.cpuid_hw ∧
    (outb port val m).cr4 = m.cr4 ∧
    (outb port val m).msr = m.msr ∧
    (outb port val m).inb_hw = m.inb_hw ∧
    (outb port val m).vmcs_field = m.vmcs_field ∧
    (outb port val m).current_vmcs = m.current_vmcs ∧
    (outb port val m).vtx_supported = m.vtx_supported ∧
    (outb port val m).vmcs_revision_id = m.vmcs_revision_id ∧
    (outb port val m).vmx_basic = m.vmx_basic ∧
    (outb port val m).ept_pml4 = m.ept_pml4 ∧
    (outb port val m).ept_pdpt = m.ept_pdpt ∧
    (outb port val m).ept_pd = m.ept_pd ∧
    (outb port val m).ept_pt = m.ept_pt ∧
    (outb port val m).mem = m.mem ∧
    (outb port val m).trace =
      m.trace ++ [Event.outb (u16 port) (u8 val)] :=
  ⟨rfl, rfl, rfl, rfl, rfl, rfl, rfl, rfl, rfl, rfl, rfl, rfl, rfl, rfl, rfl⟩

@[simp] theorem vmptrld_effect (addr : Nat) (m : Machine) :
    (vmptrld addr m).cpuid_hw = m.cpuid_hw ∧
    (vmptrld addr m).cr4 = m.cr4 ∧
    (vmptrld addr m).msr = m.msr ∧
    (vmptrld addr m).inb_hw = m.inb_hw ∧
    (vmptrld addr m).vmcs_field = m.vmcs_field ∧
    (vmptrld addr m).current_vmcs = some (u64 addr) ∧
    (vmptrld addr m).vtx_supported = m.vtx_supported ∧
    (vmptrld addr m).vmcs_revision_id = m.vmcs_revision_id ∧
    (vmptrld addr m).vmx_basic = m.vmx_basic ∧
    (vmptrld addr m).ept_pml4 = m.ept_pml4 ∧
    (vmptrld addr m).ept_pdpt = m.ept_pdpt ∧
    (vmptrld addr m).ept_pd = m.ept_pd ∧
    (vmptrld addr m).ept_pt = m.ept_pt ∧
    (vmptrld addr m).mem = m.mem ∧
    (vmptrld addr m).trace = m.trace ++ [Event.vmptrld (u64 addr)] :=
  ⟨rfl, rfl, rfl, rfl, rfl, rfl, rfl, rfl, rfl, rfl, rfl, rfl, rfl, rfl, rfl⟩

@[simp] theorem vmresume_effect (m : Machine) :
    (vmresume m).cpuid_hw = m.cpuid_hw ∧
    (vmresume m).cr4 = m.cr4 ∧
    (vmresume m).msr = m.msr ∧
    (vmresume m).inb_hw = m.inb_hw ∧
    (vmresume m).vmcs_field = m.vmcs_field ∧
    (vmresume m).current_vmcs = m.current_vmcs ∧
    (vmresume m).vtx_supported = m.vtx_supported ∧
    (vmresume m).vmcs_revision_id = m.vmcs_revision_id ∧
    (vmresume m).vmx_basic = m.vmx_basic ∧
    (vmresume m).ept_pml4 = m.ept_pml4 ∧
    (vmresume m).ept_pdpt = m.ept_pdpt ∧
    (vmresume m).ept_pd = m.ept_pd ∧
    (vmresume m).ept_pt = m.ept_pt ∧
    (vmresume m).mem = m.mem ∧
    (vmresume m).trace = m.trace ++ [Event.vmresume] :=
  ⟨rfl, rfl, rfl, rfl, rfl, rfl, rfl, rfl, rfl, rfl, rfl, rfl, rfl, rfl, rfl⟩

@[simp] theorem draw_string_effect (x y : Nat) (str : String) (color : Nat) (m : Machine) :
    (draw_string x y str color m).cpuid_hw = m.cpuid_hw ∧
    (draw_string x y str color m).cr4 = m.cr4 ∧
    (draw_string x y str color m).msr = m.msr ∧
    (draw_string x y str color m).inb_hw = m.inb_hw ∧
    (draw_string x y str color m).vmcs_field = m.vmcs_field ∧
    (draw_string x y str color m).current_vmcs = m.current_vmcs ∧
    (draw_string x y str color m).vtx_supported = m.vtx_supported ∧
    (draw_string x y str color m).vmcs_revision_id = m.vmcs_revision_id ∧
    (draw_string x y str color m).vmx_basic = m.vmx_basic ∧
    (draw_string x y str color m).ept_pml4 = m.ept_pml4 ∧
    (draw_string x y str color m).ept_pdpt = m.ept_pdpt ∧
    (draw_string x y str color m).ept_pd = m.ept_pd ∧
    (draw_string x y str color m).ept_pt = m.ept_pt ∧
    (draw_string x y str color m).mem = m.mem ∧
    (draw_string x y str color m).trace =
      m.trace ++ [Event.draw_string x y str color] :=
  ⟨rfl, rfl, rfl, rfl, rfl, rfl, rfl, rfl, rfl, rfl, rfl, rfl, rfl, rfl, rfl⟩

@[simp] theorem vmread_snd (field : Nat) (m : Machine) :
    (vmread field m).2 = m.log (Event.vmread field) := by
  unfold vmread
  rfl

@[simp] theorem inb_snd (port : Nat) (m : Machine) :
    (inb port m).2 = m.log (Event.inb (u16 port)) := by
  unfold inb
  rfl

@[simp] theorem get_eptp_snd (m : Machine) :
    (get_eptp m).2 = m.log (Event.call Fn.get_eptp []) := by
  unfold get_eptp
  rfl

@[simp] theorem vmread_fst (field : Nat) (m : Machine) :
    (vmread field m).1 = u64 (m.vmcs_field field) := by
  unfold vmread
  rfl

@[simp] theorem inb_fst (port : Nat) (m : Machine) :
    (inb port m).1 = u8 (m.inb_hw (u16 port)) := by
  unfold inb
  rfl

@[simp] theorem get_eptp_fst (m : Machine) :
    (get_eptp m).1 = (ptr_to_u64 m.ept_pml4 &&& 0xFFFFFFFFFF000) ||| (EPT_MT_WB <<< 3) ||| 0x6 := by
  unfold get_eptp
  rfl

/-! ## `memset` -/

theorem memset_loop_mem (r : Region) (c : Nat) (n : Nat) :
    ∀ (p : Nat) (m : Machine) (r2 : Region) (j : Nat),
    (memset_loop r c p n m).mem r2 j =
      if r2 = r ∧ p ≤ j ∧ j < p + n then u8 c else m.mem r2 j := by
  induction n with
  | zero =>
    intro p m r2 j
    have h : ¬ (r2 = r ∧ p ≤ j ∧ j < p + 0) := fun h => by omega
    rw [if_neg h]
    rfl
  | succ n ih =>
    intro p m r2 j
    rw [memset_loop]
    simp only [ih, store]
    by_cases hr : r2 = r
    · by_cases hj : j = p
      · subst hj; simp [hr]
      · by_cases h1 : p + 1 ≤ j ∧ j < p + 1 + n
        · have h2 : p ≤ j ∧ j < p + (n + 1) := by omega
          simp [hr, h1, h2]
        · have h2 : ¬ (p ≤ j ∧ j < p + (n + 1)) := by omega
          simp [hr, h1, h2, hj]
    · simp [hr]

theorem memset_loop_frame (r : Region) (c : Nat) (n : Nat) : ∀ (p : Nat) (m : Machine),
    (memset_loop r c p n m).cpuid_hw = m.cpuid_hw ∧
    (memset_loop r c p n m).cr4 = m.cr4 ∧
    (memset_loop r c p n m).msr = m.msr ∧
    (memset_loop r c p n m).inb_hw = m.inb_hw ∧
    (memset_loop r c p n m).vmcs_field = m.vmcs_field ∧
    (memset_loop r c p n m).current_vmcs = m.current_vmcs ∧
    (memset_loop r c p n m).vtx_supported = m.vtx_supported ∧
    (memset_loop r c p n m).vmcs_revision_id = m.vmcs_revision_id ∧
    (memset_loop r c p n m).vmx_basic = m.vmx_basic ∧
    (memset_loop r c p n m).ept_pml4 = m.ept_pml4 ∧
    (memset_loop r c p n m).ept_pdpt = m.ept_pdpt ∧
    (memset_loop r c p n m).ept_pd = m.ept_pd ∧
    (memset_loop r c p n m).ept_pt = m.ept_pt := by
  induction n with
  | zero => intro p m; simp [memset_loop]
  | succ n ih =>
    intro p m
    rw [memset_loop]
    simpa [store] using ih (p + 1) _

theorem memset_loop_trace (r : Region) (c : Nat) (n : Nat) : ∀ (p : Nat) (m : Machine),
    (memset_loop r c p n m).trace = m.trace ++ memset_stores r c p n := by
  induction n with
  | zero => intro p m; simp [memset_loop, memset_stores]
  | succ n ih =>
    intro p m
    rw [memset_loop]
    simp only [ih, store, memset_stores, List.range_succ_eq_map, List.map_cons, List.map_map,
      List.append_assoc, List.singleton_append, Nat.add_zero]
    congr 2
    apply List.map_congr_left
    intro k _
    simp [Nat.add_assoc, Nat.add_comm 1 k]

theorem memset_mem (L : Layout) (r : Region) (c n : Nat) (m : Machine) (r2 : Region) (j : Nat) :
    (memset L r c n m).mem r2 j = if r2 = r ∧ j < n then u8 c else m.mem r2 j := by
  unfold memset
  rw [memset_loop_mem]
  by_cases h : r2 = r ∧ j < n
  · rw [if_pos h, if_pos ⟨h.1, by omega, by omega⟩]
  · rw [if_neg h, if_neg (fun h3 => h ⟨h3.1, by omega⟩)]
    rfl

theorem memset_trace (L : Layout) (r : Region) (c n : Nat) (m : Machine) :
    (memset L r c n m).trace =
      m.trace ++ Event.call Fn.memset [L.addr r, c, n] :: memset_stores r c 0 n := by
  unfold memset
  rw [memset_loop_trace]
  simp [Machine.log]

theorem memset_vmcs_field (L : Layout) (r : Region) (c n : Nat) (m : Machine) :
    (memset L r c n m).vmcs_field = m.vmcs_field := by
  unfold memset
  rw [(memset_loop_frame r c n 0 _).2.2.2.2.1]
  rfl

/-! ## The bitmaps built by `setup_vmcs_features` -/

theorem io_bitmap_a_allow_mem (port : Nat) (m : Machine) (r : Region) (j : Nat) :
    (io_bitmap_a_allow port m).mem r j =
      if r = Region.io_bitmap_a ∧ j = port >>> 3 then
        u8 (m.mem Region.io_bitmap_a (port >>> 3) &&& not32 (1 <<< (port &&& 7)))
      else m.mem r j := by
  unfold io_bitmap_a_allow
  simp only [store_effect]

/-- One allow-list statement on a port whose bit lives in byte 0x78. -/
theorem allow_step_78 (port : Nat) (hp : port >>> 3 = 0x78) (m : Machine)
    (base : Region → Nat → Nat) (b79 b78 : Nat)
    (h : ∀ r j, m.mem r j =
      if r = Region.io_bitmap_a ∧ j = 0x79 then b79
      else if r = Region.io_bitmap_a ∧ j = 0x78 then b78
      else base r j) :
    ∀ r j, (io_bitmap_a_allow port m).mem r j =
      if r = Region.io_bitmap_a ∧ j = 0x79 then b79
      else if r = Region.io_bitmap_a ∧ j = 0x78 then u8 (b78 &&& not32 (1 <<< (port &&& 7)))
      else base r j := by
  intro r j
  rw [io_bitmap_a_allow_mem, hp, h, h]
  by_cases h79 : r = Region.io_bitmap_a ∧ j = 0x79
  · have h78 : ¬ (r = Region.io_bitmap_a ∧ j = 0x78) := fun h => by omega
    simp [h79, h78]
  · by_cases h78 : r = Region.io_bitmap_a ∧ j = 0x78
    · simp [h78]
    · simp [h79, h78]

/-- One allow-list statement on a port whose bit lives in byte 0x79. -/
theorem allow_step_79 (port : Nat) (hp : port >>> 3 = 0x79) (m : Machine)
    (base : Region → Nat → Nat) (b79 b78 : Nat)
    (h : ∀ r j, m.mem r j =
      if r = Region.io_bitmap_a ∧ j = 0x79 then b79
      else if r = Region.io_bitmap_a ∧ j = 0x78 then b78
      else base r j) :
    ∀ r j, (io_bitmap_a_allow port m).mem r j =
      if r = Region.io_bitmap_a ∧ j = 0x79 then u8 (b79 &&& not32 (1 <<< (port &&& 7)))
      else if r = Region.io_bitmap_a ∧ j = 0x78 then b78
      else base r j := by
  intro r j
  rw [io_bitmap_a_allow_mem, hp, h, h]
  by_cases h79 : r = Region.io_bitmap_a ∧ j = 0x79
  · simp [h79]
  · by_cases h78 : r = Region.io_bitmap_a ∧ j = 0x78
    · have : ¬ (r = Region.io_bitmap_a ∧ j = 0x79) := h79
      simp [h78]
    · simp [h79, h78]

/-- Both bitmaps just after the two `memset` calls: every byte is 0xFF. -/
theorem memset_both_mem (L : Layout) (m : Machine) :
    ∀ r j, (memset L Region.io_bitmap_b 0xFF 4096
        (memset L Region.io_bitmap_a 0xFF 4096 m)).mem r j =
      if r = Region.io_bitmap_a ∧ j = 0x79 then 0xFF
      else if r = Region.io_bitmap_a ∧ j = 0x78 then 0xFF
      else if (r = Region.io_bitmap_a ∨ r = Region.io_bitmap_b) ∧ j < 4096 then 0xFF
      else m.mem r j := by
  intro r j
  rw [memset_mem, memset_mem]
  have e : u8 0xFF = 0xFF := rfl
  rw [e]
  by_cases hb : r = Region.io_bitmap_b
  · subst hb
    by_cases hj : j < 4096 <;> simp [hj]
  · by_cases ha : r = Region.io_bitmap_a
    · subst ha
      by_cases hj : j < 4096
      · simp [hj]
      · have h1 : j ≠ 0x79 := by omega
        have h2 : j ≠ 0x78 := by omega
        simp [hj, h1, h2]
    · simp [ha, hb]

theorem setup_vmcs_features_mem (L : Layout) (m : Machine) (r : Region) (j : Nat) :
    (setup_vmcs_features L m).mem r j =
      if r = Region.io_bitmap_a ∧ j = 0x79 then 0x3F
      else if r = Region.io_bitmap_a ∧ j = 0x78 then 0xCC
      else if (r = Region.io_bitmap_a ∨ r = Region.io_bitmap_b) ∧ j < 4096 then 0xFF
      else m.mem r j := by
  unfold setup_vmcs_features
  simp only [vmwrite_effect, vmread_snd, log_effect]
  have h0 := memset_both_mem L
    (vmwrite 0x0000201C (get_eptp (vmwrite 0x0000201A 1
        (m.log (Event.call Fn.setup_vmcs_features [])))).1
      (get_eptp (vmwrite 0x0000201A 1 (m.log (Event.call Fn.setup_vmcs_features [])))).2)
  have h1 := allow_step_78 0x3C0 rfl _ _ _ _ h0
  have h2 := allow_step_78 0x3C1 rfl _ _ _ _ h1
  have h3 := allow_step_78 0x3C4 rfl _ _ _ _ h2
  have h4 := allow_step_78 0x3C5 rfl _ _ _ _ h3
  have h5 := allow_step_79 0x3CE rfl _ _ _ _ h4
  have h6 := allow_step_79 0x3CF rfl _ _ _ _ h5
  rw [h6 r j]
  simp only [vmwrite_effect, get_eptp_snd, log_effect]
  rfl

theorem io_bitmap_a_allow_trace (port : Nat) (m : Machine) :
    (io_bitmap_a_allow port m).trace =
      m.trace ++ [Event.store Region.io_bitmap_a (port >>> 3)
        (u8 (m.mem Region.io_bitmap_a (port >>> 3) &&& not32 (1 <<< (port &&& 7))))] := by
  unfold io_bitmap_a_allow
  simp only [store_effect]

theorem io_bitmap_a_allow_vmcs_field (port : Nat) (m : Machine) :
    (io_bitmap_a_allow port m).vmcs_field = m.vmcs_field := by
  unfold io_bitmap_a_allow
  simp only [store_effect]

theorem testBit_0xFF (k : Nat) (hk : k < 8) : (0xFF : Nat).testBit k = true := by
  have h := Nat.testBit_two_pow_sub_one 8 k
  simpa [hk] using h

theorem setup_vmcs_features_trap_bit (L : Layout) (m : Machine) (p : Nat) (hp : p < 65536) :
    io_trap_bit (setup_vmcs_features L m) p = false ↔ p ∈ io_allow_list := by
  unfold io_trap_bit
  by_cases hlo : p < 0x8000
  · rw [if_pos hlo, setup_vmcs_features_mem]
    have hmod : p % 0x8000 = p := Nat.mod_eq_of_lt hlo
    rw [hmod]
    by_cases h79 : p / 8 = 0x79
    · rw [if_pos ⟨rfl, h79⟩]
      have h1 : 0x3C8 ≤ p := by omega
      have h2 : p ≤ 0x3CF := by omega
      interval_cases p <;> decide
    · by_cases h78 : p / 8 = 0x78
      · rw [if_neg (fun h => h79 h.2), if_pos ⟨rfl, h78⟩]
        have h1 : 0x3C0 ≤ p := by omega
        have h2 : p ≤ 0x3C7 := by omega
        interval_cases p <;> decide
      · rw [if_neg (fun h => h79 h.2), if_neg (fun h => h78 h.2),
          if_pos ⟨Or.inl rfl, by omega⟩, testBit_0xFF _ (Nat.mod_lt _ (by norm_num))]
        simp only [io_allow_list, List.mem_cons, List.mem_singleton, List.not_mem_nil]
        constructor
        · intro h; cases h
        · intro h; rcases h with h | h | h | h | h | h | h <;> first | omega | exact h.elim
  · rw [if_neg hlo, setup_vmcs_features_mem, if_neg (fun h => by cases h.1),
      if_neg (fun h => by cases h.1), if_pos ⟨Or.inr rfl, by omega⟩,
      testBit_0xFF _ (Nat.mod_lt _ (by norm_num))]
    simp only [io_allow_list, List.mem_cons, List.mem_singleton, List.not_mem_nil]
    constructor
    · intro h; cases h
    · intro h; rcases h with h | h | h | h | h | h | h <;> first | omega | exact h.elim

theorem setup_vmcs_features_trace (L : Layout) (m : Machine) :
    (setup_vmcs_features L m).trace =
      m.trace ++
        ([Event.call Fn.setup_vmcs_features [],
          Event.vmwrite 0x0000201A 1,
          Event.call Fn.get_eptp [],
          Event.vmwrite 0x0000201C
            (u64 ((ptr_to_u64 m.ept_pml4 &&& 0xFFFFFFFFFF000) ||| (EPT_MT_WB <<< 3) ||| 0x6))] ++
         (Event.call Fn.memset [L.addr Region.io_bitmap_a, 0xFF, 4096] ::
            memset_stores Region.io_bitmap_a 0xFF 0 4096) ++
         (Event.call Fn.memset [L.addr Region.io_bitmap_b, 0xFF, 4096] ::
            memset_stores Region.io_bitmap_b 0xFF 0 4096) ++
         allow_stores ++
         [Event.vmwrite 0x00002000 (u64 (u32 (L.addr Region.io_bitmap_a))),
          Event.vmwrite 0x00002002 (u64 (u32 (L.addr Region.io_bitmap_b))),
          Event.vmread 0x00004004,
          Event.vmwrite 0x00004004
            (u64 (u32 (u32 (u64 (m.vmcs_field 0x00004004)) ||| (1 <<< 25))))]) := by
  have h0 := memset_both_mem L
    (vmwrite 0x0000201C (get_eptp (vmwrite 0x0000201A 1
        (m.log (Event.call Fn.setup_vmcs_features [])))).1
      (get_eptp (vmwrite 0x0000201A 1 (m.log (Event.call Fn.setup_vmcs_features [])))).2)
  have h1 := allow_step_78 0x3C0 rfl _ _ _ _ h0
  have h2 := allow_step_78 0x3C1 rfl _ _ _ _ h1
  have h3 := allow_step_78 0x3C4 rfl _ _ _ _ h2
  have h4 := allow_step_78 0x3C5 rfl _ _ _ _ h3
  have h5 := allow_step_79 0x3CE rfl _ _ _ _ h4
  unfold setup_vmcs_features
  simp only [vmwrite_effect, vmread_snd, vmread_fst, log_effect, io_bitmap_a_allow_trace,
    io_bitmap_a_allow_vmcs_field, memset_trace, memset_vmcs_field]
  rw [h0 Region.io_bitmap_a (0x3C0 >>> 3), h1 Region.io_bitmap_a (0x3C1 >>> 3),
    h2 Region.io_bitmap_a (0x3C4 >>> 3), h3 Region.io_bitmap_a (0x3C5 >>> 3),
    h4 Region.io_bitmap_a (0x3CE >>> 3), h5 Region.io_bitmap_a (0x3CF >>> 3)]
  simp only [get_eptp_snd, get_eptp_fst, log_effect, vmwrite_effect, List.append_assoc]
  generalize memset_stores Region.io_bitmap_a 255 0 4096 = fill_a
  generalize memset_stores Region.io_bitmap_b 255 0 4096 = fill_b
  simp [allow_stores]
  exact ⟨rfl, rfl, rfl, rfl, rfl, rfl, rfl⟩

/-- C3: `setup_vmcs_features` fills all 4096 bytes of bitmap A and then of
bitmap B with 0xFF before the six allow-list stores, which precede the writes
of the bitmap addresses; and in the final bitmaps the trap bit of a port
`p < 65536` (bitmap A below 0x8000, bitmap B from 0x8000, bit `p % 8` of byte
`p % 0x8000 / 8`) is clear exactly when `p` is one of 0x3C0, 0x3C1, 0x3C4,
0x3C5, 0x3CE, 0x3CF. -/
theorem setup_vmcs_features_io_bitmaps (L : Layout) (m : Machine) (p : Nat) (hp : p < 65536) :
    (setup_vmcs_features L m).trace =
      m.trace ++
        ([Event.call Fn.setup_vmcs_features [],
          Event.vmwrite 0x0000201A 1,
          Event.call Fn.get_eptp [],
          Event.vmwrite 0x0000201C
            (u64 ((ptr_to_u64 m.ept_pml4 &&& 0xFFFFFFFFFF000) ||| (EPT_MT_WB <<< 3) ||| 0x6))] ++
         (Event.call Fn.memset [L.addr Region.io_bitmap_a, 0xFF, 4096] ::
            memset_stores Region.io_bitmap_a 0xFF 0 4096) ++
         (Event.call Fn.memset [L.addr Region.io_bitmap_b, 0xFF, 4096] ::
            memset_stores Region.io_bitmap_b 0xFF 0 4096) ++
         allow_stores ++
         [Event.vmwrite 0x00002000 (u64 (u32 (L.addr Region.io_bitmap_a))),
          Event.vmwrite 0x00002002 (u64 (u32 (L.addr Region.io_bitmap_b))),
          Event.vmread 0x00004004,
          Event.vmwrite 0x00004004
            (u64 (u32 (u32 (u64 (m.vmcs_field 0x00004004)) ||| (1 <<< 25))))]) ∧
    (io_trap_bit (setup_vmcs_features L m) p = false ↔ p ∈ io_allow_list) :=
  ⟨setup_vmcs_features_trace L m, setup_vmcs_features_trap_bit L m p hp⟩

/-- C3, instances: port 0x3C0 is let through, port 0x3F8 traps. -/
theorem setup_vmcs_features_io_bitmaps_witness :
    (0x3C0 < 65536 ∧ 0x3C0 ∈ io_allow_list ∧
      io_trap_bit (setup_vmcs_features sampleLayout bootMachine) 0x3C0 = false) ∧
    (0x3F8 < 65536 ∧ 0x3F8 ∉ io_allow_list ∧
      io_trap_bit (setup_vmcs_features sampleLayout bootMachine) 0x3F8 ≠ false) :=
  ⟨⟨by decide, by decide,
      (setup_vmcs_features_io_bitmaps sampleLayout bootMachine 0x3C0 (by decide)).2.mpr
        (by decide)⟩,
    ⟨by decide, by decide, fun h =>
      absurd ((setup_vmcs_features_io_bitmaps sampleLayout bootMachine 0x3F8 (by decide)).2.mp h)
        (by decide)⟩⟩

/-! ## CPUID exits -/

theorem u32_u64 (x : Nat) : u32 (u64 x) = x % 2 ^ 32 := by
  unfold u32 u64
  exact Nat.mod_mod_of_dvd x (by norm_num)

/-- The register tuple `handle_cpuid_exit` selects for a leaf. -/
theorem handle_cpuid_exit_fields (m : Machine) (eax ebx ecx edx : Nat)
    (hregs : (if u32 (u64 (m.vmcs_field VMCS_GUEST_RAX)) = 0 then
          ((1 : Nat), (0x756E6547 : Nat), (0x6C65746E : Nat), (0x49656E69 : Nat))
        else if u32 (u64 (m.vmcs_field VMCS_GUEST_RAX)) = 1 then (0x0001067A, 0, 0, 0x00000001)
        else (0, 0, 0, 0)) = (eax, ebx, ecx, edx)) :
    (handle_cpuid_exit m).vmcs_field =
      (fun f =>
        if f = VMCS_GUEST_RDX then u64 edx
        else if f = VMCS_GUEST_RCX then u64 ecx
        else if f = VMCS_GUEST_RBX then u64 ebx
        else if f = VMCS_GUEST_RAX then u64 eax
        else m.vmcs_field f) ∧
    (handle_cpuid_exit m).trace =
      m.trace ++
        [Event.call Fn.handle_cpuid_exit [], Event.vmread VMCS_GUEST_RAX,
         Event.vmwrite VMCS_GUEST_RAX (u64 eax), Event.vmwrite VMCS_GUEST_RBX (u64 ebx),
         Event.vmwrite VMCS_GUEST_RCX (u64 ecx), Event.vmwrite VMCS_GUEST_RDX (u64 edx)] := by
  unfold handle_cpuid_exit
  simp only [vmwrite_effect, vmread_snd, vmread_fst, log_effect, hregs, List.append_assoc,
    List.singleton_append, List.cons_append, List.nil_append, and_self]

/-- C4: for a CPUID exit whose requested leaf (low 32 bits of the guest
accumulator field) is 0, `handle_cpuid_exit` writes 1 to the accumulator field
and 0x756E6547, 0x6C65746E, 0x49656E69 to the base, counter and data fields;
the bytes of EBX, EDX, ECX read "GenuineIntel". -/
theorem handle_cpuid_exit_leaf_0 (m : Machine)
    (hleaf : m.vmcs_field VMCS_GUEST_RAX % 2 ^ 32 = 0) :
    (handle_cpuid_exit m).vmcs_field VMCS_GUEST_RAX = 1 ∧
    (handle_cpuid_exit m).vmcs_field VMCS_GUEST_RBX = 0x756E6547 ∧
    (handle_cpuid_exit m).vmcs_field VMCS_GUEST_RDX = 0x49656E69 ∧
    (handle_cpuid_exit m).vmcs_field VMCS_GUEST_RCX = 0x6C65746E ∧
    vendor_string ((handle_cpuid_exit m).vmcs_field VMCS_GUEST_RBX)
      ((handle_cpuid_exit m).vmcs_field VMCS_GUEST_RDX)
      ((handle_cpuid_exit m).vmcs_field VMCS_GUEST_RCX) = "GenuineIntel" ∧
    (handle_cpuid_exit m).trace =
      m.trace ++
        [Event.call Fn.handle_cpuid_exit [], Event.vmread VMCS_GUEST_RAX,
         Event.vmwrite VMCS_GUEST_RAX 1, Event.vmwrite VMCS_GUEST_RBX 0x756E6547,
         Event.vmwrite VMCS_GUEST_RCX 0x6C65746E, Event.vmwrite VMCS_GUEST_RDX 0x49656E69] := by
  have h0 : u32 (u64 (m.vmcs_field VMCS_GUEST_RAX)) = 0 := by rw [u32_u64]; exact hleaf
  obtain ⟨hf, ht⟩ := handle_cpuid_exit_fields m 1 0x756E6547 0x6C65746E 0x49656E69
    (by rw [if_pos h0])
  have ha : (handle_cpuid_exit m).vmcs_field VMCS_GUEST_RAX = 1 := by rw [hf]; rfl
  have hb : (handle_cpuid_exit m).vmcs_field VMCS_GUEST_RBX = 0x756E6547 := by rw [hf]; rfl
  have hc : (handle_cpuid_exit m).vmcs_field VMCS_GUEST_RCX = 0x6C65746E := by rw [hf]; rfl
  have hd : (handle_cpuid_exit m).vmcs_field VMCS_GUEST_RDX = 0x49656E69 := by rw [hf]; rfl
  refine ⟨ha, hb, hd, hc, ?_, ?_⟩
  · rw [hb, hc, hd]; decide
  · rw [ht]; rfl

/-- C4, instance: accumulator field 0. -/
theorem handle_cpuid_exit_leaf_0_witness :
    (exitMachine fun _ => 0).vmcs_field VMCS_GUEST_RAX % 2 ^ 32 = 0 ∧
    (handle_cpuid_exit (exitMachine fun _ => 0)).vmcs_field VMCS_GUEST_RAX = 1 ∧
    vendor_string ((handle_cpuid_exit (exitMachine fun _ => 0)).vmcs_field VMCS_GUEST_RBX)
      ((handle_cpuid_exit (exitMachine fun _ => 0)).vmcs_field VMCS_GUEST_RDX)
      ((handle_cpuid_exit (exitMachine fun _ => 0)).vmcs_field VMCS_GUEST_RCX)
      = "GenuineIntel" :=
  have h := handle_cpuid_exit_leaf_0 (exitMachine fun _ => 0) (by decide)
  ⟨by decide, h.1, h.2.2.2.2.1⟩

/-- C5: for a CPUID exit whose requested leaf is 1, `handle_cpuid_exit` writes
EDX = 1 (bit 0, FPU present, set and every other bit clear), EAX = 0x0001067A,
EBX = 0 and ECX = 0. -/
theorem handle_cpuid_exit_leaf_1 (m : Machine)
    (hleaf : m.vmcs_field VMCS_GUEST_RAX % 2 ^ 32 = 1) :
    (handle_cpuid_exit m).vmcs_field VMCS_GUEST_RDX = 1 ∧
    ((handle_cpuid_exit m).vmcs_field VMCS_GUEST_RDX).testBit 0 = true ∧
    (∀ i, 0 < i → ((handle_cpuid_exit m).vmcs_field VMCS_GUEST_RDX).testBit i = false) ∧
    (handle_cpuid_exit m).vmcs_field VMCS_GUEST_RAX = 0x0001067A ∧
    (handle_cpuid_exit m).vmcs_field VMCS_GUEST_RBX = 0 ∧
    (handle_cpuid_exit m).vmcs_field VMCS_GUEST_RCX = 0 ∧
    (handle_cpuid_exit m).trace =
      m.trace ++
        [Event.call Fn.handle_cpuid_exit [], Event.vmread VMCS_GUEST_RAX,
         Event.vmwrite VMCS_GUEST_RAX 0x0001067A, Event.vmwrite VMCS_GUEST_RBX 0,
         Event.vmwrite VMCS_GUEST_RCX 0, Event.vmwrite VMCS_GUEST_RDX 1] := by
  have h1 : u32 (u64 (m.vmcs_field VMCS_GUEST_RAX)) = 1 := by rw [u32_u64]; exact hleaf
  have h0 : ¬ u32 (u64 (m.vmcs_field VMCS_GUEST_RAX)) = 0 := by rw [h1]; decide
  obtain ⟨hf, ht⟩ := handle_cpuid_exit_fields m 0x0001067A 0 0 1
    (by rw [if_neg h0, if_pos h1])
  have ha : (handle_cpuid_exit m).vmcs_field VMCS_GUEST_RAX = 0x0001067A := by rw [hf]; rfl
  have hb : (handle_cpuid_exit m).vmcs_field VMCS_GUEST_RBX = 0 := by rw [hf]; rfl
  have hc : (handle_cpuid_exit m).vmcs_field VMCS_GUEST_RCX = 0 := by rw [hf]; rfl
  have hd : (handle_cpuid_exit m).vmcs_field VMCS_GUEST_RDX = 1 := by rw [hf]; rfl
  refine ⟨hd, ?_, ?_, ha, hb, hc, ?_⟩
  · rw [hd]; rfl
  · intro i hi
    rw [hd]
    exact Nat.testBit_lt_two_pow (Nat.one_lt_two_pow (by omega))
  · rw [ht]; rfl

/-- C5, instance: accumulator field 1. -/
theorem handle_cpuid_exit_leaf_1_witness :
    (exitMachine fun _ => 1).vmcs_field VMCS_GUEST_RAX % 2 ^ 32 = 1 ∧
    (handle_cpuid_exit (exitMachine fun _ => 1)).vmcs_field VMCS_GUEST_RDX = 1 ∧
    (handle_cpuid_exit (exitMachine fun _ => 1)).vmcs_field VMCS_GUEST_RAX = 0x0001067A :=
  have h := handle_cpuid_exit_leaf_1 (exitMachine fun _ => 1) (by decide)
  ⟨by decide, h.1, h.2.2.2.1⟩

/-- C6: for a CPUID exit whose requested leaf is neither 0 nor 1,
`handle_cpuid_exit` writes zero to the accumulator, base, counter and data
fields. -/
theorem handle_cpuid_exit_other_leaf (m : Machine)
    (h0 : m.vmcs_field VMCS_GUEST_RAX % 2 ^ 32 ≠ 0)
    (h1 : m.vmcs_field VMCS_GUEST_RAX % 2 ^ 32 ≠ 1) :
    (handle_cpuid_exit m).vmcs_field VMCS_GUEST_RAX = 0 ∧
    (handle_cpuid_exit m).vmcs_field VMCS_GUEST_RBX = 0 ∧
    (handle_cpuid_exit m).vmcs_field VMCS_GUEST_RCX = 0 ∧
    (handle_cpuid_exit m).vmcs_field VMCS_GUEST_RDX = 0 ∧
    (handle_cpuid_exit m).trace =
      m.trace ++
        [Event.call Fn.handle_cpuid_exit [], Event.vmread VMCS_GUEST_RAX,
         Event.vmwrite VMCS_GUEST_RAX 0, Event.vmwrite VMCS_GUEST_RBX 0,
         Event.vmwrite VMCS_GUEST_RCX 0, Event.vmwrite VMCS_GUEST_RDX 0] := by
  have h0' : ¬ u32 (u64 (m.vmcs_field VMCS_GUEST_RAX)) = 0 := by rw [u32_u64]; exact h0
  have h1' : ¬ u32 (u64 (m.vmcs_field VMCS_GUEST_RAX)) = 1 := by rw [u32_u64]; exact h1
  obtain ⟨hf, ht⟩ := handle_cpuid_exit_fields m 0 0 0 0 (by rw [if_neg h0', if_neg h1'])
  refine ⟨?_, ?_, ?_, ?_, ?_⟩
  · rw [hf]; rfl
  · rw [hf]; rfl
  · rw [hf]; rfl
  · rw [hf]; rfl
  · rw [ht]; rfl

/-- C6, instance: leaf 0x80000000. -/
theorem handle_cpuid_exit_other_leaf_witness :
    (exitMachine fun _ => 0x80000000).vmcs_field VMCS_GUEST_RAX % 2 ^ 32 ≠ 0 ∧
    (exitMachine fun _ => 0x80000000).vmcs_field VMCS_GUEST_RAX % 2 ^ 32 ≠ 1 ∧
    (handle_cpuid_exit (exitMachine fun _ => 0x80000000)).vmcs_field VMCS_GUEST_RAX = 0 ∧
    (handle_cpuid_exit (exitMachine fun _ => 0x80000000)).vmcs_field VMCS_GUEST_RBX = 0 ∧
    (handle_cpuid_exit (exitMachine fun _ => 0x80000000)).vmcs_field VMCS_GUEST_RCX = 0 ∧
    (handle_cpuid_exit (exitMachine fun _ => 0x80000000)).vmcs_field VMCS_GUEST_RDX = 0 :=
  have h := handle_cpuid_exit_other_leaf (exitMachine fun _ => 0x80000000)
    (by decide) (by decide)
  ⟨by decide, by decide, h.1, h.2.1, h.2.2.1, h.2.2.2.1⟩

/-! ## HLT exits -/

/-- C7, counterexample: with the guest instruction-pointer field at
0xFFFFFFFF, `handle_hlt_exit` leaves 0 in the field, not 0x100000000. -/
theorem handle_hlt_exit_wraps :
    (exitMachine fun _ => 0xFFFFFFFF).vmcs_field VMCS_GUEST_RIP = 0xFFFFFFFF ∧
    (handle_hlt_exit (exitMachine fun _ => 0xFFFFFFFF)).vmcs_field VMCS_GUEST_RIP = 0 ∧
    (handle_hlt_exit (exitMachine fun _ => 0xFFFFFFFF)).vmcs_field VMCS_GUEST_RIP ≠
      (exitMachine fun _ => 0xFFFFFFFF).vmcs_field VMCS_GUEST_RIP + 1 := by
  refine ⟨rfl, rfl, ?_⟩
  decide

/-- C7, amended: for every value `v` of the guest instruction-pointer field,
`handle_hlt_exit` leaves `(v mod 2^32 + 1) mod 2^32` in it, which is `v + 1`
whenever `v < 2^32 - 1`; no other field and no other part of the state is
changed, and the handler performs one read and one write of that field. -/
theorem handle_hlt_exit_advances (m : Machine) :
    (handle_hlt_exit m).vmcs_field VMCS_GUEST_RIP =
      (m.vmcs_field VMCS_GUEST_RIP % 2 ^ 32 + 1) % 2 ^ 32 ∧
    (m.vmcs_field VMCS_GUEST_RIP < 2 ^ 32 - 1 →
      (handle_hlt_exit m).vmcs_field VMCS_GUEST_RIP = m.vmcs_field VMCS_GUEST_RIP + 1) ∧
    (∀ f, f ≠ VMCS_GUEST_RIP → (handle_hlt_exit m).vmcs_field f = m.vmcs_field f) ∧
    (handle_hlt_exit m).msr = m.msr ∧ (handle_hlt_exit m).mem = m.mem ∧
    (handle_hlt_exit m).cr4 = m.cr4 ∧
    (handle_hlt_exit m).trace =
      m.trace ++
        [Event.call Fn.handle_hlt_exit [], Event.vmread VMCS_GUEST_RIP,
         Event.vmwrite VMCS_GUEST_RIP ((m.vmcs_field VMCS_GUEST_RIP % 2 ^ 32 + 1) % 2 ^ 32)] := by
  have hv : u64 (u32 (u32 (u64 (m.vmcs_field VMCS_GUEST_RIP)) + 1)) =
      (m.vmcs_field VMCS_GUEST_RIP % 2 ^ 32 + 1) % 2 ^ 32 := by
    rw [u32_u64]
    unfold u64 u32
    omega
  have hnew : (handle_hlt_exit m).vmcs_field VMCS_GUEST_RIP =
      (m.vmcs_field VMCS_GUEST_RIP % 2 ^ 32 + 1) % 2 ^ 32 := by
    unfold handle_hlt_exit
    simp only [vmwrite_effect, vmread_snd, vmread_fst, log_effect, if_true, hv]
  refine ⟨hnew, ?_, ?_, ?_, ?_, ?_, ?_⟩
  · intro hlt
    rw [hnew]
    omega
  · intro f hf
    unfold handle_hlt_exit
    simp only [vmwrite_effect, vmread_snd, log_effect, if_neg hf]
  · unfold handle_hlt_exit
    simp only [vmwrite_effect, vmread_snd, log_effect]
  · unfold handle_hlt_exit
    simp only [vmwrite_effect, vmread_snd, log_effect]
  · unfold handle_hlt_exit
    simp only [vmwrite_effect, vmread_snd, log_effect]
  · unfold handle_hlt_exit
    simp only [vmwrite_effect, vmread_snd, vmread_fst, log_effect, hv, List.append_assoc,
      List.singleton_append, List.cons_append, List.nil_append]

/-- C7, instance: instruction pointer 0x7C00 becomes 0x7C01. -/
theorem handle_hlt_exit_advances_witness :
    (exitMachine fun _ => 0x7C00).vmcs_field VMCS_GUEST_RIP < 2 ^ 32 - 1 ∧
    (handle_hlt_exit (exitMachine fun _ => 0x7C00)).vmcs_field VMCS_GUEST_RIP =
      (exitMachine fun _ => 0x7C00).vmcs_field VMCS_GUEST_RIP + 1 :=
  ⟨by decide, (handle_hlt_exit_advances (exitMachine fun _ => 0x7C00)).2.1 (by decide)⟩

/-! ## I/O exits -/

/-- The fields `handle_io_exit` decodes from the qualification word. -/
theorem io_decode (q : Nat) :
    u16 (u32 (u64 q) >>> 16) = q / 2 ^ 16 % 2 ^ 16 ∧
    u8 ((u32 (u64 q) >>> 5) &&& 3) = q / 2 ^ 5 % 2 ^ 2 ∧
    u8 (u32 (u64 q) &&& 1) = q % 2 := by
  have h3 : ∀ x : Nat, x &&& 3 = x % 4 := fun x => by
    simpa using Nat.and_pow_two_sub_one_eq_mod x 2
  rw [u32_u64, Nat.shiftRight_eq_div_pow, Nat.shiftRight_eq_div_pow, h3, Nat.and_one_is_mod]
  unfold u16 u8
  refine ⟨?_, ?_, ?_⟩ <;> omega

theorem handle_port_out_effect (port value size : Nat) (hp : port < 2 ^ 16) (m : Machine) :
    (handle_port_out port value size m).cpuid_hw = m.cpuid_hw ∧
    (handle_port_out port value size m).cr4 = m.cr4 ∧
    (handle_port_out port value size m).msr = m.msr ∧
    (handle_port_out port value size m).inb_hw = m.inb_hw ∧
    (handle_port_out port value size m).vmcs_field = m.vmcs_field ∧
    (handle_port_out port value size m).current_vmcs = m.current_vmcs ∧
    (handle_port_out port value size m).vtx_supported = m.vtx_supported ∧
    (handle_port_out port value size m).vmcs_revision_id = m.vmcs_revision_id ∧
    (handle_port_out port value size m).vmx_basic = m.vmx_basic ∧
    (handle_port_out port value size m).ept_pml4 = m.ept_pml4 ∧
    (handle_port_out port value size m).ept_pdpt = m.ept_pdpt ∧
    (handle_port_out port value size m).ept_pd = m.ept_pd ∧
    (handle_port_out port value size m).ept_pt = m.ept_pt ∧
    (handle_port_out port value size m).mem = m.mem ∧
    (handle_port_out port value size m).trace =
      m.trace ++ Event.call Fn.handle_port_out [port, value, size] ::
        port_out_events port value := by
  have e16 : u16 port = port := Nat.mod_eq_of_lt hp
  have e8 : u8 (u8 value) = value % 256 := by unfold u8; omega
  unfold handle_port_out port_out_events
  by_cases h1 : port = 0x3F8
  · have h : ¬ (port = 0x3C8 ∨ port = 0x3C9) := by omega
    simp [h1]
  · by_cases h2 : port = 0x3F9
    · simp [h2]
    · by_cases h3 : port = 0x3C8 ∨ port = 0x3C9
      · simp [h1, h2, h3, e16, e8]
      · simp [h1, h2, h3]

theorem handle_port_in_fst (port size : Nat) (hp : port < 2 ^ 16) (m : Machine) :
    (handle_port_in port size m).1 = port_in_value m port := by
  have e16 : u16 port = port := Nat.mod_eq_of_lt hp
  unfold handle_port_in port_in_value
  by_cases h1 : port = 0x3F8
  · simp [h1]
  · by_cases h2 : port = 0x3FD
    · simp [h2]
    · by_cases h3 : port = 0x3C9
      · subst h3
        simp [u32, u8, u16]
        omega
      · simp [h1, h2, h3]

theorem handle_port_in_snd (port size : Nat) (hp : port < 2 ^ 16) (m : Machine) :
    (handle_port_in port size m).2.cpuid_hw = m.cpuid_hw ∧
    (handle_port_in port size m).2.cr4 = m.cr4 ∧
    (handle_port_in port size m).2.msr = m.msr ∧
    (handle_port_in port size m).2.inb_hw = m.inb_hw ∧
    (handle_port_in port size m).2.vmcs_field = m.vmcs_field ∧
    (handle_port_in port size m).2.current_vmcs = m.current_vmcs ∧
    (handle_port_in port size m).2.vtx_supported = m.vtx_supported ∧
    (handle_port_in port size m).2.vmcs_revision_id = m.vmcs_revision_id ∧
    (handle_port_in port size m).2.vmx_basic = m.vmx_basic ∧
    (handle_port_in port size m).2.ept_pml4 = m.ept_pml4 ∧
    (handle_port_in port size m).2.ept_pdpt = m.ept_pdpt ∧
    (handle_port_in port size m).2.ept_pd = m.ept_pd ∧
    (handle_port_in port size m).2.ept_pt = m.ept_pt ∧
    (handle_port_in port size m).2.mem = m.mem ∧
    (handle_port_in port size m).2.trace =
      m.trace ++ Event.call Fn.handle_port_in [port, size] :: port_in_events port := by
  have e16 : u16 port = port := Nat.mod_eq_of_lt hp
  unfold handle_port_in port_in_events
  by_cases h1 : port = 0x3F8
  · simp [h1]
  · by_cases h2 : port = 0x3FD
    · simp [h2]
    · by_cases h3 : port = 0x3C9
      · subst h3
        simp [u16]
      · simp [h1, h2, h3]

theorem calls_of_port_out_events (f : Fn) (port value : Nat) :
    calls_of f (port_out_events port value) = [] := by
  unfold port_out_events calls_of
  split <;> rfl

theorem vmwrites_to_port_out_events (field port value : Nat) :
    vmwrites_to field (port_out_events port value) = [] := by
  unfold port_out_events vmwrites_to
  split <;> rfl

/-- C8: when bit 0 of the I/O qualification word is 0, `handle_io_exit` reads
the guest accumulator field and calls `handle_port_out` exactly once, with
port = bits 31:16 of the word, value = the low 32 bits of the accumulator and
size = bits 6:5; it never calls `handle_port_in`, writes no VMCS field (in
particular not the accumulator), and the only hardware access is the `outb`
of `handle_port_out` for ports 0x3C8 and 0x3C9. -/
theorem handle_io_exit_out (m : Machine)
    (hdir : m.vmcs_field VMCS_EXIT_QUALIFICATION % 2 = 0) :
    ∃ evs,
      (handle_io_exit m).trace = m.trace ++ evs ∧
      evs =
        [Event.call Fn.handle_io_exit [], Event.vmread VMCS_EXIT_QUALIFICATION,
         Event.vmread VMCS_GUEST_RAX,
         Event.call Fn.handle_port_out
           [m.vmcs_field VMCS_EXIT_QUALIFICATION / 2 ^ 16 % 2 ^ 16,
            m.vmcs_field VMCS_GUEST_RAX % 2 ^ 32,
            m.vmcs_field VMCS_EXIT_QUALIFICATION / 2 ^ 5 % 2 ^ 2]] ++
          port_out_events (m.vmcs_field VMCS_EXIT_QUALIFICATION / 2 ^ 16 % 2 ^ 16)
            (m.vmcs_field VMCS_GUEST_RAX % 2 ^ 32) ∧
      calls_of Fn.handle_port_out evs =
        [[m.vmcs_field VMCS_EXIT_QUALIFICATION / 2 ^ 16 % 2 ^ 16,
          m.vmcs_field VMCS_GUEST_RAX % 2 ^ 32,
          m.vmcs_field VMCS_EXIT_QUALIFICATION / 2 ^ 5 % 2 ^ 2]] ∧
      calls_of Fn.handle_port_in evs = [] ∧
      vmwrites_to VMCS_GUEST_RAX evs = [] ∧
      (handle_io_exit m).vmcs_field = m.vmcs_field := by
  obtain ⟨hport, hsize, hd⟩ := io_decode (m.vmcs_field VMCS_EXIT_QUALIFICATION)
  have hp : m.vmcs_field VMCS_EXIT_QUALIFICATION / 2 ^ 16 % 2 ^ 16 < 2 ^ 16 :=
    Nat.mod_lt _ (by norm_num)
  have hd0 : u8 (u32 (u64 (m.vmcs_field VMCS_EXIT_QUALIFICATION)) &&& 1) = 0 := by
    rw [hd]; exact hdir
  simp only [u32_u64] at hport hsize hd0
  refine ⟨_, ?_, rfl, ?_, ?_, ?_, ?_⟩
  · unfold handle_io_exit
    simp only [vmread_snd, vmread_fst, log_effect, hd0, if_true, hport, hsize, u32_u64,
      handle_port_out_effect _ _ _ hp, List.append_assoc, List.singleton_append,
      List.cons_append, List.nil_append]
  · rw [calls_of, List.filterMap_append]
    have := calls_of_port_out_events Fn.handle_port_out
      (m.vmcs_field VMCS_EXIT_QUALIFICATION / 2 ^ 16 % 2 ^ 16)
      (m.vmcs_field VMCS_GUEST_RAX % 2 ^ 32)
    rw [calls_of] at this
    rw [this]
    rfl
  · rw [calls_of, List.filterMap_append]
    have := calls_of_port_out_events Fn.handle_port_in
      (m.vmcs_field VMCS_EXIT_QUALIFICATION / 2 ^ 16 % 2 ^ 16)
      (m.vmcs_field VMCS_GUEST_RAX % 2 ^ 32)
    rw [calls_of] at this
    rw [this]
    rfl
  · rw [vmwrites_to, List.filterMap_append]
    have := vmwrites_to_port_out_events VMCS_GUEST_RAX
      (m.vmcs_field VMCS_EXIT_QUALIFICATION / 2 ^ 16 % 2 ^ 16)
      (m.vmcs_field VMCS_GUEST_RAX % 2 ^ 32)
    rw [vmwrites_to] at this
    rw [this]
    rfl
  · unfold handle_io_exit
    simp only [vmread_snd, vmread_fst, log_effect, hd0, if_true, hport, hsize, u32_u64,
      handle_port_out_effect _ _ _ hp]

/-- C8, instances: an OUT to port 0x3C0 and an OUT to port 0x3F8, accumulator 0x41. -/
theorem handle_io_exit_out_witness :
    ((exitMachine fun f => if f = 0x6400 then 0x03C00000 else 0x41).vmcs_field
        VMCS_EXIT_QUALIFICATION % 2 = 0 ∧
      ∃ evs,
        (handle_io_exit (exitMachine fun f => if f = 0x6400 then 0x03C00000 else 0x41)).trace
          = (exitMachine fun f => if f = 0x6400 then 0x03C00000 else 0x41).trace ++ evs ∧
        calls_of Fn.handle_port_out evs = [[0x3C0, 0x41, 0]] ∧
        calls_of Fn.handle_port_in evs = [] ∧
        vmwrites_to VMCS_GUEST_RAX evs = []) ∧
    ((exitMachine fun f => if f = 0x6400 then 0x03F80000 else 0x41).vmcs_field
        VMCS_EXIT_QUALIFICATION % 2 = 0 ∧
      ∃ evs,
        (handle_io_exit (exitMachine fun f => if f = 0x6400 then 0x03F80000 else 0x41)).trace
          = (exitMachine fun f => if f = 0x6400 then 0x03F80000 else 0x41).trace ++ evs ∧
        calls_of Fn.handle_port_out evs = [[0x3F8, 0x41, 0]] ∧
        calls_of Fn.handle_port_in evs = [] ∧
        vmwrites_to VMCS_GUEST_RAX evs = []) := by
  constructor
  · refine ⟨by decide, ?_⟩
    obtain ⟨evs, h1, -, h3, h4, h5, -⟩ :=
      handle_io_exit_out (exitMachine fun f => if f = 0x6400 then 0x03C00000 else 0x41)
        (by decide)
    exact ⟨evs, h1, h3, h4, h5⟩
  · refine ⟨by decide, ?_⟩
    obtain ⟨evs, h1, -, h3, h4, h5, -⟩ :=
      handle_io_exit_out (exitMachine fun f => if f = 0x6400 then 0x03F80000 else 0x41)
        (by decide)
    exact ⟨evs, h1, h3, h4, h5⟩

theorem port_in_value_log (m : Machine) (e : Event) (p : Nat) :
    port_in_value (m.log e) p = port_in_value m p := by
  unfold port_in_value
  simp only [log_effect]

/-- C9: when bit 0 of the I/O qualification word is 1, `handle_io_exit` calls
`handle_port_in` exactly once, with port = bits 31:16 and size = bits 6:5 of
the word, and writes the 32-bit value it returns into the guest accumulator
field; it never calls `handle_port_out`. The value is 0 for port 0x3F8, 0x60
for 0x3FD, the byte read from hardware for 0x3C9, and 0xFFFFFFFF for every
other port. -/
theorem handle_io_exit_in (m : Machine)
    (hdir : m.vmcs_field VMCS_EXIT_QUALIFICATION % 2 = 1) :
    ∃ evs,
      (handle_io_exit m).trace = m.trace ++ evs ∧
      evs =
        [Event.call Fn.handle_io_exit [], Event.vmread VMCS_EXIT_QUALIFICATION,
         Event.call Fn.handle_port_in
           [m.vmcs_field VMCS_EXIT_QUALIFICATION / 2 ^ 16 % 2 ^ 16,
            m.vmcs_field VMCS_EXIT_QUALIFICATION / 2 ^ 5 % 2 ^ 2]] ++
          port_in_events (m.vmcs_field VMCS_EXIT_QUALIFICATION / 2 ^ 16 % 2 ^ 16) ++
          [Event.vmwrite VMCS_GUEST_RAX
            (port_in_value m (m.vmcs_field VMCS_EXIT_QUALIFICATION / 2 ^ 16 % 2 ^ 16))] ∧
      calls_of Fn.handle_port_in evs =
        [[m.vmcs_field VMCS_EXIT_QUALIFICATION / 2 ^ 16 % 2 ^ 16,
          m.vmcs_field VMCS_EXIT_QUALIFICATION / 2 ^ 5 % 2 ^ 2]] ∧
      calls_of Fn.handle_port_out evs = [] ∧
      (handle_io_exit m).vmcs_field VMCS_GUEST_RAX =
        (handle_port_in (m.vmcs_field VMCS_EXIT_QUALIFICATION / 2 ^ 16 % 2 ^ 16)
          (m.vmcs_field VMCS_EXIT_QUALIFICATION / 2 ^ 5 % 2 ^ 2)
          ((m.log (Event.call Fn.handle_io_exit [])).log
            (Event.vmread VMCS_EXIT_QUALIFICATION))).1 ∧
      (handle_io_exit m).vmcs_field VMCS_GUEST_RAX =
        port_in_value m (m.vmcs_field VMCS_EXIT_QUALIFICATION / 2 ^ 16 % 2 ^ 16) ∧
      (m.vmcs_field VMCS_EXIT_QUALIFICATION / 2 ^ 16 % 2 ^ 16 ≠ 0x3F8 →
        m.vmcs_field VMCS_EXIT_QUALIFICATION / 2 ^ 16 % 2 ^ 16 ≠ 0x3FD →
        m.vmcs_field VMCS_EXIT_QUALIFICATION / 2 ^ 16 % 2 ^ 16 ≠ 0x3C9 →
        (handle_io_exit m).vmcs_field VMCS_GUEST_RAX = 0xFFFFFFFF) := by
  obtain ⟨hport, hsize, hd⟩ := io_decode (m.vmcs_field VMCS_EXIT_QUALIFICATION)
  have hp : m.vmcs_field VMCS_EXIT_QUALIFICATION / 2 ^ 16 % 2 ^ 16 < 2 ^ 16 :=
    Nat.mod_lt _ (by norm_num)
  have hd1 : ¬ u8 (u32 (u64 (m.vmcs_field VMCS_EXIT_QUALIFICATION)) &&& 1) = 0 := by
    rw [hd]; omega
  simp only [u32_u64] at hport hsize hd1
  have hval : ∀ p, u64 (u32 (port_in_value m p)) = port_in_value m p := by
    intro p
    have : port_in_value m p < 2 ^ 32 := by
      unfold port_in_value
      split
      · norm_num
      · split
        · norm_num
        · split
          · omega
          · norm_num
    unfold u64 u32
    omega
  have hrax : (handle_io_exit m).vmcs_field VMCS_GUEST_RAX =
      port_in_value m (m.vmcs_field VMCS_EXIT_QUALIFICATION / 2 ^ 16 % 2 ^ 16) := by
    unfold handle_io_exit
    simp only [vmread_snd, vmread_fst, log_effect, hd1, if_false, hport, hsize, u32_u64,
      handle_port_in_fst _ _ hp, vmwrite_effect, if_true, port_in_value_log, hval]
  refine ⟨_, ?_, rfl, ?_, ?_, ?_, hrax, ?_⟩
  · unfold handle_io_exit
    simp only [vmread_snd, vmread_fst, log_effect, hd1, if_false, hport, hsize, u32_u64,
      handle_port_in_fst _ _ hp, handle_port_in_snd _ _ hp, vmwrite_effect,
      port_in_value_log, hval,
      List.append_assoc, List.singleton_append, List.cons_append, List.nil_append]
  · unfold port_in_events calls_of
    split <;> rfl
  · unfold port_in_events calls_of
    split <;> rfl
  · rw [hrax, handle_port_in_fst _ _ hp, port_in_value_log, port_in_value_log]
  · intro h1 h2 h3
    rw [hrax]
    unfold port_in_value
    rw [if_neg h1, if_neg h2, if_neg h3]

/-- C9, instance: an IN from port 0x60, which no case recognises. -/
theorem handle_io_exit_in_witness :
    (exitMachine fun f => if f = 0x6400 then 0x00600001 else 0).vmcs_field
        VMCS_EXIT_QUALIFICATION % 2 = 1 ∧
    (handle_io_exit (exitMachine fun f => if f = 0x6400 then 0x00600001 else 0)).vmcs_field
        VMCS_GUEST_RAX = 0xFFFFFFFF := by
  refine ⟨by decide, ?_⟩
  obtain ⟨_, -, -, -, -, -, -, h⟩ :=
    handle_io_exit_in (exitMachine fun f => if f = 0x6400 then 0x00600001 else 0) (by decide)
  exact h (by decide) (by decide) (by decide)

/-! ## Capability detection -/

theorem and_bit_eq_zero (x i : Nat) : x &&& 2 ^ i = 0 ↔ x / 2 ^ i % 2 = 0 := by
  rw [Nat.and_two_pow, Nat.testBit_to_div_mod]
  have hpos : 0 < 2 ^ i := Nat.two_pow_pos i
  by_cases h : x / 2 ^ i % 2 = 1
  · simp [h]
  · have h0 : x / 2 ^ i % 2 = 0 := by omega
    simp [h, h0]

/-- `check_vtx_support` returns bit 5 of the ECX answer to CPUID leaf 1. -/
theorem check_vtx_support_eq (m : Machine) :
    check_vtx_support m =
      (decide ((m.cpuid_hw 1).2.2.1 / 2 ^ 5 % 2 = 1),
        (m.log (Event.call Fn.check_vtx_support [])).log (Event.cpuid 1)) := by
  have hbit : u32 (m.cpuid_hw 1).2.2.1 &&& 1 <<< 5 = 0 ↔ (m.cpuid_hw 1).2.2.1 / 2 ^ 5 % 2 = 0 := by
    have e : (1 <<< 5 : Nat) = 2 ^ 5 := by decide
    rw [e, and_bit_eq_zero]
    unfold u32
    omega
  unfold check_vtx_support
  simp only [log_effect]
  by_cases h : (m.cpuid_hw 1).2.2.1 / 2 ^ 5 % 2 = 0
  · have h1 : ¬ (m.cpuid_hw 1).2.2.1 / 2 ^ 5 % 2 = 1 := by omega
    rw [if_pos (hbit.mpr h), decide_eq_false h1]
  · have h1 : (m.cpuid_hw 1).2.2.1 / 2 ^ 5 % 2 = 1 := by omega
    rw [if_neg (fun hh => h (hbit.mp hh)), decide_eq_true h1]

/-- C10: when bit 5 of the ECX answer to CPUID leaf 1 is clear,
`init_hypervisor_foundation` returns false with `vtx_supported` false; its
only actions are the CPUID query and the status text: CR4, the VMCS fields,
the current-VMCS pointer, the tables and bitmaps, the MSRs and the remaining
globals are unchanged, and the trace holds no CR4 write, no `vmptrld`, no
`vmwrite`, no store and no `vmlaunch`. -/
theorem init_hypervisor_foundation_unsupported (L : Layout) (m : Machine)
    (hbit : (m.cpuid_hw 1).2.2.1 / 2 ^ 5 % 2 = 0) :
    (init_hypervisor_foundation L m).1 = false ∧
    (init_hypervisor_foundation L m).2.vtx_supported = false ∧
    (init_hypervisor_foundation L m).2.trace =
      m.trace ++
        [Event.call Fn.init_hypervisor_foundation [], Event.call Fn.check_vtx_support [],
         Event.cpuid 1, Event.draw_string 10 50 "VT-x not supported!" 12] ∧
    (init_hypervisor_foundation L m).2.cr4 = m.cr4 ∧
    (init_hypervisor_foundation L m).2.vmcs_field = m.vmcs_field ∧
    (init_hypervisor_foundation L m).2.current_vmcs = m.current_vmcs ∧
    (init_hypervisor_foundation L m).2.mem = m.mem ∧
    (init_hypervisor_foundation L m).2.msr = m.msr ∧
    (init_hypervisor_foundation L m).2.vmcs_revision_id = m.vmcs_revision_id ∧
    (init_hypervisor_foundation L m).2.vmx_basic = m.vmx_basic ∧
    (init_hypervisor_foundation L m).2.ept_pml4 = m.ept_pml4 ∧
    (init_hypervisor_foundation L m).2.ept_pdpt = m.ept_pdpt ∧
    (init_hypervisor_foundation L m).2.ept_pd = m.ept_pd ∧
    (init_hypervisor_foundation L m).2.ept_pt = m.ept_pt := by
  have h1 : ¬ (m.cpuid_hw 1).2.2.1 / 2 ^ 5 % 2 = 1 := by omega
  have hlog : (m.log (Event.call Fn.init_hypervisor_foundation [])).cpuid_hw = m.cpuid_hw := by
    simp only [log_effect]
  unfold init_hypervisor_foundation
  simp only [check_vtx_support_eq, hlog, h1, decide_False, Bool.not_false, if_true,
    draw_string_effect, log_effect, List.append_assoc, List.singleton_append,
    List.cons_append, List.nil_append, and_self]

/-- C10, instance: the boot machine, whose CPUID answers are all zero. -/
theorem init_hypervisor_foundation_unsupported_witness :
    (bootMachine.cpuid_hw 1).2.2.1 / 2 ^ 5 % 2 = 0 ∧
    (init_hypervisor_foundation sampleLayout bootMachine).1 = false ∧
    (init_hypervisor_foundation sampleLayout bootMachine).2.vtx_supported = false ∧
    (init_hypervisor_foundation sampleLayout bootMachine).2.trace =
      bootMachine.trace ++
        [Event.call Fn.init_hypervisor_foundation [], Event.call Fn.check_vtx_support [],
         Event.cpuid 1, Event.draw_string 10 50 "VT-x not supported!" 12] :=
  have h := init_hypervisor_foundation_unsupported sampleLayout bootMachine (by decide)
  ⟨by decide, h.1, h.2.1, h.2.2.1⟩

/-! ## Effect of the capability functions -/

@[simp] theorem enable_vtx_effect (m : Machine) :
    (enable_vtx m).cpuid_hw = m.cpuid_hw ∧
    (enable_vtx m).cr4 = u32 (u32 m.cr4 ||| (1 <<< 13)) ∧
    (enable_vtx m).msr = m.msr ∧
    (enable_vtx m).inb_hw = m.inb_hw ∧
    (enable_vtx m).vmcs_field = m.vmcs_field ∧
    (enable_vtx m).current_vmcs = m.current_vmcs ∧
    (enable_vtx m).vtx_supported = m.vtx_supported ∧
    (enable_vtx m).vmcs_revision_id = m.vmcs_revision_id ∧
    (enable_vtx m).vmx_basic = m.vmx_basic ∧
    (enable_vtx m).ept_pml4 = m.ept_pml4 ∧
    (enable_vtx m).ept_pdpt = m.ept_pdpt ∧
    (enable_vtx m).ept_pd = m.ept_pd ∧
    (enable_vtx m).ept_pt = m.ept_pt ∧
    (enable_vtx m).mem = m.mem ∧
    (enable_vtx m).trace = m.trace ++ enable_vtx_events m.cr4 :=
  ⟨rfl, rfl, rfl, rfl, rfl, rfl, rfl, rfl, rfl, rfl, rfl, rfl, rfl, rfl,
    by simp [enable_vtx, Machine.log, enable_vtx_events]⟩

@[simp] theorem get_vmx_info_effect (m : Machine) :
    (get_vmx_info m).cpuid_hw = m.cpuid_hw ∧
    (get_vmx_info m).cr4 = m.cr4 ∧
    (get_vmx_info m).msr = m.msr ∧
    (get_vmx_info m).inb_hw = m.inb_hw ∧
    (get_vmx_info m).vmcs_field = m.vmcs_field ∧
    (get_vmx_info m).current_vmcs = m.current_vmcs ∧
    (get_vmx_info m).vtx_supported = m.vtx_supported ∧
    (get_vmx_info m).vmcs_revision_id = u32 (u64 (m.msr 0x480) &&& 0x7FFFFFFF) ∧
    (get_vmx_info m).vmx_basic = u64 (m.msr 0x480) ∧
    (get_vmx_info m).ept_pml4 = m.ept_pml4 ∧
    (get_vmx_info m).ept_pdpt = m.ept_pdpt ∧
    (get_vmx_info m).ept_pd = m.ept_pd ∧
    (get_vmx_info m).ept_pt = m.ept_pt ∧
    (get_vmx_info m).mem = m.mem ∧
    (get_vmx_info m).trace = m.trace ++ get_vmx_info_events :=
  ⟨rfl, rfl, rfl, rfl, rfl, rfl, rfl, rfl, rfl, rfl, rfl, rfl, rfl, rfl,
    by simp [get_vmx_info, Machine.log, get_vmx_info_events]⟩

theorem alloc_vmcs_effect (L : Layout) (m : Machine) :
    (alloc_vmcs L m).2.cpuid_hw = m.cpuid_hw ∧
    (alloc_vmcs L m).2.cr4 = m.cr4 ∧
    (alloc_vmcs L m).2.msr = m.msr ∧
    (alloc_vmcs L m).2.inb_hw = m.inb_hw ∧
    (alloc_vmcs L m).2.vmcs_field = m.vmcs_field ∧
    (alloc_vmcs L m).2.current_vmcs = m.current_vmcs ∧
    (alloc_vmcs L m).2.vtx_supported = m.vtx_supported ∧
    (alloc_vmcs L m).2.vmcs_revision_id = m.vmcs_revision_id ∧
    (alloc_vmcs L m).2.vmx_basic = m.vmx_basic ∧
    (alloc_vmcs L m).2.ept_pml4 = m.ept_pml4 ∧
    (alloc_vmcs L m).2.ept_pdpt = m.ept_pdpt ∧
    (alloc_vmcs L m).2.ept_pd = m.ept_pd ∧
    (alloc_vmcs L m).2.ept_pt = m.ept_pt ∧
    (alloc_vmcs L m).2.mem =
      (fun r2 j => if r2 = Region.vmcs ∧ j = 0 then u32 m.vmcs_revision_id else m.mem r2 j) ∧
    (alloc_vmcs L m).2.trace =
      m.trace ++ [Event.call Fn.alloc_vmcs [], Event.store Region.vmcs 0 (u32 m.vmcs_revision_id)] :=
  ⟨rfl, rfl, rfl, rfl, rfl, rfl, rfl, rfl, rfl, rfl, rfl, rfl, rfl, rfl,
    by simp [alloc_vmcs, Machine.log, store]⟩

theorem alloc_vmcs_fst (L : Layout) (m : Machine) :
    (alloc_vmcs L m).1 = L.addr Region.vmcs := by
  unfold alloc_vmcs
  rfl

/-! ## Enabling the extension -/

/-- C20: on a 32-bit control register holding `c`, `enable_vtx` leaves
`c ||| 2^13`: bit 13 is set, every other bit keeps its value, and enabling a
second time leaves the register as the first call left it. -/
theorem enable_vtx_sets_bit_13 (m : Machine) (hc : m.cr4 < 2 ^ 32) :
    (enable_vtx m).cr4 = m.cr4 ||| 2 ^ 13 ∧
    ((enable_vtx m).cr4).testBit 13 = true ∧
    (∀ i, i ≠ 13 → ((enable_vtx m).cr4).testBit i = (m.cr4).testBit i) ∧
    (enable_vtx (enable_vtx m)).cr4 = (enable_vtx m).cr4 := by
  have hlt : m.cr4 ||| 2 ^ 13 < 2 ^ 32 := Nat.or_lt_two_pow hc (by norm_num)
  have e13 : (1 <<< 13 : Nat) = 2 ^ 13 := by decide
  have h1 : (enable_vtx m).cr4 = m.cr4 ||| 2 ^ 13 := by
    rw [(enable_vtx_effect m).2.1, e13]
    unfold u32
    rw [Nat.mod_eq_of_lt hc, Nat.mod_eq_of_lt hlt]
  refine ⟨h1, ?_, ?_, ?_⟩
  · rw [h1, Nat.testBit_or, Nat.testBit_two_pow_self, Bool.or_true]
  · intro i hi
    rw [h1, Nat.testBit_or, Nat.testBit_two_pow_of_ne (Ne.symm hi), Bool.or_false]
  · rw [(enable_vtx_effect (enable_vtx m)).2.1, h1, e13]
    unfold u32
    rw [Nat.mod_eq_of_lt hlt, Nat.or_assoc, Nat.or_self, Nat.mod_eq_of_lt hlt]

/-- C20, instance: CR4 = 0x10 becomes 0x2010, and stays 0x2010. -/
theorem enable_vtx_sets_bit_13_witness :
    ({ bootMachine with cr4 := 0x10 } : Machine).cr4 < 2 ^ 32 ∧
    (enable_vtx { bootMachine with cr4 := 0x10 }).cr4 = 0x10 ||| 2 ^ 13 ∧
    (enable_vtx (enable_vtx { bootMachine with cr4 := 0x10 })).cr4 =
      (enable_vtx { bootMachine with cr4 := 0x10 }).cr4 :=
  have h := enable_vtx_sets_bit_13 { bootMachine with cr4 := 0x10 } (by decide)
  ⟨by decide, h.1, h.2.2.2⟩

/-! ## Capability query and allocation -/

theorem and_low_31 (x : Nat) : x &&& 0x7FFFFFFF = x % 2 ^ 31 := by
  have h := Nat.and_pow_two_sub_one_eq_mod x 31
  simpa using h

/-- C14: for every value `b` of the capability register (MSR 0x480, read as 64
bits), `get_vmx_info` derives the revision identifier `b mod 2^31`, whose bit
31 is clear, and `alloc_vmcs` called afterwards returns the address of the
static page with that value in its leading `revision_id` word. -/
theorem get_vmx_info_revision_id (L : Layout) (m : Machine) :
    (get_vmx_info m).vmx_basic = m.msr 0x480 % 2 ^ 64 ∧
    (get_vmx_info m).vmcs_revision_id = (get_vmx_info m).vmx_basic % 2 ^ 31 ∧
    ((get_vmx_info m).vmcs_revision_id).testBit 31 = false ∧
    (alloc_vmcs L (get_vmx_info m)).1 = L.addr Region.vmcs ∧
    (alloc_vmcs L (get_vmx_info m)).2.mem Region.vmcs 0 = (get_vmx_info m).vmcs_revision_id := by
  have hb : (get_vmx_info m).vmx_basic = m.msr 0x480 % 2 ^ 64 :=
    (get_vmx_info_effect m).2.2.2.2.2.2.2.2.1
  have hr : (get_vmx_info m).vmcs_revision_id = (get_vmx_info m).vmx_basic % 2 ^ 31 := by
    rw [(get_vmx_info_effect m).2.2.2.2.2.2.2.1, hb, and_low_31]
    unfold u32 u64
    omega
  have hlt : (get_vmx_info m).vmcs_revision_id < 2 ^ 31 := by
    rw [hr]; exact Nat.mod_lt _ (by norm_num)
  refine ⟨hb, hr, Nat.testBit_lt_two_pow hlt, alloc_vmcs_fst L _, ?_⟩
  rw [(alloc_vmcs_effect L (get_vmx_info m)).2.2.2.2.2.2.2.2.2.2.2.2.2.1]
  simp only [and_self, if_true]
  unfold u32
  omega

/-! ## The EPT pointer -/

theorem eptp_value (a : Nat) (ha : a % 4096 = 0) (hlt : a < 2 ^ 31) :
    (ptr_to_u64 a &&& 0xFFFFFFFFFF000) ||| (EPT_MT_WB <<< 3) ||| 0x6 = a + 0x36 := by
  have h1 : ptr_to_u64 a = a := ptr_to_u64_of_lt a hlt
  have h2 : a &&& 0xFFFFFFFFFF000 = a := by
    rw [and_frame_mask a (by omega)]; omega
  rw [h1, h2, Nat.or_assoc]
  exact lor_aligned_low a 0x36 ha (by norm_num)

theorem memset_frame (L : Layout) (r : Region) (c n : Nat) (m : Machine) :
    (memset L r c n m).cpuid_hw = m.cpuid_hw ∧
    (memset L r c n m).cr4 = m.cr4 ∧
    (memset L r c n m).msr = m.msr ∧
    (memset L r c n m).inb_hw = m.inb_hw ∧
    (memset L r c n m).vmcs_field = m.vmcs_field ∧
    (memset L r c n m).current_vmcs = m.current_vmcs ∧
    (memset L r c n m).vtx_supported = m.vtx_supported ∧
    (memset L r c n m).vmcs_revision_id = m.vmcs_revision_id ∧
    (memset L r c n m).vmx_basic = m.vmx_basic ∧
    (memset L r c n m).ept_pml4 = m.ept_pml4 ∧
    (memset L r c n m).ept_pdpt = m.ept_pdpt ∧
    (memset L r c n m).ept_pd = m.ept_pd ∧
    (memset L r c n m).ept_pt = m.ept_pt := by
  unfold memset
  have h := memset_loop_frame r c n 0 (m.log (Event.call Fn.memset [L.addr r, c, n]))
  simp only [log_effect] at h
  exact h

theorem io_bitmap_a_allow_frame (port : Nat) (m : Machine) :
    (io_bitmap_a_allow port m).cpuid_hw = m.cpuid_hw ∧
    (io_bitmap_a_allow port m).cr4 = m.cr4 ∧
    (io_bitmap_a_allow port m).msr = m.msr ∧
    (io_bitmap_a_allow port m).inb_hw = m.inb_hw ∧
    (io_bitmap_a_allow port m).vmcs_field = m.vmcs_field ∧
    (io_bitmap_a_allow port m).current_vmcs = m.current_vmcs ∧
    (io_bitmap_a_allow port m).vtx_supported = m.vtx_supported ∧
    (io_bitmap_a_allow port m).vmcs_revision_id = m.vmcs_revision_id ∧
    (io_bitmap_a_allow port m).vmx_basic = m.vmx_basic ∧
    (io_bitmap_a_allow port m).ept_pml4 = m.ept_pml4 ∧
    (io_bitmap_a_allow port m).ept_pdpt = m.ept_pdpt ∧
    (io_bitmap_a_allow port m).ept_pd = m.ept_pd ∧
    (io_bitmap_a_allow port m).ept_pt = m.ept_pt := by
  unfold io_bitmap_a_allow
  simp only [store_effect, and_self]

theorem init_ept_frame (L : Layout) (m : Machine) :
    (init_ept L m).cpuid_hw = m.cpuid_hw ∧
    (init_ept L m).cr4 = m.cr4 ∧
    (init_ept L m).msr = m.msr ∧
    (init_ept L m).inb_hw = m.inb_hw ∧
    (init_ept L m).vmcs_field = m.vmcs_field ∧
    (init_ept L m).current_vmcs = m.current_vmcs ∧
    (init_ept L m).vtx_supported = m.vtx_supported ∧
    (init_ept L m).vmcs_revision_id = m.vmcs_revision_id ∧
    (init_ept L m).vmx_basic = m.vmx_basic := by
  unfold init_ept
  have h := init_ept_loop_frame 512 0
    (store Region.pd 0 (ptr_to_u64 (L.addr Region.pt) ||| EPT_PRESENT ||| EPT_RW ||| EPT_EXECUTE)
      (store Region.pdpt 0 (ptr_to_u64 (L.addr Region.pd) ||| EPT_PRESENT ||| EPT_RW ||| EPT_EXECUTE)
        (store Region.pml4 0 (ptr_to_u64 (L.addr Region.pdpt) ||| EPT_PRESENT ||| EPT_RW ||| EPT_EXECUTE)
          { m.log (Event.call Fn.init_ept []) with
            ept_pml4 := L.addr Region.pml4,
            ept_pdpt := L.addr Region.pdpt,
            ept_pd := L.addr Region.pd,
            ept_pt := L.addr Region.pt })))
  simp only [store_effect, log_effect] at h
  exact ⟨h.1, h.2.1, h.2.2.1, h.2.2.2.1, h.2.2.2.2.1, h.2.2.2.2.2.1, h.2.2.2.2.2.2.1,
    h.2.2.2.2.2.2.2.1, h.2.2.2.2.2.2.2.2.1⟩

theorem setup_vmcs_features_vmcs_field (L : Layout) (m : Machine) (f : Nat) :
    (setup_vmcs_features L m).vmcs_field f =
      if f = 0x00004004 then u64 (u32 (u32 (u64 (m.vmcs_field 0x00004004)) ||| (1 <<< 25)))
      else if f = 0x00002002 then u64 (u32 (L.addr Region.io_bitmap_b))
      else if f = 0x00002000 then u64 (u32 (L.addr Region.io_bitmap_a))
      else if f = 0x0000201C then
        u64 ((ptr_to_u64 m.ept_pml4 &&& 0xFFFFFFFFFF000) ||| (EPT_MT_WB <<< 3) ||| 0x6)
      else if f = 0x0000201A then u64 1
      else m.vmcs_field f := by
  unfold setup_vmcs_features
  simp only [vmwrite_effect, vmread_snd, vmread_fst, get_eptp_snd, get_eptp_fst, log_effect,
    io_bitmap_a_allow_frame, memset_frame]
  rfl

theorem setup_vmcs_features_trace_events (L : Layout) (m : Machine) :
    (setup_vmcs_features L m).trace =
      m.trace ++ setup_vmcs_features_events L m.ept_pml4 (m.vmcs_field 0x00004004) := by
  rw [setup_vmcs_features_trace]
  rfl

/-! ## Effect of `setup_vmcs` -/

theorem setup_vmcs_vmcs_field (L : Layout) (vmcs : Nat) (guest : guest_regs_t) (m : Machine)
    (f : Nat) :
    (setup_vmcs L vmcs guest m).vmcs_field f =
      if f = 0x00004004 then u64 (u32 (u32 (u64 (m.vmcs_field 0x00004004)) ||| (1 <<< 25)))
      else if f = 0x00002002 then u64 (u32 (L.addr Region.io_bitmap_b))
      else if f = 0x00002000 then u64 (u32 (L.addr Region.io_bitmap_a))
      else if f = 0x0000201C then
        u64 ((ptr_to_u64 (L.addr Region.pml4) &&& 0xFFFFFFFFFF000) ||| (EPT_MT_WB <<< 3) ||| 0x6)
      else if f = 0x0000201A then u64 1
      else if f = VMCS_HOST_RIP then u64 (ptr_to_u64 L.vmexit_handler)
      else if f = VMCS_HOST_RSP then u64 (0x90000)
      else if f = VMCS_HOST_CR4 then u64 (u32 guest.cr4)
      else if f = VMCS_HOST_CR3 then u64 (u32 guest.cr3)
      else if f = VMCS_HOST_CR0 then u64 (u32 guest.cr0)
      else if f = VMCS_GUEST_SS_SELECTOR then u64 (u16 guest.ss)
      else if f = VMCS_GUEST_GS_SELECTOR then u64 (u16 guest.gs)
      else if f = VMCS_GUEST_FS_SELECTOR then u64 (u16 guest.fs)
      else if f = VMCS_GUEST_ES_SELECTOR then u64 (u16 guest.es)
      else if f = VMCS_GUEST_DS_SELECTOR then u64 (u16 guest.ds)
      else if f = VMCS_GUEST_CS_SELECTOR then u64 (u16 guest.cs)
      else if f = VMCS_GUEST_RFLAGS then u64 (u32 guest.eflags)
      else if f = VMCS_GUEST_RIP then u64 (u32 guest.eip)
      else if f = VMCS_GUEST_RSP then u64 (u32 guest.esp)
      else if f = VMCS_GUEST_CR4 then u64 (u32 guest.cr4)
      else if f = VMCS_GUEST_CR3 then u64 (u32 guest.cr3)
      else if f = VMCS_GUEST_CR0 then u64 (u32 guest.cr0)
      else m.vmcs_field f := by
  unfold setup_vmcs
  simp only [setup_vmcs_features_vmcs_field, init_ept_frame, init_ept_ptrs, vmwrite_effect,
    vmptrld_effect, log_effect]
  rfl

theorem u64_u32_of_lt (x : Nat) (h : x < 2 ^ 32) : u64 (u32 x) = x := by
  unfold u64 u32; omega

theorem u64_u16_of_lt (x : Nat) (h : x < 2 ^ 16) : u64 (u16 x) = x := by
  unfold u64 u16; omega

theorem minimal_guest_wf : minimal_guest.wf := by
  unfold guest_regs_t.wf minimal_guest
  decide

/-- C15: for every guest register snapshot `g` (members within their C
types), after `setup_vmcs` the guest CR0, CR3, CR4 fields hold `g.cr0`,
`g.cr3`, `g.cr4`, the guest stack-pointer, instruction-pointer and flags
fields hold `g.esp`, `g.eip`, `g.eflags`, and the CS, DS, ES, FS, GS, SS
selector fields hold `g.cs` .. `g.ss`: none is overwritten by the host-state,
table or trap configuration writes that follow. -/
theorem setup_vmcs_guest_state (L : Layout) (vmcs : Nat) (g : guest_regs_t) (m : Machine)
    (hg : g.wf) :
    (setup_vmcs L vmcs g m).vmcs_field VMCS_GUEST_CR0 = g.cr0 ∧
    (setup_vmcs L vmcs g m).vmcs_field VMCS_GUEST_CR3 = g.cr3 ∧
    (setup_vmcs L vmcs g m).vmcs_field VMCS_GUEST_CR4 = g.cr4 ∧
    (setup_vmcs L vmcs g m).vmcs_field VMCS_GUEST_RSP = g.esp ∧
    (setup_vmcs L vmcs g m).vmcs_field VMCS_GUEST_RIP = g.eip ∧
    (setup_vmcs L vmcs g m).vmcs_field VMCS_GUEST_RFLAGS = g.eflags ∧
    (setup_vmcs L vmcs g m).vmcs_field VMCS_GUEST_CS_SELECTOR = g.cs ∧
    (setup_vmcs L vmcs g m).vmcs_field VMCS_GUEST_DS_SELECTOR = g.ds ∧
    (setup_vmcs L vmcs g m).vmcs_field VMCS_GUEST_ES_SELECTOR = g.es ∧
    (setup_vmcs L vmcs g m).vmcs_field VMCS_GUEST_FS_SELECTOR = g.fs ∧
    (setup_vmcs L vmcs g m).vmcs_field VMCS_GUEST_GS_SELECTOR = g.gs ∧
    (setup_vmcs L vmcs g m).vmcs_field VMCS_GUEST_SS_SELECTOR = g.ss := by
  obtain ⟨h0, h3, h4, hsp, hip, hfl, hcs, hds, hes, hfs, hgs, hss⟩ := hg
  refine ⟨?_, ?_, ?_, ?_, ?_, ?_, ?_, ?_, ?_, ?_, ?_, ?_⟩
  · rw [setup_vmcs_vmcs_field]; exact u64_u32_of_lt _ h0
  · rw [setup_vmcs_vmcs_field]; exact u64_u32_of_lt _ h3
  · rw [setup_vmcs_vmcs_field]; exact u64_u32_of_lt _ h4
  · rw [setup_vmcs_vmcs_field]; exact u64_u32_of_lt _ hsp
  · rw [setup_vmcs_vmcs_field]; exact u64_u32_of_lt _ hip
  · rw [setup_vmcs_vmcs_field]; exact u64_u32_of_lt _ hfl
  · rw [setup_vmcs_vmcs_field]; exact u64_u16_of_lt _ hcs
  · rw [setup_vmcs_vmcs_field]; exact u64_u16_of_lt _ hds
  · rw [setup_vmcs_vmcs_field]; exact u64_u16_of_lt _ hes
  · rw [setup_vmcs_vmcs_field]; exact u64_u16_of_lt _ hfs
  · rw [setup_vmcs_vmcs_field]; exact u64_u16_of_lt _ hgs
  · rw [setup_vmcs_vmcs_field]; exact u64_u16_of_lt _ hss

/-- C15, instance: the guest of `launch_minimal_vm`, entered at 0x7C00. -/
theorem setup_vmcs_guest_state_witness :
    minimal_guest.wf ∧
    (setup_vmcs sampleLayout 0x106000 minimal_guest bootMachine).vmcs_field VMCS_GUEST_RIP
      = 0x7C00 ∧
    (setup_vmcs sampleLayout 0x106000 minimal_guest bootMachine).vmcs_field VMCS_GUEST_RSP
      = 0x7C00 ∧
    (setup_vmcs sampleLayout 0x106000 minimal_guest bootMachine).vmcs_field VMCS_GUEST_RFLAGS
      = 0x02 :=
  have h := setup_vmcs_guest_state sampleLayout 0x106000 minimal_guest bootMachine
    minimal_guest_wf
  ⟨minimal_guest_wf, h.2.2.2.2.1, h.2.2.2.1, h.2.2.2.2.2.1⟩

/-- C16: after `setup_vmcs`, for every guest snapshot, the host
instruction-pointer field 0x6C16 holds the address of `vmexit_handler` and the
host stack-pointer field 0x6C14 holds 0x90000. -/
theorem setup_vmcs_host_entry (L : Layout) (vmcs : Nat) (g : guest_regs_t) (m : Machine)
    (hh : L.vmexit_handler < 2 ^ 31) :
    VMCS_HOST_RIP = 0x6C16 ∧ VMCS_HOST_RSP = 0x6C14 ∧
    (setup_vmcs L vmcs g m).vmcs_field 0x6C16 = L.vmexit_handler ∧
    (setup_vmcs L vmcs g m).vmcs_field 0x6C14 = 0x90000 := by
  refine ⟨rfl, rfl, ?_, ?_⟩
  · rw [setup_vmcs_vmcs_field]
    show u64 (ptr_to_u64 L.vmexit_handler) = L.vmexit_handler
    rw [ptr_to_u64_of_lt _ hh]
    unfold u64; omega
  · rw [setup_vmcs_vmcs_field]; rfl

/-- C16, instance: the sample layout, whose dispatcher sits at 0x8000. -/
theorem setup_vmcs_host_entry_witness :
    sampleLayout.vmexit_handler < 2 ^ 31 ∧
    (setup_vmcs sampleLayout 0x106000 minimal_guest bootMachine).vmcs_field 0x6C16 = 0x8000 ∧
    (setup_vmcs sampleLayout 0x106000 minimal_guest bootMachine).vmcs_field 0x6C14 = 0x90000 :=
  have h := setup_vmcs_host_entry sampleLayout 0x106000 minimal_guest bootMachine (by decide)
  ⟨by decide, h.2.2.1, h.2.2.2⟩

theorem setup_vmcs_recorded (L : Layout) (hL : L.wf) (vmcs : Nat) (g : guest_regs_t)
    (m : Machine) :
    (setup_vmcs L vmcs g m).vmcs_field 0x201C = L.addr Region.pml4 + 0x36 ∧
    (setup_vmcs L vmcs g m).vmcs_field 0x2000 = L.addr Region.io_bitmap_a ∧
    (setup_vmcs L vmcs g m).vmcs_field 0x2002 = L.addr Region.io_bitmap_b := by
  have hp := hL.1 Region.pml4
  have ha := hL.1 Region.io_bitmap_a
  have hb := hL.1 Region.io_bitmap_b
  refine ⟨?_, ?_, ?_⟩
  · rw [setup_vmcs_vmcs_field]
    show u64 ((ptr_to_u64 (L.addr Region.pml4) &&& 0xFFFFFFFFFF000) ||| (EPT_MT_WB <<< 3) ||| 0x6) = _
    rw [eptp_value _ hp.1 (by omega)]
    unfold u64; omega
  · rw [setup_vmcs_vmcs_field]
    show u64 (u32 (L.addr Region.io_bitmap_a)) = _
    exact u64_u32_of_lt _ (by omega)
  · rw [setup_vmcs_vmcs_field]
    show u64 (u32 (L.addr Region.io_bitmap_b)) = _
    exact u64_u32_of_lt _ (by omega)

/-- C18, counterexample: with the tables and bitmaps of the sample layout at
non-null page-aligned addresses, the value `setup_vmcs` records in field
0x201C is 0x100036, which is not a multiple of 4096. -/
theorem setup_vmcs_root_not_aligned :
    sampleLayout.wf ∧
    (setup_vmcs sampleLayout 0x106000 minimal_guest bootMachine).vmcs_field 0x201C = 0x100036 ∧
    ¬ ((setup_vmcs sampleLayout 0x106000 minimal_guest bootMachine).vmcs_field 0x201C % 4096
        = 0) := by
  have h := (setup_vmcs_recorded sampleLayout sampleLayout_wf 0x106000 minimal_guest
    bootMachine).1
  refine ⟨sampleLayout_wf, h, ?_⟩
  rw [h]
  decide

/-- C18, amended: with the static tables and bitmaps at non-null page-aligned
addresses, after `setup_vmcs` the two I/O-bitmap address fields 0x2000 and
0x2002 hold the non-null, page-aligned bitmap addresses; the root field 0x201C
holds a non-null descriptor whose address part (bits 63:12) is the non-null,
page-aligned address of the root table and whose low 12 bits are 0x36. -/
theorem setup_vmcs_recorded_addresses (L : Layout) (hL : L.wf) (vmcs : Nat)
    (g : guest_regs_t) (m : Machine) :
    (setup_vmcs L vmcs g m).vmcs_field 0x2000 = L.addr Region.io_bitmap_a ∧
    (setup_vmcs L vmcs g m).vmcs_field 0x2000 ≠ 0 ∧
    (setup_vmcs L vmcs g m).vmcs_field 0x2000 % 4096 = 0 ∧
    (setup_vmcs L vmcs g m).vmcs_field 0x2002 = L.addr Region.io_bitmap_b ∧
    (setup_vmcs L vmcs g m).vmcs_field 0x2002 ≠ 0 ∧
    (setup_vmcs L vmcs g m).vmcs_field 0x2002 % 4096 = 0 ∧
    (setup_vmcs L vmcs g m).vmcs_field 0x201C ≠ 0 ∧
    (setup_vmcs L vmcs g m).vmcs_field 0x201C / 4096 * 4096 = L.addr Region.pml4 ∧
    (setup_vmcs L vmcs g m).vmcs_field 0x201C / 4096 * 4096 ≠ 0 ∧
    (setup_vmcs L vmcs g m).vmcs_field 0x201C / 4096 * 4096 % 4096 = 0 ∧
    (setup_vmcs L vmcs g m).vmcs_field 0x201C % 4096 = 0x36 := by
  obtain ⟨hr, ha, hb⟩ := setup_vmcs_recorded L hL vmcs g m
  have hp := hL.1 Region.pml4
  have hA := hL.1 Region.io_bitmap_a
  have hB := hL.1 Region.io_bitmap_b
  rw [hr, ha, hb]
  refine ⟨rfl, ?_, hA.1, rfl, ?_, hB.1, ?_, ?_, ?_, ?_, ?_⟩ <;> omega

/-- C18, instance: the sample layout. -/
theorem setup_vmcs_recorded_addresses_witness :
    sampleLayout.wf ∧
    (setup_vmcs sampleLayout 0x106000 minimal_guest bootMachine).vmcs_field 0x2000
      = 0x104000 ∧
    (setup_vmcs sampleLayout 0x106000 minimal_guest bootMachine).vmcs_field 0x2002
      = 0x105000 ∧
    (setup_vmcs sampleLayout 0x106000 minimal_guest bootMachine).vmcs_field 0x201C / 4096 * 4096
      = 0x100000 :=
  have h := setup_vmcs_recorded_addresses sampleLayout sampleLayout_wf 0x106000 minimal_guest
    bootMachine
  ⟨sampleLayout_wf, h.1, h.2.2.2.1, h.2.2.2.2.2.2.2.1⟩

/-! ## Enabling I/O trapping -/

/-- C19: `setup_vmcs_features` leaves the address of bitmap A in field 0x2000
and of bitmap B in field 0x2002, and ends with a read of field 0x4004
followed by a write of `c ||| 2^25`, `c` being the 32-bit value the field
held: bit 25 is set and every other bit keeps its value. -/
theorem setup_vmcs_features_io_trapping (L : Layout) (m : Machine)
    (hA : L.addr Region.io_bitmap_a < 2 ^ 32) (hB : L.addr Region.io_bitmap_b < 2 ^ 32)
    (hc : m.vmcs_field 0x4004 < 2 ^ 32) :
    (setup_vmcs_features L m).vmcs_field 0x2000 = L.addr Region.io_bitmap_a ∧
    (setup_vmcs_features L m).vmcs_field 0x2002 = L.addr Region.io_bitmap_b ∧
    (setup_vmcs_features L m).vmcs_field 0x4004 = m.vmcs_field 0x4004 ||| 2 ^ 25 ∧
    ((setup_vmcs_features L m).vmcs_field 0x4004).testBit 25 = true ∧
    (∀ i, i ≠ 25 →
      ((setup_vmcs_features L m).vmcs_field 0x4004).testBit i
        = (m.vmcs_field 0x4004).testBit i) ∧
    (∃ pre, (setup_vmcs_features L m).trace =
      m.trace ++ pre ++
        [Event.vmwrite 0x2000 (L.addr Region.io_bitmap_a),
         Event.vmwrite 0x2002 (L.addr Region.io_bitmap_b),
         Event.vmread 0x4004,
         Event.vmwrite 0x4004 (m.vmcs_field 0x4004 ||| 2 ^ 25)]) := by
  have hlt : m.vmcs_field 0x4004 ||| 2 ^ 25 < 2 ^ 32 := Nat.or_lt_two_pow hc (by norm_num)
  have e25 : (1 <<< 25 : Nat) = 2 ^ 25 := by decide
  have hval : u64 (u32 (u32 (u64 (m.vmcs_field 0x4004)) ||| (1 <<< 25)))
      = m.vmcs_field 0x4004 ||| 2 ^ 25 := by
    rw [u32_u64, Nat.mod_eq_of_lt hc, e25]
    exact u64_u32_of_lt _ hlt
  have h4 : (setup_vmcs_features L m).vmcs_field 0x4004 = m.vmcs_field 0x4004 ||| 2 ^ 25 := by
    rw [setup_vmcs_features_vmcs_field]
    exact hval
  refine ⟨?_, ?_, h4, ?_, ?_, ?_⟩
  · rw [setup_vmcs_features_vmcs_field]
    exact u64_u32_of_lt _ hA
  · rw [setup_vmcs_features_vmcs_field]
    exact u64_u32_of_lt _ hB
  · rw [h4, Nat.testBit_or, Nat.testBit_two_pow_self, Bool.or_true]
  · intro i hi
    rw [h4, Nat.testBit_or, Nat.testBit_two_pow_of_ne (Ne.symm hi), Bool.or_false]
  · refine ⟨[Event.call Fn.setup_vmcs_features [],
        Event.vmwrite 0x0000201A 1,
        Event.call Fn.get_eptp [],
        Event.vmwrite 0x0000201C
          (u64 ((ptr_to_u64 m.ept_pml4 &&& 0xFFFFFFFFFF000) ||| (EPT_MT_WB <<< 3) ||| 0x6))] ++
      (Event.call Fn.memset [L.addr Region.io_bitmap_a, 0xFF, 4096] ::
        memset_stores Region.io_bitmap_a 0xFF 0 4096) ++
      (Event.call Fn.memset [L.addr Region.io_bitmap_b, 0xFF, 4096] ::
        memset_stores Region.io_bitmap_b 0xFF 0 4096) ++
      allow_stores, ?_⟩
    rw [setup_vmcs_features_trace_events]
    unfold setup_vmcs_features_events
    rw [hval, u64_u32_of_lt _ hA, u64_u32_of_lt _ hB]
    simp only [List.append_assoc]

/-- C19, instance: the sample layout, controls 0x401E172 before the call. -/
theorem setup_vmcs_features_io_trapping_witness :
    sampleLayout.addr Region.io_bitmap_a < 2 ^ 32 ∧
    sampleLayout.addr Region.io_bitmap_b < 2 ^ 32 ∧
    (exitMachine fun _ => 0x401E172).vmcs_field 0x4004 < 2 ^ 32 ∧
    (setup_vmcs_features sampleLayout (exitMachine fun _ => 0x401E172)).vmcs_field 0x2000
      = 0x104000 ∧
    (setup_vmcs_features sampleLayout (exitMachine fun _ => 0x401E172)).vmcs_field 0x4004
      = 0x401E172 ||| 2 ^ 25 :=
  have h := setup_vmcs_features_io_trapping sampleLayout (exitMachine fun _ => 0x401E172)
    (by decide) (by decide) (by decide)
  ⟨by decide, by decide, by decide, h.1, h.2.2.1⟩

/-! ## Growth of the trace -/

theorem adds_only_refl (P : Event → Prop) (m : Machine) : adds_only P m m :=
  ⟨[], by simp, by simp⟩

theorem adds_only_of_trace (P : Event → Prop) (m m1 m2 : Machine) (e : Event)
    (h : adds_only P m m1) (ht : m2.trace = m1.trace ++ [e]) (hp : P e) :
    adds_only P m m2 := by
  obtain ⟨evs, h1, h2⟩ := h
  refine ⟨evs ++ [e], ?_, ?_⟩
  · rw [ht, h1, List.append_assoc]
  · intro x hx
    rcases List.mem_append.mp hx with hx | hx
    · exact h2 x hx
    · rw [List.mem_singleton.mp hx]; exact hp

theorem adds_only_log (P : Event → Prop) (m m1 : Machine) (e : Event)
    (hp : P e) (h : adds_only P m m1) : adds_only P m (m1.log e) :=
  adds_only_of_trace P m m1 _ e h (log_effect m1 e).2.2.2.2.2.2.2.2.2.2.2.2.2.2 hp

theorem adds_only_vmwrite (P : Event → Prop) (m m1 : Machine) (field value : Nat)
    (hp : P (Event.vmwrite field (u64 value))) (h : adds_only P m m1) :
    adds_only P m (vmwrite field value m1) :=
  adds_only_of_trace P m m1 _ _ h (vmwrite_effect field value m1).2.2.2.2.2.2.2.2.2.2.2.2.2.2 hp

theorem adds_only_vmread (P : Event → Prop) (m m1 : Machine) (field : Nat)
    (hp : P (Event.vmread field)) (h : adds_only P m m1) :
    adds_only P m (vmread field m1).2 := by
  rw [vmread_snd]
  exact adds_only_log P m m1 _ hp h

theorem adds_only_outb (P : Event → Prop) (m m1 : Machine) (port val : Nat)
    (hp : P (Event.outb (u16 port) (u8 val))) (h : adds_only P m m1) :
    adds_only P m (outb port val m1) :=
  adds_only_of_trace P m m1 _ _ h (outb_effect port val m1).2.2.2.2.2.2.2.2.2.2.2.2.2.2 hp

theorem adds_only_inb (P : Event → Prop) (m m1 : Machine) (port : Nat)
    (hp : P (Event.inb (u16 port))) (h : adds_only P m m1) :
    adds_only P m (inb port m1).2 := by
  rw [inb_snd]
  exact adds_only_log P m m1 _ hp h

/-! ## The handlers never enter the guest

Each handler only adds events other than `vmlaunch` and `vmresume`. -/

theorem adds_only_handle_cpuid_exit (P : Event → Prop) (m m1 : Machine)
    (hP : ∀ e, Event.is_entry e = false → P e) (h : adds_only P m m1) :
    adds_only P m (handle_cpuid_exit m1) := by
  unfold handle_cpuid_exit
  apply adds_only_vmwrite _ _ _ _ _ (hP _ rfl)
  apply adds_only_vmwrite _ _ _ _ _ (hP _ rfl)
  apply adds_only_vmwrite _ _ _ _ _ (hP _ rfl)
  apply adds_only_vmwrite _ _ _ _ _ (hP _ rfl)
  apply adds_only_vmread _ _ _ _ (hP _ rfl)
  exact adds_only_log _ _ _ _ (hP _ rfl) h

theorem adds_only_handle_hlt_exit (P : Event → Prop) (m m1 : Machine)
    (hP : ∀ e, Event.is_entry e = false → P e) (h : adds_only P m m1) :
    adds_only P m (handle_hlt_exit m1) := by
  unfold handle_hlt_exit
  apply adds_only_vmwrite _ _ _ _ _ (hP _ rfl)
  apply adds_only_vmread _ _ _ _ (hP _ rfl)
  exact adds_only_log _ _ _ _ (hP _ rfl) h

theorem adds_only_handle_exception_exit (P : Event → Prop) (m m1 : Machine)
    (hP : ∀ e, Event.is_entry e = false → P e) (h : adds_only P m m1) :
    adds_only P m (handle_exception_exit m1) := by
  unfold handle_exception_exit
  simp only [ite_self]
  apply adds_only_vmread _ _ _ _ (hP _ rfl)
  exact adds_only_log _ _ _ _ (hP _ rfl) h

theorem adds_only_handle_port_out (P : Event → Prop) (m m1 : Machine) (port value size : Nat)
    (hP : ∀ e, Event.is_entry e = false → P e) (h : adds_only P m m1) :
    adds_only P m (handle_port_out port value size m1) := by
  have h1 := adds_only_log P m m1 (Event.call Fn.handle_port_out [port, value, size])
    (hP _ rfl) h
  unfold handle_port_out
  split
  · exact h1
  · split
    · exact h1
    · split
      · exact adds_only_outb _ _ _ _ _ (hP _ rfl) h1
      · exact h1

theorem adds_only_handle_port_in (P : Event → Prop) (m m1 : Machine) (port size : Nat)
    (hP : ∀ e, Event.is_entry e = false → P e) (h : adds_only P m m1) :
    adds_only P m (handle_port_in port size m1).2 := by
  have h1 := adds_only_log P m m1 (Event.call Fn.handle_port_in [port, size]) (hP _ rfl) h
  unfold handle_port_in
  split
  · exact h1
  · split
    · exact h1
    · split
      · exact adds_only_inb _ _ _ _ (hP _ rfl) h1
      · exact h1

theorem adds_only_handle_io_exit (P : Event → Prop) (m m1 : Machine)
    (hP : ∀ e, Event.is_entry e = false → P e) (h : adds_only P m m1) :
    adds_only P m (handle_io_exit m1) := by
  have h1 := adds_only_vmread P m _ VMCS_EXIT_QUALIFICATION (hP _ rfl)
    (adds_only_log P m m1 (Event.call Fn.handle_io_exit []) (hP _ rfl) h)
  unfold handle_io_exit
  dsimp only
  split
  · apply adds_only_handle_port_out _ _ _ _ _ _ hP
    exact adds_only_vmread _ _ _ _ (hP _ rfl) h1
  · apply adds_only_vmwrite _ _ _ _ _ (hP _ rfl)
    exact adds_only_handle_port_in _ _ _ _ _ hP h1

theorem adds_only_read_msr (P : Event → Prop) (m m1 : Machine) (msr : Nat)
    (hP : ∀ e, Event.is_entry e = false → P e) (h : adds_only P m m1) :
    adds_only P m (read_msr msr m1).2 := by
  unfold read_msr
  dsimp only
  exact adds_only_log P m _ (Event.rdmsr msr) (hP _ rfl)
    (adds_only_log P m m1 (Event.call Fn.read_msr [msr]) (hP _ rfl) h)

theorem adds_only_write_msr (P : Event → Prop) (m m1 : Machine) (msr value : Nat)
    (hP : ∀ e, Event.is_entry e = false → P e) (h : adds_only P m m1) :
    adds_only P m (write_msr msr value m1) :=
  adds_only_of_trace P m (m1.log (Event.call Fn.write_msr [msr, value])) _
    (Event.wrmsr msr (u32 (value &&& 0xFFFFFFFF)) (u32 (value >>> 32)))
    (adds_only_log _ _ _ _ (hP _ rfl) h) rfl (hP _ rfl)

theorem adds_only_handle_msr_exit (P : Event → Prop) (m m1 : Machine)
    (hP : ∀ e, Event.is_entry e = false → P e) (h : adds_only P m m1) :
    adds_only P m (handle_msr_exit m1) := by
  have h1 := adds_only_vmread P m _ VMCS_GUEST_RCX (hP _ rfl)
    (adds_only_vmread P m _ VMCS_EXIT_REASON (hP _ rfl)
      (adds_only_log P m m1 (Event.call Fn.handle_msr_exit []) (hP _ rfl) h))
  unfold handle_msr_exit
  dsimp only
  split
  · apply adds_only_vmwrite _ _ _ _ _ (hP _ rfl)
    apply adds_only_vmwrite _ _ _ _ _ (hP _ rfl)
    exact adds_only_read_msr _ _ _ _ hP h1
  · apply adds_only_write_msr _ _ _ _ _ hP
    apply adds_only_vmread _ _ _ _ (hP _ rfl)
    exact adds_only_vmread _ _ _ _ (hP _ rfl) h1

/-! ## The dispatcher -/

/-- The dispatcher is the selected handler, if any, followed by `vmresume`. -/
theorem vmexit_handler_eq (m : Machine) :
    vmexit_handler m =
      vmresume
        (if m.vmcs_field VMCS_EXIT_REASON % 2 ^ 32 = VMEXIT_CPUID then
          handle_cpuid_exit
            ((m.log (Event.call Fn.vmexit_handler [])).log (Event.vmread VMCS_EXIT_REASON))
        else if m.vmcs_field VMCS_EXIT_REASON % 2 ^ 32 = VMEXIT_HLT then
          handle_hlt_exit
            ((m.log (Event.call Fn.vmexit_handler [])).log (Event.vmread VMCS_EXIT_REASON))
        else if m.vmcs_field VMCS_EXIT_REASON % 2 ^ 32 = VMEXIT_IO then
          handle_io_exit
            ((m.log (Event.call Fn.vmexit_handler [])).log (Event.vmread VMCS_EXIT_REASON))
        else if m.vmcs_field VMCS_EXIT_REASON % 2 ^ 32 = VMEXIT_EXCEPTION then
          handle_exception_exit
            ((m.log (Event.call Fn.vmexit_handler [])).log (Event.vmread VMCS_EXIT_REASON))
        else if m.vmcs_field VMCS_EXIT_REASON % 2 ^ 32 = VMEXIT_MSR_READ ∨
            m.vmcs_field VMCS_EXIT_REASON % 2 ^ 32 = VMEXIT_MSR_WRITE then
          handle_msr_exit
            ((m.log (Event.call Fn.vmexit_handler [])).log (Event.vmread VMCS_EXIT_REASON))
        else (m.log (Event.call Fn.vmexit_handler [])).log (Event.vmread VMCS_EXIT_REASON)) := by
  unfold vmexit_handler
  simp only [vmread_snd, vmread_fst, log_effect, u32_u64]

theorem adds_only_dispatch (P : Event → Prop) (m : Machine)
    (hP : ∀ e, Event.is_entry e = false → P e) :
    adds_only P m
      (if m.vmcs_field VMCS_EXIT_REASON % 2 ^ 32 = VMEXIT_CPUID then
          handle_cpuid_exit
            ((m.log (Event.call Fn.vmexit_handler [])).log (Event.vmread VMCS_EXIT_REASON))
        else if m.vmcs_field VMCS_EXIT_REASON % 2 ^ 32 = VMEXIT_HLT then
          handle_hlt_exit
            ((m.log (Event.call Fn.vmexit_handler [])).log (Event.vmread VMCS_EXIT_REASON))
        else if m.vmcs_field VMCS_EXIT_REASON % 2 ^ 32 = VMEXIT_IO then
          handle_io_exit
            ((m.log (Event.call Fn.vmexit_handler [])).log (Event.vmread VMCS_EXIT_REASON))
        else if m.vmcs_field VMCS_EXIT_REASON % 2 ^ 32 = VMEXIT_EXCEPTION then
          handle_exception_exit
            ((m.log (Event.call Fn.vmexit_handler [])).log (Event.vmread VMCS_EXIT_REASON))
        else if m.vmcs_field VMCS_EXIT_REASON % 2 ^ 32 = VMEXIT_MSR_READ ∨
            m.vmcs_field VMCS_EXIT_REASON % 2 ^ 32 = VMEXIT_MSR_WRITE then
          handle_msr_exit
            ((m.log (Event.call Fn.vmexit_handler [])).log (Event.vmread VMCS_EXIT_REASON))
        else (m.log (Event.call Fn.vmexit_handler [])).log (Event.vmread VMCS_EXIT_REASON)) := by
  have h1 : adds_only P m
      ((m.log (Event.call Fn.vmexit_handler [])).log (Event.vmread VMCS_EXIT_REASON)) :=
    adds_only_log _ _ _ _ (hP _ rfl) (adds_only_log _ _ _ _ (hP _ rfl) (adds_only_refl P m))
  split
  · exact adds_only_handle_cpuid_exit _ _ _ hP h1
  · split
    · exact adds_only_handle_hlt_exit _ _ _ hP h1
    · split
      · exact adds_only_handle_io_exit _ _ _ hP h1
      · split
        · exact adds_only_handle_exception_exit _ _ _ hP h1
        · split
          · exact adds_only_handle_msr_exit _ _ _ hP h1
          · exact h1

/-- C12: for every value of the exit-reason field, `vmexit_handler` records
its entry, reads the exit reason, runs the handler selected by the reason
(`handle_cpuid_exit` for 10, `handle_hlt_exit` for 12, `handle_io_exit` for
30, `handle_exception_exit` for 0, `handle_msr_exit` for 31 and 32, nothing
otherwise) and then calls `vmresume` on whatever state the handler left,
without testing anything. Its trace is the old trace, then the events up to
the end of the selected handler, none of which is `vmresume` or `vmlaunch`,
then one `vmresume` as the last event. -/
theorem vmexit_handler_resumes_once (m : Machine) :
    ∃ evs m1,
      m1 =
        (if m.vmcs_field VMCS_EXIT_REASON % 2 ^ 32 = VMEXIT_CPUID then
          handle_cpuid_exit
            ((m.log (Event.call Fn.vmexit_handler [])).log (Event.vmread VMCS_EXIT_REASON))
        else if m.vmcs_field VMCS_EXIT_REASON % 2 ^ 32 = VMEXIT_HLT then
          handle_hlt_exit
            ((m.log (Event.call Fn.vmexit_handler [])).log (Event.vmread VMCS_EXIT_REASON))
        else if m.vmcs_field VMCS_EXIT_REASON % 2 ^ 32 = VMEXIT_IO then
          handle_io_exit
            ((m.log (Event.call Fn.vmexit_handler [])).log (Event.vmread VMCS_EXIT_REASON))
        else if m.vmcs_field VMCS_EXIT_REASON % 2 ^ 32 = VMEXIT_EXCEPTION then
          handle_exception_exit
            ((m.log (Event.call Fn.vmexit_handler [])).log (Event.vmread VMCS_EXIT_REASON))
        else if m.vmcs_field VMCS_EXIT_REASON % 2 ^ 32 = VMEXIT_MSR_READ ∨
            m.vmcs_field VMCS_EXIT_REASON % 2 ^ 32 = VMEXIT_MSR_WRITE then
          handle_msr_exit
            ((m.log (Event.call Fn.vmexit_handler [])).log (Event.vmread VMCS_EXIT_REASON))
        else (m.log (Event.call Fn.vmexit_handler [])).log (Event.vmread VMCS_EXIT_REASON)) ∧
      vmexit_handler m = vmresume m1 ∧ m1.trace = m.trace ++ evs ∧
      (vmexit_handler m).trace = m.trace ++ evs ++ [Event.vmresume] ∧
      (∀ e ∈ evs, Event.is_entry e = false) ∧
      List.count Event.vmresume (evs ++ [Event.vmresume]) = 1 ∧
      (evs ++ [Event.vmresume]).getLast? = some Event.vmresume := by
  obtain ⟨evs, h1, h2⟩ := adds_only_dispatch (fun e => Event.is_entry e = false) m
    (fun _ h => h)
  refine ⟨evs, _, rfl, vmexit_handler_eq m, h1, ?_, h2, ?_, ?_⟩
  · rw [vmexit_handler_eq, (vmresume_effect _).2.2.2.2.2.2.2.2.2.2.2.2.2.2, h1]
  · have h0 : List.count Event.vmresume evs = 0 := by
      apply List.count_eq_zero.mpr
      intro hmem
      have := h2 _ hmem
      simp [Event.is_entry] at this
    rw [List.count_append, h0]
    rfl
  · simp

/-- C13: when the exit reason (the field read as `uint32_t`) is none of 0, 10,
12, 30, 31, 32, `vmexit_handler` only reads the reason and resumes: no
handler is entered, no VMCS field, MSR, CR4, table, bitmap or global changes,
and no port is accessed. -/
theorem vmexit_handler_unknown_reason (m : Machine)
    (hr : m.vmcs_field VMCS_EXIT_REASON % 2 ^ 32 ∉ [0, 10, 12, 30, 31, 32]) :
    (vmexit_handler m).trace =
      m.trace ++
        [Event.call Fn.vmexit_handler [], Event.vmread VMCS_EXIT_REASON, Event.vmresume] ∧
    (vmexit_handler m).vmcs_field = m.vmcs_field ∧
    (vmexit_handler m).msr = m.msr ∧
    (vmexit_handler m).cr4 = m.cr4 ∧
    (vmexit_handler m).mem = m.mem ∧
    (vmexit_handler m).current_vmcs = m.current_vmcs ∧
    (vmexit_handler m).vtx_supported = m.vtx_supported ∧
    (vmexit_handler m).vmcs_revision_id = m.vmcs_revision_id ∧
    (vmexit_handler m).vmx_basic = m.vmx_basic ∧
    (vmexit_handler m).ept_pml4 = m.ept_pml4 ∧
    (vmexit_handler m).ept_pdpt = m.ept_pdpt ∧
    (vmexit_handler m).ept_pd = m.ept_pd ∧
    (vmexit_handler m).ept_pt = m.ept_pt := by
  simp only [List.mem_cons, List.mem_singleton, List.not_mem_nil, or_false, not_or] at hr
  obtain ⟨h0, h10, h12, h30, h31, h32⟩ := hr
  have e : vmexit_handler m =
      vmresume
        ((m.log (Event.call Fn.vmexit_handler [])).log (Event.vmread VMCS_EXIT_REASON)) := by
    rw [vmexit_handler_eq]
    rw [if_neg (show ¬ _ = VMEXIT_CPUID from h10), if_neg (show ¬ _ = VMEXIT_HLT from h12),
      if_neg (show ¬ _ = VMEXIT_IO from h30), if_neg (show ¬ _ = VMEXIT_EXCEPTION from h0),
      if_neg (show ¬ (_ = VMEXIT_MSR_READ ∨ _ = VMEXIT_MSR_WRITE) from
        fun h => h.elim h31 h32)]
  rw [e]
  simp only [vmresume_effect, log_effect, List.append_assoc, List.singleton_append,
    List.cons_append, List.nil_append, and_self]

/-- C13, instance: exit reason 48 (an EPT violation), which has no case. -/
theorem vmexit_handler_unknown_reason_witness :
    (exitMachine fun _ => 48).vmcs_field VMCS_EXIT_REASON % 2 ^ 32 ∉ [0, 10, 12, 30, 31, 32] ∧
    (vmexit_handler (exitMachine fun _ => 48)).trace =
      (exitMachine fun _ => 48).trace ++
        [Event.call Fn.vmexit_handler [], Event.vmread VMCS_EXIT_REASON, Event.vmresume] ∧
    (vmexit_handler (exitMachine fun _ => 48)).vmcs_field = (exitMachine fun _ => 48).vmcs_field :=
  have h := vmexit_handler_unknown_reason (exitMachine fun _ => 48) (by decide)
  ⟨by decide, h.1, h.2.1⟩

/-! ## Launch -/

theorem handle_port_out_eq (port value size : Nat) (hp : port < 2 ^ 16) (m : Machine) :
    handle_port_out port value size m =
      { m with trace := m.trace ++ Event.call Fn.handle_port_out [port, value, size] ::
          port_out_events port value } := by
  have e16 : u16 port = port := Nat.mod_eq_of_lt hp
  have e8 : u8 (u8 value) = value % 256 := by unfold u8; omega
  unfold handle_port_out port_out_events outb Machine.log
  by_cases h1 : port = 0x3F8
  · have h : ¬ (port = 0x3C8 ∨ port = 0x3C9) := by omega
    simp [h1]
  · by_cases h2 : port = 0x3F9
    · simp [h2]
    · by_cases h3 : port = 0x3C8 ∨ port = 0x3C9
      · simp [h1, h2, h3, e16, e8]
      · simp [h1, h2, h3]

theorem handle_port_in_eq (port size : Nat) (hp : port < 2 ^ 16) (m : Machine) :
    handle_port_in port size m =
      (port_in_value m port,
       { m with trace := m.trace ++ Event.call Fn.handle_port_in [port, size] ::
          port_in_events port }) := by
  have e16 : u16 port = port := Nat.mod_eq_of_lt hp
  unfold handle_port_in port_in_value port_in_events inb Machine.log
  by_cases h1 : port = 0x3F8
  · simp [h1]
  · by_cases h2 : port = 0x3FD
    · simp [h2]
    · by_cases h3 : port = 0x3C9
      · subst h3
        simp [u32, u8, u16]
        omega
      · simp [h1, h2, h3]

/-- C23: `handle_port_out(port, value, size)` performs a hardware write exactly
when `port` is 0x3C8 or 0x3C9, and then it is one `outb` of the low byte of
`value` to that same port; for every other port, the serial ports 0x3F8 and
0x3F9 included, no port is written. In both cases no VMCS field, hardware
register or global changes: the machine differs from the one before only by
the recorded call and, for a palette port, the `outb`. -/
theorem handle_port_out_palette_only (port value size : Nat) (hp : port < 2 ^ 16)
    (m : Machine) :
    handle_port_out port value size m =
      { m with trace := m.trace ++ Event.call Fn.handle_port_out [port, value, size] ::
          (if port = 0x3C8 ∨ port = 0x3C9 then [Event.outb port (value % 256)] else []) } :=
  handle_port_out_eq port value size hp m

/-- C23, instances: an OUT of 0x141 to palette port 0x3C8 writes the byte 0x41
to port 0x3C8; an OUT to serial port 0x3F8 and one to 0x3F9 write nothing. -/
theorem handle_port_out_palette_only_witness :
    (0x3C8 < 2 ^ 16 ∧
      (handle_port_out 0x3C8 0x141 1 bootMachine).trace =
        [Event.call Fn.handle_port_out [0x3C8, 0x141, 1], Event.outb 0x3C8 0x41]) ∧
    (0x3F8 < 2 ^ 16 ∧
      (handle_port_out 0x3F8 0x41 1 bootMachine).trace =
        [Event.call Fn.handle_port_out [0x3F8, 0x41, 1]]) ∧
    (0x3F9 < 2 ^ 16 ∧
      (handle_port_out 0x3F9 0x41 1 bootMachine).trace =
        [Event.call Fn.handle_port_out [0x3F9, 0x41, 1]]) := by
  refine ⟨⟨by decide, ?_⟩, ⟨by decide, ?_⟩, ⟨by decide, ?_⟩⟩
  · rw [handle_port_out_palette_only 0x3C8 0x141 1 (by decide) bootMachine]; rfl
  · rw [handle_port_out_palette_only 0x3F8 0x41 1 (by decide) bootMachine]; rfl
  · rw [handle_port_out_palette_only 0x3F9 0x41 1 (by decide) bootMachine]; rfl

/-- C24: for every port that `handle_port_in` has no case for (any port other
than 0x3F8, 0x3FD and 0x3C9, so in particular every port that is neither a
serial port nor a palette port) and every size, `handle_port_in` returns
0xFFFFFFFF and performs no hardware access: the machine differs from the one
before only by the recorded call. -/
theorem handle_port_in_unrecognised (port size : Nat) (m : Machine)
    (h1 : port ≠ 0x3F8) (h2 : port ≠ 0x3FD) (h3 : port ≠ 0x3C9) :
    handle_port_in port size m =
      (0xFFFFFFFF,
       { m with trace := m.trace ++ [Event.call Fn.handle_port_in [port, size]] }) := by
  unfold handle_port_in Machine.log
  simp [h1, h2, h3]

/-- C24, instance: a 4-byte IN from port 0x60 on a machine whose ports all
read 0x2A returns 0xFFFFFFFF and reads no port. -/
theorem handle_port_in_unrecognised_witness :
    (0x60 ≠ 0x3F8 ∧ 0x60 ≠ 0x3FD ∧ 0x60 ≠ 0x3C9) ∧
    (handle_port_in 0x60 3 paletteMachine).1 = 0xFFFFFFFF ∧
    (handle_port_in 0x60 3 paletteMachine).2.trace =
      [Event.call Fn.handle_port_in [0x60, 3]] := by
  refine ⟨by decide, ?_⟩
  rw [handle_port_in_unrecognised 0x60 3 paletteMachine (by decide) (by decide) (by decide)]
  exact ⟨rfl, rfl⟩

/-- C25, counterexample: on a machine whose port 0x3C8 reads 0x2A, a read of
palette port 0x3C8 returns 0xFFFFFFFF, not the hardware value, and no port is
read, although `handle_port_out` does pass a write to 0x3C8 through. -/
theorem handle_port_in_0x3C8_not_passed_through :
    paletteMachine.inb_hw 0x3C8 = 0x2A ∧
    (handle_port_in 0x3C8 1 paletteMachine).1 = 0xFFFFFFFF ∧
    (handle_port_in 0x3C8 1 paletteMachine).1 ≠ paletteMachine.inb_hw 0x3C8 ∧
    (handle_port_in 0x3C8 1 paletteMachine).2.trace =
      [Event.call Fn.handle_port_in [0x3C8, 1]] ∧
    (handle_port_out 0x3C8 0x2A 1 paletteMachine).trace =
      [Event.call Fn.handle_port_out [0x3C8, 0x2A, 1], Event.outb 0x3C8 0x2A] := by
  refine ⟨rfl, rfl, by decide, rfl, rfl⟩

/-- C25, amended: a read of the palette data port 0x3C9 is passed through to
real hardware: for every size, `handle_port_in(0x3C9, size)` performs one `inb`
of port 0x3C9 and returns the byte read; nothing else changes. -/
theorem handle_port_in_palette_data (size : Nat) (m : Machine) :
    handle_port_in 0x3C9 size m =
      (m.inb_hw 0x3C9 % 256,
       { m with trace := m.trace ++
          [Event.call Fn.handle_port_in [0x3C9, size], Event.inb 0x3C9] }) := by
  rw [handle_port_in_eq 0x3C9 size (by decide) m]
  rfl

/-- C26: for every exception exit, whatever the qualification word (so also
for vectors 0, 6 and 13), `handle_exception_exit` only reads the qualification
field: it writes no VMCS field (nothing is injected), no port and no MSR, and
the machine differs from the one before only by the recorded call and read. -/
theorem handle_exception_exit_no_action (m : Machine) :
    handle_exception_exit m =
      { m with trace := m.trace ++
          [Event.call Fn.handle_exception_exit [],
           Event.vmread VMCS_EXIT_QUALIFICATION] } := by
  unfold handle_exception_exit vmread Machine.log
  simp

theorem combine32 (hi lo : Nat) (hhi : hi < 2 ^ 32) (hlo : lo < 2 ^ 32) :
    u64 (u64 hi <<< 32) ||| lo = hi * 2 ^ 32 + lo := by
  have e1 : u64 hi = hi := by unfold u64; omega
  rw [e1, Nat.shiftLeft_eq]
  have e2 : u64 (hi * 2 ^ 32) = 2 ^ 32 * hi := by unfold u64; omega
  rw [e2, ← Nat.mul_add_lt_is_or hlo hi]
  ring

theorem read_msr_eq (idx : Nat) (m : Machine) :
    read_msr idx m =
      (m.msr idx % 2 ^ 64,
       { m with trace := m.trace ++ [Event.call Fn.read_msr [idx], Event.rdmsr idx] }) := by
  have hv : u64 (u64 (u32 (m.msr idx >>> 32)) <<< 32) ||| u32 (m.msr idx) =
      m.msr idx % 2 ^ 64 := by
    have h1 : u32 (m.msr idx >>> 32) < 2 ^ 32 := Nat.mod_lt _ (by norm_num)
    have h2 : u32 (m.msr idx) < 2 ^ 32 := Nat.mod_lt _ (by norm_num)
    rw [combine32 _ _ h1 h2, Nat.shiftRight_eq_div_pow]
    unfold u32
    omega
  unfold read_msr Machine.log
  simp [hv]

theorem write_msr_eq (idx value : Nat) (m : Machine) :
    write_msr idx value m =
      { m with
        msr := fun i => if i = idx then value % 2 ^ 64 else m.msr i,
        trace := m.trace ++
          [Event.call Fn.write_msr [idx, value],
           Event.wrmsr idx (value % 2 ^ 32) (value / 2 ^ 32 % 2 ^ 32)] } := by
  have hl : u32 (value &&& 0xFFFFFFFF) = value % 2 ^ 32 := by
    have := Nat.and_pow_two_sub_one_eq_mod value 32
    norm_num at this
    rw [this]
    unfold u32
    omega
  have hh : u32 (value >>> 32) = value / 2 ^ 32 % 2 ^ 32 := by
    rw [Nat.shiftRight_eq_div_pow]
    rfl
  unfold write_msr Machine.log
  simp [hl, hh]
  funext i
  split
  · omega
  · rfl

theorem low_half (v : Nat) : u64 (v % 2 ^ 64 &&& 0xFFFFFFFF) = v % 2 ^ 64 % 2 ^ 32 := by
  generalize v % 2 ^ 64 = w
  have h : w &&& 0xFFFFFFFF = w % 2 ^ 32 := by
    simpa using Nat.and_pow_two_sub_one_eq_mod w 32
  rw [h]
  unfold u64
  omega

theorem high_half (v : Nat) : u64 ((v % 2 ^ 64) >>> 32) = v % 2 ^ 64 / 2 ^ 32 := by
  have hw : v % 2 ^ 64 < 2 ^ 64 := Nat.mod_lt _ (by norm_num)
  generalize v % 2 ^ 64 = w at hw
  rw [Nat.shiftRight_eq_div_pow]
  unfold u64
  omega

/-- C21: on an MSR-read exit (reason 31) `handle_msr_exit` takes the register
index from the low 32 bits of the guest counter field `VMCS_GUEST_RCX`
(0x681A), reads the hardware register at that index with `rdmsr`, and for its
64-bit value `v` writes `v mod 2^32` to the guest accumulator field and
`v / 2^32` to the guest data-register field. No hardware register is written:
the machine differs from the one before only in those two fields and in the
recorded actions, none of which is a `wrmsr`. -/
theorem handle_msr_exit_read (m : Machine)
    (hr : m.vmcs_field VMCS_EXIT_REASON % 2 ^ 32 = VMEXIT_MSR_READ) :
    handle_msr_exit m =
      { m with
        vmcs_field := fun f =>
          if f = VMCS_GUEST_RDX then
            m.msr (m.vmcs_field VMCS_GUEST_RCX % 2 ^ 32) % 2 ^ 64 / 2 ^ 32
          else if f = VMCS_GUEST_RAX then
            m.msr (m.vmcs_field VMCS_GUEST_RCX % 2 ^ 32) % 2 ^ 64 % 2 ^ 32
          else m.vmcs_field f,
        trace := m.trace ++
          [Event.call Fn.handle_msr_exit [],
           Event.vmread VMCS_EXIT_REASON,
           Event.vmread VMCS_GUEST_RCX,
           Event.call Fn.read_msr [m.vmcs_field VMCS_GUEST_RCX % 2 ^ 32],
           Event.rdmsr (m.vmcs_field VMCS_GUEST_RCX % 2 ^ 32),
           Event.vmwrite VMCS_GUEST_RAX
             (m.msr (m.vmcs_field VMCS_GUEST_RCX % 2 ^ 32) % 2 ^ 64 % 2 ^ 32),
           Event.vmwrite VMCS_GUEST_RDX
             (m.msr (m.vmcs_field VMCS_GUEST_RCX % 2 ^ 32) % 2 ^ 64 / 2 ^ 32)] } := by
  unfold handle_msr_exit
  simp only [vmread, vmwrite, Machine.log, read_msr_eq, u32_u64, hr, if_true, low_half,
    high_half, List.append_assoc, List.singleton_append, List.cons_append, List.nil_append]

/-- C22: on an MSR-write exit (reason 32) `handle_msr_exit` writes, with one
`wrmsr`, the hardware register whose index is the low 32 bits of the guest
counter field; the value written is `high * 2^32 + low`, where `low` and
`high` are the low 32 bits of the guest accumulator and data-register fields.
No VMCS field changes: the machine differs from the one before only in that
register and in the recorded actions. The split of `write_msr` into two halves
loses nothing: a 64-bit value is stored as it was passed. -/
theorem handle_msr_exit_write (m : Machine)
    (hr : m.vmcs_field VMCS_EXIT_REASON % 2 ^ 32 = VMEXIT_MSR_WRITE) :
    handle_msr_exit m =
      { m with
        msr := fun i =>
          if i = m.vmcs_field VMCS_GUEST_RCX % 2 ^ 32 then
            m.vmcs_field VMCS_GUEST_RDX % 2 ^ 32 * 2 ^ 32 +
              m.vmcs_field VMCS_GUEST_RAX % 2 ^ 32
          else m.msr i,
        trace := m.trace ++
          [Event.call Fn.handle_msr_exit [],
           Event.vmread VMCS_EXIT_REASON,
           Event.vmread VMCS_GUEST_RCX,
           Event.vmread VMCS_GUEST_RAX,
           Event.vmread VMCS_GUEST_RDX,
           Event.call Fn.write_msr
             [m.vmcs_field VMCS_GUEST_RCX % 2 ^ 32,
              m.vmcs_field VMCS_GUEST_RDX % 2 ^ 32 * 2 ^ 32 +
                m.vmcs_field VMCS_GUEST_RAX % 2 ^ 32],
           Event.wrmsr (m.vmcs_field VMCS_GUEST_RCX % 2 ^ 32)
             (m.vmcs_field VMCS_GUEST_RAX % 2 ^ 32)
             (m.vmcs_field VMCS_GUEST_RDX % 2 ^ 32)] } ∧
    ∀ (i v : Nat) (n : Machine), v < 2 ^ 64 → (write_msr i v n).msr i = v := by
  have hne : ¬ (VMEXIT_MSR_WRITE = VMEXIT_MSR_READ) := by decide
  have hv : u64 (u64 (m.vmcs_field VMCS_GUEST_RDX % 2 ^ 32) <<< 32) |||
      u64 (m.vmcs_field VMCS_GUEST_RAX % 2 ^ 32) =
      m.vmcs_field VMCS_GUEST_RDX % 2 ^ 32 * 2 ^ 32 + m.vmcs_field VMCS_GUEST_RAX % 2 ^ 32 := by
    have e : u64 (m.vmcs_field VMCS_GUEST_RAX % 2 ^ 32) =
        m.vmcs_field VMCS_GUEST_RAX % 2 ^ 32 := by unfold u64; omega
    rw [e]
    exact combine32 _ _ (Nat.mod_lt _ (by norm_num)) (Nat.mod_lt _ (by norm_num))
  have h1 : (m.vmcs_field VMCS_GUEST_RDX % 2 ^ 32 * 2 ^ 32 +
      m.vmcs_field VMCS_GUEST_RAX % 2 ^ 32) % 2 ^ 64 =
      m.vmcs_field VMCS_GUEST_RDX % 2 ^ 32 * 2 ^ 32 + m.vmcs_field VMCS_GUEST_RAX % 2 ^ 32 := by
    omega
  have h2 : (m.vmcs_field VMCS_GUEST_RDX % 2 ^ 32 * 2 ^ 32 +
      m.vmcs_field VMCS_GUEST_RAX % 2 ^ 32) % 2 ^ 32 =
      m.vmcs_field VMCS_GUEST_RAX % 2 ^ 32 := by
    omega
  have h3 : (m.vmcs_field VMCS_GUEST_RDX % 2 ^ 32 * 2 ^ 32 +
      m.vmcs_field VMCS_GUEST_RAX % 2 ^ 32) / 2 ^ 32 % 2 ^ 32 =
      m.vmcs_field VMCS_GUEST_RDX % 2 ^ 32 := by
    omega
  constructor
  · unfold handle_msr_exit
    simp only [vmread, Machine.log, write_msr_eq, u32_u64, hr, hne, if_false, hv, h1, h2, h3,
      List.append_assoc, List.singleton_append, List.cons_append, List.nil_append]
  · intro i v n hv64
    rw [write_msr_eq]
    simp only [if_true]
    exact Nat.mod_eq_of_lt hv64

/-- C21, instance: register 0x10 holds 0x123456789ABCDEF0; after the read exit
the accumulator field holds 0x9ABCDEF0, the data-register field 0x12345678, and
the hardware register is as before. -/
theorem handle_msr_exit_read_witness :
    (msrExitMachine 31).vmcs_field VMCS_EXIT_REASON % 2 ^ 32 = VMEXIT_MSR_READ ∧
    (handle_msr_exit (msrExitMachine 31)).vmcs_field VMCS_GUEST_RAX = 0x9ABCDEF0 ∧
    (handle_msr_exit (msrExitMachine 31)).vmcs_field VMCS_GUEST_RDX = 0x12345678 ∧
    (handle_msr_exit (msrExitMachine 31)).msr 0x10 = 0x123456789ABCDEF0 := by
  refine ⟨by decide, ?_⟩
  rw [handle_msr_exit_read (msrExitMachine 31) (by decide)]
  exact ⟨by decide, by decide, by decide⟩

/-- C22, instance: accumulator 0x11223344, data register 0x55667788 and
counter 0x10; after the write exit hardware register 0x10 holds
0x5566778811223344 and the accumulator field is as before. -/
theorem handle_msr_exit_write_witness :
    (msrExitMachine 32).vmcs_field VMCS_EXIT_REASON % 2 ^ 32 = VMEXIT_MSR_WRITE ∧
    (handle_msr_exit (msrExitMachine 32)).msr 0x10 = 0x5566778811223344 ∧
    (handle_msr_exit (msrExitMachine 32)).vmcs_field VMCS_GUEST_RAX = 0x11223344 := by
  refine ⟨by decide, ?_⟩
  rw [(handle_msr_exit_write (msrExitMachine 32) (by decide)).1]
  exact ⟨by decide, by decide⟩

/-- C29: the code at the failing input. The field indices of the guest
accumulator and base register are those of the guest instruction pointer and
stack pointer (0x681E and 0x681C), so a CPUID exit taken with both fields at
0x7C00 reads leaf 0x7C00 from the instruction-pointer field and leaves 0 in
the instruction-pointer field and 0 in the stack-pointer field. -/
theorem handle_cpuid_exit_overwrites_rip_rsp :
    VMCS_GUEST_RAX = VMCS_GUEST_RIP ∧
    VMCS_GUEST_RBX = VMCS_GUEST_RSP ∧
    (exitMachine fun _ => 0x7C00).vmcs_field VMCS_GUEST_RIP = 0x7C00 ∧
    (exitMachine fun _ => 0x7C00).vmcs_field VMCS_GUEST_RSP = 0x7C00 ∧
    (handle_cpuid_exit (exitMachine fun _ => 0x7C00)).vmcs_field VMCS_GUEST_RIP = 0 ∧
    (handle_cpuid_exit (exitMachine fun _ => 0x7C00)).vmcs_field VMCS_GUEST_RSP = 0 := by
  refine ⟨rfl, rfl, rfl, rfl, ?_, ?_⟩
  · rw [(handle_cpuid_exit_fields (exitMachine fun _ => 0x7C00) 0 0 0 0 (by decide)).1]
    decide
  · rw [(handle_cpuid_exit_fields (exitMachine fun _ => 0x7C00) 0 0 0 0 (by decide)).1]
    decide

/-- C30: every port with a case of its own in `handle_port_out` or
`handle_port_in` (0x3F8, 0x3F9, 0x3FD, 0x3C8, 0x3C9) has its trap bit set in
the I/O bitmaps that `setup_vmcs_features` builds, and none of them is on the
allow-list; every port outside that set takes the default path of both
handlers (the write is ignored, the read returns 0xFFFFFFFF). -/
theorem emulated_ports_trapped (L : Layout) (m : Machine) :
    (∀ p ∈ emulated_ports,
      io_trap_bit (setup_vmcs_features L m) p = true ∧ p ∉ io_allow_list) ∧
    (∀ (p v s : Nat) (n : Machine), p ∉ emulated_ports →
      handle_port_out p v s n =
        { n with trace := n.trace ++ [Event.call Fn.handle_port_out [p, v, s]] } ∧
      handle_port_in p s n =
        (0xFFFFFFFF,
         { n with trace := n.trace ++ [Event.call Fn.handle_port_in [p, s]] })) := by
  constructor
  · intro p hp
    have hlt : p < 65536 := by
      unfold emulated_ports at hp
      simp only [List.mem_cons, List.mem_singleton, List.not_mem_nil, or_false] at hp
      omega
    have hnot : p ∉ io_allow_list := by
      unfold emulated_ports at hp
      unfold io_allow_list
      simp only [List.mem_cons, List.mem_singleton, List.not_mem_nil, or_false] at hp ⊢
      omega
    refine ⟨?_, hnot⟩
    have h := setup_vmcs_features_trap_bit L m p hlt
    cases hb : io_trap_bit (setup_vmcs_features L m) p
    · exact absurd (h.1 hb) hnot
    · rfl
  · intro p v s n hp
    unfold emulated_ports at hp
    simp only [List.mem_cons, List.mem_singleton, List.not_mem_nil, or_false, not_or] at hp
    obtain ⟨h1, h2, h3, h4, h5⟩ := hp
    constructor
    · unfold handle_port_out Machine.log
      simp [h1, h2, h4, h5]
    · unfold handle_port_in Machine.log
      simp [h1, h3, h5]

theorem bits_eq (a b lo w : Nat)
    (h : ∀ i, lo ≤ i → i < lo + w → a.testBit i = b.testBit i) :
    a / 2 ^ lo % 2 ^ w = b / 2 ^ lo % 2 ^ w := by
  apply Nat.eq_of_testBit_eq
  intro i
  rw [Nat.testBit_mod_two_pow, Nat.testBit_mod_two_pow, ← Nat.shiftRight_eq_div_pow,
    ← Nat.shiftRight_eq_div_pow, Nat.testBit_shiftRight, Nat.testBit_shiftRight]
  by_cases hi : i < w
  · rw [h (lo + i) (by omega) (by omega)]
  · simp [hi]

theorem handle_io_exit_decoded (m : Machine) (q2 : Nat)
    (hd : q2 % 2 = m.vmcs_field VMCS_EXIT_QUALIFICATION % 2)
    (hs : q2 / 2 ^ 5 % 2 ^ 2 = m.vmcs_field VMCS_EXIT_QUALIFICATION / 2 ^ 5 % 2 ^ 2)
    (hp : q2 / 2 ^ 16 % 2 ^ 16 = m.vmcs_field VMCS_EXIT_QUALIFICATION / 2 ^ 16 % 2 ^ 16) :
    handle_io_exit (with_qualification m q2) = with_qualification (handle_io_exit m) q2 := by
  obtain ⟨e1, e2, e3⟩ := io_decode (m.vmcs_field VMCS_EXIT_QUALIFICATION)
  obtain ⟨f1, f2, f3⟩ := io_decode q2
  rw [hp] at f1
  rw [hs] at f2
  rw [hd] at f3
  have hlt : m.vmcs_field VMCS_EXIT_QUALIFICATION / 2 ^ 16 % 2 ^ 16 < 2 ^ 16 :=
    Nat.mod_lt _ (by norm_num)
  have hne : ¬ (VMCS_GUEST_RAX = VMCS_EXIT_QUALIFICATION) := by decide
  have hq : (with_qualification m q2).vmcs_field VMCS_EXIT_QUALIFICATION = q2 := by
    unfold with_qualification
    simp only [if_true]
  have hrax : (with_qualification m q2).vmcs_field VMCS_GUEST_RAX =
      m.vmcs_field VMCS_GUEST_RAX := by
    unfold with_qualification
    simp only [hne, if_false]
  have hin : ∀ p, port_in_value (with_qualification m q2) p = port_in_value m p := by
    intro p
    rfl
  unfold handle_io_exit
  simp only [vmread_fst, vmread_snd, log_effect, hq, hrax, e1, e2, e3, f1, f2, f3]
  by_cases hdir : m.vmcs_field VMCS_EXIT_QUALIFICATION % 2 = 0
  · simp only [hdir, if_true, handle_port_out_eq _ _ _ hlt, log_effect]
    rfl
  · simp only [hdir, if_false, handle_port_in_eq _ _ hlt, port_in_value_log, hin]
    unfold vmwrite with_qualification Machine.log
    simp only [Machine.mk.injEq, true_and, and_true]
    funext f
    by_cases hf : f = VMCS_GUEST_RAX
    · subst hf
      simp only [hne, if_true, if_false]
    · simp only [hf, if_false]

theorem with_qualification_twice (m : Machine) (q1 q2 : Nat) :
    with_qualification (with_qualification m q1) q2 = with_qualification m q2 := by
  unfold with_qualification
  simp only [Machine.mk.injEq, true_and, and_true]
  funext f
  by_cases hf : f = VMCS_EXIT_QUALIFICATION
  · simp only [hf, if_true]
  · simp only [hf, if_false]

/-- C28: the string-instruction bit (bit 4) of the I/O qualification word is
ignored. If two qualification words agree on bit 0 (direction), bits 6:5
(size) and bits 31:16 (port), as two words that differ only in bit 4 do, then
on the same machine (same accumulator, same hardware) `handle_io_exit` records
the same actions, with the same handler call and arguments, and leaves the
same state: the two results differ only in the qualification field itself,
which the handler never writes. -/
theorem handle_io_exit_ignores_string_bit (m : Machine) (q1 q2 : Nat)
    (h : ∀ i, (i = 0 ∨ i = 5 ∨ i = 6 ∨ (16 ≤ i ∧ i < 32)) → q1.testBit i = q2.testBit i) :
    handle_io_exit (with_qualification m q2) =
      with_qualification (handle_io_exit (with_qualification m q1)) q2 ∧
    (handle_io_exit (with_qualification m q2)).trace =
      (handle_io_exit (with_qualification m q1)).trace ∧
    (∀ f, f ≠ VMCS_EXIT_QUALIFICATION →
      (handle_io_exit (with_qualification m q2)).vmcs_field f =
        (handle_io_exit (with_qualification m q1)).vmcs_field f) := by
  have hq : (with_qualification m q1).vmcs_field VMCS_EXIT_QUALIFICATION = q1 := by
    unfold with_qualification
    simp only [if_true]
  have hd : q2 % 2 = q1 % 2 := by
    have := bits_eq q2 q1 0 1 (fun i h1 h2 => (h i (by omega)).symm)
    simpa using this
  have hs : q2 / 2 ^ 5 % 2 ^ 2 = q1 / 2 ^ 5 % 2 ^ 2 :=
    bits_eq q2 q1 5 2 (fun i h1 h2 => (h i (by omega)).symm)
  have hp : q2 / 2 ^ 16 % 2 ^ 16 = q1 / 2 ^ 16 % 2 ^ 16 :=
    bits_eq q2 q1 16 16 (fun i h1 h2 => (h i (by omega)).symm)
  have key := handle_io_exit_decoded (with_qualification m q1) q2
    (by rw [hq]; exact hd) (by rw [hq]; exact hs) (by rw [hq]; exact hp)
  rw [with_qualification_twice] at key
  refine ⟨key, ?_, ?_⟩
  · rw [key]
    rfl
  · intro f hf
    rw [key]
    unfold with_qualification
    simp only [hf, if_false]

/-- C28, instance: an OUT to port 0x3C8 with accumulator 0x41, once with the
string bit clear (0x03C80000) and once with it set (0x03C80010): the same
actions are recorded, ending in the same write of 0x41 to port 0x3C8. -/
theorem handle_io_exit_ignores_string_bit_witness :
    (∀ i, (i = 0 ∨ i = 5 ∨ i = 6 ∨ (16 ≤ i ∧ i < 32)) →
      (0x03C80000 : Nat).testBit i = (0x03C80010 : Nat).testBit i) ∧
    (handle_io_exit (with_qualification (exitMachine fun _ => 0x41) 0x03C80010)).trace =
      (handle_io_exit (with_qualification (exitMachine fun _ => 0x41) 0x03C80000)).trace ∧
    (handle_io_exit (with_qualification (exitMachine fun _ => 0x41) 0x03C80010)).trace =
      [Event.call Fn.handle_io_exit [], Event.vmread VMCS_EXIT_QUALIFICATION,
       Event.vmread VMCS_GUEST_RAX, Event.call Fn.handle_port_out [0x3C8, 0x41, 0],
       Event.outb 0x3C8 0x41] := by
  have hb : ∀ i, (i = 0 ∨ i = 5 ∨ i = 6 ∨ (16 ≤ i ∧ i < 32)) →
      (0x03C80000 : Nat).testBit i = (0x03C80010 : Nat).testBit i := by
    intro i hi
    rcases hi with rfl | rfl | rfl | ⟨h1, h2⟩
    · decide
    · decide
    · decide
    · interval_cases i <;> decide
  exact ⟨hb,
    (handle_io_exit_ignores_string_bit (exitMachine fun _ => 0x41) 0x03C80000 0x03C80010 hb).2.1,
    by decide⟩

/-- C30, instance: with the sample layout, the palette port 0x3C8 and the
serial port 0x3F8 are trapped after `setup_vmcs_features`. -/
theorem emulated_ports_trapped_witness :
    (0x3C8 ∈ emulated_ports ∧
      io_trap_bit (setup_vmcs_features sampleLayout bootMachine) 0x3C8 = true) ∧
    (0x3F8 ∈ emulated_ports ∧
      io_trap_bit (setup_vmcs_features sampleLayout bootMachine) 0x3F8 = true) :=
  ⟨⟨by decide, ((emulated_ports_trapped sampleLayout bootMachine).1 0x3C8 (by decide)).1⟩,
   ⟨by decide, ((emulated_ports_trapped sampleLayout bootMachine).1 0x3F8 (by decide)).1⟩⟩

end BucketOS
